import Mathlib

/-!
# Bochs VBE display adapter (`src/pce/hw/bochs_vga.cpp`)

A shallow embedding of `HW::BochsVGA`: the VBE register file behind the
index/data port pair, the snapshot section, the bus mappings of the linear
framebuffer, the bank window and the BIOS ROM, and the render latch.

Machine integers are natural numbers; where the C++ arithmetic is done in a
fixed width the reduction modulo `2 ^ w` is written out.
-/

namespace HW

/-! ## Constants of `bochs_vga.h` -/

/-- Compile-time constants declared in `pce/hw/bochs_vga.h`.  The header is not
part of the sources at hand, so every constant the code refers to is a field
here and the development is parametric in them. -/
structure Consts where
  VBE_DISPI_INDEX_ID : Nat
  VBE_DISPI_INDEX_XRES : Nat
  VBE_DISPI_INDEX_YRES : Nat
  VBE_DISPI_INDEX_BPP : Nat
  VBE_DISPI_INDEX_ENABLE : Nat
  VBE_DISPI_INDEX_BANK : Nat
  VBE_DISPI_INDEX_VIRT_WIDTH : Nat
  VBE_DISPI_INDEX_VIRT_HEIGHT : Nat
  VBE_DISPI_INDEX_X_OFFSET : Nat
  VBE_DISPI_INDEX_Y_OFFSET : Nat
  VBE_DISPI_INDEX_VIDEO_MEMORY_64K : Nat
  VBE_DISPI_INDEX_DDC : Nat
  VBE_DISPI_ID0 : Nat
  VBE_DISPI_ID5 : Nat
  VBE_DISPI_BANK_ADDRESS : Nat
  VBE_DISPI_BANK_SIZE : Nat
  VBE_DISPI_MAX_XRES : Nat
  VBE_DISPI_MAX_YRES : Nat
  VBE_DISPI_MAX_BPP : Nat
  SERIALIZATION_ID : Nat
  BIOS_ROM_SIZE : Nat
  /-- Bit position of `m_vbe_enable.enable` inside `m_vbe_enable.bits`. -/
  bit_enable : Nat
  /-- Bit position of `m_vbe_enable.read_capabilities`. -/
  bit_read_capabilities : Nat
  /-- Bit position of `m_vbe_enable.dac_8bit`. -/
  bit_dac_8bit : Nat
  /-- Bit position of `m_vbe_enable.lfb_enable`. -/
  bit_lfb_enable : Nat
  /-- Bit position of `m_vbe_enable.no_clear_mem`. -/
  bit_no_clear_mem : Nat
  deriving DecidableEq, Repr

/-- The case labels of the two `switch (m_vbe_index_register)` statements, in
source order. -/
def Consts.indexLabels (c : Consts) : List Nat :=
  [c.VBE_DISPI_INDEX_ID, c.VBE_DISPI_INDEX_XRES, c.VBE_DISPI_INDEX_YRES,
   c.VBE_DISPI_INDEX_BPP, c.VBE_DISPI_INDEX_ENABLE, c.VBE_DISPI_INDEX_BANK,
   c.VBE_DISPI_INDEX_VIRT_WIDTH, c.VBE_DISPI_INDEX_VIRT_HEIGHT,
   c.VBE_DISPI_INDEX_X_OFFSET, c.VBE_DISPI_INDEX_Y_OFFSET,
   c.VBE_DISPI_INDEX_VIDEO_MEMORY_64K, c.VBE_DISPI_INDEX_DDC]

/-- What the C++ compiler and the types guarantee about the constants: the case
labels of a `switch` are pairwise distinct, `VBE_DISPI_BANK_SIZE` and
`SERIALIZATION_ID` are `u32` values. -/
def Consts.WF (c : Consts) : Prop :=
  c.indexLabels.Nodup ∧ c.VBE_DISPI_BANK_SIZE < 2 ^ 32 ∧ c.SERIALIZATION_ID < 2 ^ 32

instance (c : Consts) : Decidable c.WF := by
  unfold Consts.WF; exact inferInstance

/-- The values of the Bochs VBE display interface, used wherever concrete
constants are needed. -/
def bochsConsts : Consts where
  VBE_DISPI_INDEX_ID := 0
  VBE_DISPI_INDEX_XRES := 1
  VBE_DISPI_INDEX_YRES := 2
  VBE_DISPI_INDEX_BPP := 3
  VBE_DISPI_INDEX_ENABLE := 4
  VBE_DISPI_INDEX_BANK := 5
  VBE_DISPI_INDEX_VIRT_WIDTH := 6
  VBE_DISPI_INDEX_VIRT_HEIGHT := 7
  VBE_DISPI_INDEX_X_OFFSET := 8
  VBE_DISPI_INDEX_Y_OFFSET := 9
  VBE_DISPI_INDEX_VIDEO_MEMORY_64K := 10
  VBE_DISPI_INDEX_DDC := 11
  VBE_DISPI_ID0 := 0xB0C0
  VBE_DISPI_ID5 := 0xB0C5
  VBE_DISPI_BANK_ADDRESS := 0xA0000
  VBE_DISPI_BANK_SIZE := 65536
  VBE_DISPI_MAX_XRES := 2560
  VBE_DISPI_MAX_YRES := 1600
  VBE_DISPI_MAX_BPP := 32
  SERIALIZATION_ID := 0x42564741
  BIOS_ROM_SIZE := 65536
  bit_enable := 0
  bit_read_capabilities := 1
  bit_dac_8bit := 5
  bit_lfb_enable := 6
  bit_no_clear_mem := 7

/-- The registers selected by the case labels of `switch (m_vbe_index_register)`. -/
inductive VBEIndex where
  | ID | XRES | YRES | BPP | ENABLE | BANK | VIRT_WIDTH | VIRT_HEIGHT
  | X_OFFSET | Y_OFFSET | VIDEO_MEMORY_64K | DDC
  deriving DecidableEq, Repr

/-- Case selection of `switch (m_vbe_index_register)`: the label equal to the
index register, `none` for the `default:` branch. -/
def decodeIndex (c : Consts) (i : Nat) : Option VBEIndex :=
  if i = c.VBE_DISPI_INDEX_ID then some .ID
  else if i = c.VBE_DISPI_INDEX_XRES then some .XRES
  else if i = c.VBE_DISPI_INDEX_YRES then some .YRES
  else if i = c.VBE_DISPI_INDEX_BPP then some .BPP
  else if i = c.VBE_DISPI_INDEX_ENABLE then some .ENABLE
  else if i = c.VBE_DISPI_INDEX_BANK then some .BANK
  else if i = c.VBE_DISPI_INDEX_VIRT_WIDTH then some .VIRT_WIDTH
  else if i = c.VBE_DISPI_INDEX_VIRT_HEIGHT then some .VIRT_HEIGHT
  else if i = c.VBE_DISPI_INDEX_X_OFFSET then some .X_OFFSET
  else if i = c.VBE_DISPI_INDEX_Y_OFFSET then some .Y_OFFSET
  else if i = c.VBE_DISPI_INDEX_VIDEO_MEMORY_64K then some .VIDEO_MEMORY_64K
  else if i = c.VBE_DISPI_INDEX_DDC then some .DDC
  else none

/-! ## Binary streams -/

/-- Modelled from the spec: `BinaryWriter` of YBaseLib is not among the sources.
A snapshot stream is "an ordered byte sequence"; the writer is the bytes written
so far and the stream's error flag. -/
structure BinaryWriter where
  data : List Nat
  error : Bool
  deriving DecidableEq, Repr

/-- Modelled from the spec: `BinaryReader` of YBaseLib is not among the sources.
The reader is the bytes not yet consumed and the stream's error flag, which a
read past the end of the stream sets ("truncated stream") and nothing clears. -/
structure BinaryReader where
  data : List Nat
  error : Bool
  deriving DecidableEq, Repr

/-- Modelled from the spec: `BinaryWriter::WriteUInt16`, two bytes in host
(little-endian) order appended to the stream. -/
def BinaryWriter.WriteUInt16 (w : BinaryWriter) (v : Nat) : BinaryWriter :=
  { w with data := w.data ++ [v % 256, v / 256 % 256] }

/-- Modelled from the spec: `BinaryWriter::WriteUInt32`, four bytes in host
(little-endian) order appended to the stream. -/
def BinaryWriter.WriteUInt32 (w : BinaryWriter) (v : Nat) : BinaryWriter :=
  { w with data := w.data ++ [v % 256, v / 256 % 256, v / 65536 % 256, v / 16777216 % 256] }

/-- Modelled from the spec: `BinaryWriter::InErrorState`. -/
def BinaryWriter.InErrorState (w : BinaryWriter) : Bool := w.error

/-- Modelled from the spec: `BinaryReader::ReadUInt32`.  With four bytes left it
returns their little-endian value; on a truncated stream it returns zero, the
stream is exhausted and in the error state. -/
def BinaryReader.ReadUInt32 (r : BinaryReader) : Nat × BinaryReader :=
  match r.data with
  | b0 :: b1 :: b2 :: b3 :: rest =>
      (b0 % 256 + 256 * (b1 % 256) + 65536 * (b2 % 256) + 16777216 * (b3 % 256),
       { r with data := rest })
  | _ => (0, { data := [], error := true })

/-- Modelled from the spec: `BinaryReader::SafeReadUInt16(&dst)`.  With two bytes
left the destination receives their little-endian value; on a truncated stream
the destination keeps its value `dst`, the stream is exhausted and in the error
state. -/
def BinaryReader.SafeReadUInt16 (r : BinaryReader) (dst : Nat) : Nat × BinaryReader :=
  match r.data with
  | b0 :: b1 :: rest => (b0 % 256 + 256 * (b1 % 256), { r with data := rest })
  | _ => (dst, { data := [], error := true })

/-- Modelled from the spec: `BinaryReader::GetErrorState`. -/
def BinaryReader.GetErrorState (r : BinaryReader) : Bool := r.error

/-! ## Bus regions -/

/-- Buffers a direct region can expose. -/
inductive Buffer where
  | vram
  | biosRom
  deriving DecidableEq, Repr

/-- The handler sets built in `UpdateVGAMemoryMapping` (lines 199-235 and
247-249): which lambdas a complex region carries. -/
inductive Handlers where
  /-- Lines 203-208: `read_byte`/`write_byte` through `HandleVGAVRAMRead/Write`
  at `m_vbe_bank * VBE_DISPI_BANK_SIZE`. -/
  | vbePlanar
  /-- Lines 213-234: byte, word and dword accessors straight into `m_vram`. -/
  | vbeLinear
  /-- Lines 248-249: `read_byte`/`write_byte` through `HandleVGAVRAMRead/Write`
  at base 0. -/
  | legacyVGA
  deriving DecidableEq, Repr

/-- Access widths for which a handler set has a callback. -/
def Handlers.hasByte : Handlers → Bool
  | _ => true

/-- Word and dword callbacks exist only in the linear handler set. -/
def Handlers.hasWord : Handlers → Bool
  | .vbeLinear => true
  | _ => false

/-- See `Handlers.hasWord`. -/
def Handlers.hasDword : Handlers → Bool
  | .vbeLinear => true
  | _ => false

/-- A region object as created by `MMIO::CreateDirect(base, size, data, flags..)`
or `MMIO::CreateComplex(base, size, handlers, flag)`. -/
inductive MMIO where
  | direct (base size : Nat) (buf : Buffer) (f1 f2 f3 : Bool)
  | complex (base size : Nat) (handlers : Handlers) (cachable : Bool)
  deriving DecidableEq, Repr

/-- The member pointer of the device a region is held by. -/
inductive Slot where
  | lfb | vga | bios
  deriving DecidableEq, Repr

/-- The device creates direct regions over VRAM only for `m_lfb_mmio`, direct
regions over the ROM image only for `m_bios_mmio` and complex regions only for
`m_vga_mmio`. -/
def MMIO.slot : MMIO → Slot
  | .direct _ _ .vram _ _ _ => .lfb
  | .direct _ _ .biosRom _ _ _ => .bios
  | .complex _ _ _ _ => .vga

/-- A call the device makes on `m_bus`. -/
inductive BusCall where
  | connect (m : MMIO)
  | disconnect (m : MMIO)
  deriving DecidableEq, Repr

/-- Modelled from the spec: the bus (`pce/bus.h`) is not among the sources.  It is
the history of the device's `ConnectMMIO`/`DisconnectMMIO` calls, newest first;
the set of connected regions is `Bus.regions`. -/
abbrev Bus := List BusCall

/-- Modelled from the spec: `Bus::ConnectMMIO` registers the region. -/
def Bus.ConnectMMIO (b : Bus) (m : MMIO) : Bus := BusCall.connect m :: b

/-- Modelled from the spec: `Bus::DisconnectMMIO` removes the region. -/
def Bus.DisconnectMMIO (b : Bus) (m : MMIO) : Bus := BusCall.disconnect m :: b

/-- The regions of the device connected to the bus after a history of calls. -/
def Bus.regions : Bus → List MMIO
  | [] => []
  | .connect m :: b => m :: Bus.regions b
  | .disconnect m :: b => (Bus.regions b).erase m

/-- The connected regions held for a given slot. -/
def Bus.slotRegions (b : Bus) (k : Slot) : List MMIO :=
  (Bus.regions b).filter (fun m => m.slot = k)

/-- Every `ConnectMMIO` in the history was issued while no region of the same slot
was connected ("connecting without disconnecting is a precondition violation"). -/
def Bus.orderly : Bus → Bool
  | [] => true
  | .connect m :: b => (Bus.slotRegions b m.slot).isEmpty && Bus.orderly b
  | .disconnect _ :: b => Bus.orderly b

/-! ## Device state -/

/-- Framebuffer formats named in `UpdateFramebufferFormat`; `other` stands for
the remaining enumerators of `Display::FramebufferFormat`. -/
inductive FramebufferFormat where
  | C8RGBX8 | BGR555 | BGR565 | BGR8 | BGRX8
  | other (n : Nat)
  deriving DecidableEq, Repr

/-- The fields of `m_render_latch` that `BochsVGA` assigns or reads. -/
structure RenderLatch where
  graphics_mode : Bool
  render_width : Nat
  render_height : Nat
  pitch : Nat
  start_address : Nat
  horizontal_panning : Nat
  deriving DecidableEq, Repr

/-- The value of `m_render_latch = {}`. -/
def RenderLatch.zero : RenderLatch :=
  { graphics_mode := false, render_width := 0, render_height := 0, pitch := 0,
    start_address := 0, horizontal_panning := 0 }

/-- State owned by the base classes (the VGA base class and `PCIDevice`) as far as
`BochsVGA` reads or writes it. -/
structure BaseState where
  /-- Contents of `m_vram`, one entry per byte. -/
  m_vram : List Nat
  m_dac_palette : List Nat
  m_dac_color_mask : Nat
  m_render_latch : RenderLatch
  /-- Result of `IsPCIMemoryActive(0)`. -/
  pciMemoryActive : Bool
  /-- Result of `IsPCIExpansionROMActive(0)`. -/
  pciExpansionROMActive : Bool
  /-- Result of `GetMemoryRegionBaseAddress(0, MemoryRegion_BAR0)`. -/
  bar0Base : Nat
  /-- Result of `GetMemoryRegionBaseAddress(0, MemoryRegion_ExpansionROM)`. -/
  romBase : Nat
  /-- Results of `GetVGAMemoryMapping(&start_address, &size)`. -/
  vgaMappingStart : Nat
  vgaMappingSize : Nat
  deriving DecidableEq, Repr

/-- The eleven VBE registers, in the order of the snapshot section. -/
structure VBERegs where
  m_vbe_index_register : Nat
  /-- The word `m_vbe_enable.bits`. -/
  m_vbe_enable : Nat
  m_vbe_id : Nat
  m_vbe_bank : Nat
  m_vbe_width : Nat
  m_vbe_height : Nat
  m_vbe_bpp : Nat
  m_vbe_offset_x : Nat
  m_vbe_offset_y : Nat
  m_vbe_virt_width : Nat
  m_vbe_virt_height : Nat
  deriving DecidableEq, Repr

/-- A `BochsVGA` object together with the bus and the display it is attached to. -/
structure Device where
  vbe : VBERegs
  m_vram_size : Nat
  base : BaseState
  m_lfb_mmio : Option MMIO
  m_vga_mmio : Option MMIO
  m_bios_mmio : Option MMIO
  /-- Value of `m_bios_rom_data.size()`. -/
  biosRomSize : Nat
  /-- Calls made on `m_bus`. -/
  bus : Bus
  /-- Format last passed to `m_display->ChangeFramebufferFormat`. -/
  framebufferFormat : FramebufferFormat
  deriving DecidableEq, Repr

/-- Regions of `PCIDevice::MemoryRegion` that `OnMemoryRegionChanged` tells apart. -/
inductive MemoryRegion where
  | BAR0
  | ExpansionROM
  | other (n : Nat)
  deriving DecidableEq, Repr

/-- Functions of the base classes and helpers that `BochsVGA` calls and that are
not among the sources.  Each acts on the base-class state only. -/
structure BaseOps where
  /-- The calls `BaseClass::Initialize(system, bus)` and `PCIDevice::Initialize()`;
  the flag is false when either fails. -/
  Initialize : BaseState → Bool × BaseState
  /-- The calls `BaseClass::Reset(); PCIDevice::Reset();`. -/
  Reset : BaseState → BaseState
  /-- The call `BaseClass::LoadState(reader)`. -/
  BaseLoadState : BinaryReader → BaseState → Bool × BinaryReader × BaseState
  /-- The call `PCIDevice::LoadState(reader)`. -/
  PCILoadState : BinaryReader → BaseState → Bool × BinaryReader × BaseState
  /-- The call `BaseClass::SaveState(writer)`. -/
  BaseSaveState : BaseState → BinaryWriter → Bool × BinaryWriter
  /-- The call `PCIDevice::SaveState(writer)`. -/
  PCISaveState : BaseState → BinaryWriter → Bool × BinaryWriter
  /-- The call `CRTCTimingChanged()`, which may consult the VBE registers through
  the virtual `GetDisplayTiming`. -/
  CRTCTimingChanged : VBERegs → BaseState → BaseState
  /-- The call `PCIDevice::OnMemoryRegionChanged(function, region, active)`. -/
  OnMemoryRegionChanged : Nat → MemoryRegion → Bool → BaseState → BaseState
  /-- The call `BaseClass::LatchStartAddress()`. -/
  LatchStartAddress : BaseState → BaseState
  Convert6BitColorTo8Bit : Nat → Nat
  Convert8BitColorTo6Bit : Nat → Nat
  /-- The constant `BASE_FRAMEBUFFER_FORMAT`. -/
  BASE_FRAMEBUFFER_FORMAT : FramebufferFormat

/-- The bit-field `m_vbe_enable.enable`. -/
def VBERegs.enable (c : Consts) (r : VBERegs) : Bool := r.m_vbe_enable.testBit c.bit_enable

/-- The bit-field `m_vbe_enable.read_capabilities`. -/
def VBERegs.read_capabilities (c : Consts) (r : VBERegs) : Bool :=
  r.m_vbe_enable.testBit c.bit_read_capabilities

/-- The bit-field `m_vbe_enable.dac_8bit`. -/
def VBERegs.dac_8bit (c : Consts) (r : VBERegs) : Bool := r.m_vbe_enable.testBit c.bit_dac_8bit

/-- The bit-field `m_vbe_enable.lfb_enable`. -/
def VBERegs.lfb_enable (c : Consts) (r : VBERegs) : Bool :=
  r.m_vbe_enable.testBit c.bit_lfb_enable

/-- The bit-field `m_vbe_enable.no_clear_mem`. -/
def VBERegs.no_clear_mem (c : Consts) (r : VBERegs) : Bool :=
  r.m_vbe_enable.testBit c.bit_no_clear_mem

/-! ## Memory mappings -/

/-- `BochsVGA::IsLFBEnabled` (lines 465-468). -/
def IsLFBEnabled (c : Consts) (s : Device) : Bool :=
  s.vbe.enable c && s.vbe.lfb_enable c

/-- Lines 141-146 of `UpdateBIOSMemoryMapping`: release the BIOS region. -/
def releaseBIOS (s : Device) : Device :=
  match s.m_bios_mmio with
  | some m => { s with bus := Bus.DisconnectMMIO s.bus m, m_bios_mmio := none }
  | none => s

/-- `BochsVGA::UpdateBIOSMemoryMapping` (lines 135-159). -/
def UpdateBIOSMemoryMapping (s : Device) : Device :=
  let addr := s.base.romBase
  let enabled := s.base.pciExpansionROMActive
  let s1 := releaseBIOS s
  if enabled then
    let m := MMIO.direct addr (s1.biosRomSize % 2 ^ 32) .biosRom true false true
    { s1 with m_bios_mmio := some m, bus := Bus.ConnectMMIO s1.bus m }
  else s1

/-- Lines 175-180 of `UpdateVGAMemoryMapping`: release the framebuffer region. -/
def releaseLFB (s : Device) : Device :=
  match s.m_lfb_mmio with
  | some m => { s with bus := Bus.DisconnectMMIO s.bus m, m_lfb_mmio := none }
  | none => s

/-- Lines 182-187 of `UpdateVGAMemoryMapping`: release the VGA window region. -/
def releaseVGA (s : Device) : Device :=
  match s.m_vga_mmio with
  | some m => { s with bus := Bus.DisconnectMMIO s.bus m, m_vga_mmio := none }
  | none => s

/-- Lines 189-195 of `UpdateVGAMemoryMapping`: map the linear framebuffer. -/
def mapLFB (c : Consts) (s : Device) : Device :=
  if IsLFBEnabled c s && s.base.pciMemoryActive then
    let m := MMIO.direct s.base.bar0Base s.m_vram_size .vram true true false
    { s with m_lfb_mmio := some m, bus := Bus.ConnectMMIO s.bus m }
  else s

/-- The region created in lines 197-253 of `UpdateVGAMemoryMapping`. -/
def vgaWindow (c : Consts) (s : Device) : MMIO :=
  if s.vbe.enable c then
    if s.vbe.m_vbe_bpp ≤ 4 then
      .complex c.VBE_DISPI_BANK_ADDRESS c.VBE_DISPI_BANK_SIZE .vbePlanar false
    else
      .complex c.VBE_DISPI_BANK_ADDRESS c.VBE_DISPI_BANK_SIZE .vbeLinear false
  else
    .complex s.base.vgaMappingStart s.base.vgaMappingSize .legacyVGA false

/-- Lines 197-253 of `UpdateVGAMemoryMapping`: map the VGA window. -/
def mapVGA (c : Consts) (s : Device) : Device :=
  let m := vgaWindow c s
  { s with m_vga_mmio := some m, bus := Bus.ConnectMMIO s.bus m }

/-- `BochsVGA::UpdateVGAMemoryMapping` (lines 173-254). -/
def UpdateVGAMemoryMapping (c : Consts) (s : Device) : Device :=
  mapVGA c (mapLFB c (releaseVGA (releaseLFB s)))

/-- `BochsVGA::UpdateFramebufferFormat` (lines 470-490). -/
def UpdateFramebufferFormat (c : Consts) (B : BaseOps) (s : Device) : Device :=
  if !s.vbe.enable c then
    { s with framebufferFormat := B.BASE_FRAMEBUFFER_FORMAT }
  else if s.vbe.m_vbe_bpp ≤ 4 then
    { s with framebufferFormat := B.BASE_FRAMEBUFFER_FORMAT }
  else if s.vbe.m_vbe_bpp ≤ 8 then
    { s with framebufferFormat := .C8RGBX8 }
  else if s.vbe.m_vbe_bpp ≤ 15 then
    { s with framebufferFormat := .BGR555 }
  else if s.vbe.m_vbe_bpp ≤ 16 then
    { s with framebufferFormat := .BGR565 }
  else if s.vbe.m_vbe_bpp ≤ 24 then
    { s with framebufferFormat := .BGR8 }
  else
    { s with framebufferFormat := .BGRX8 }

/-- `BochsVGA::IsValidBPP` (lines 256-259). -/
def IsValidBPP (bpp : Nat) : Bool :=
  bpp == 4 || bpp == 8 || bpp == 15 || bpp == 16 || bpp == 24 || bpp == 32

/-! ## Reset and snapshots -/

/-- `BochsVGA::Reset` (lines 51-68). -/
def Reset (c : Consts) (B : BaseOps) (s : Device) : Device :=
  let s1 := { s with base := B.Reset s.base }
  let s2 := { s1 with vbe := { s1.vbe with
      m_vbe_index_register := 0, m_vbe_width := 640, m_vbe_height := 480, m_vbe_bpp := 32,
      m_vbe_offset_x := 0, m_vbe_offset_y := 0, m_vbe_virt_width := 0,
      m_vbe_virt_height := 0 } }
  let s3 := { s2 with base := B.CRTCTimingChanged s2.vbe s2.base }
  UpdateFramebufferFormat c B (UpdateVGAMemoryMapping c s3)

/-- Lines 75-85 of `LoadState`: the eleven `SafeReadUInt16` calls, each into its
register. -/
def readVBERegs (r0 : BinaryReader) (v : VBERegs) : VBERegs × BinaryReader :=
  let (index, r1) := r0.SafeReadUInt16 v.m_vbe_index_register
  let (enable, r2) := r1.SafeReadUInt16 v.m_vbe_enable
  let (id, r3) := r2.SafeReadUInt16 v.m_vbe_id
  let (bank, r4) := r3.SafeReadUInt16 v.m_vbe_bank
  let (width, r5) := r4.SafeReadUInt16 v.m_vbe_width
  let (height, r6) := r5.SafeReadUInt16 v.m_vbe_height
  let (bpp, r7) := r6.SafeReadUInt16 v.m_vbe_bpp
  let (offset_x, r8) := r7.SafeReadUInt16 v.m_vbe_offset_x
  let (offset_y, r9) := r8.SafeReadUInt16 v.m_vbe_offset_y
  let (virt_width, r10) := r9.SafeReadUInt16 v.m_vbe_virt_width
  let (virt_height, r11) := r10.SafeReadUInt16 v.m_vbe_virt_height
  ({ m_vbe_index_register := index, m_vbe_enable := enable, m_vbe_id := id,
     m_vbe_bank := bank, m_vbe_width := width, m_vbe_height := height, m_vbe_bpp := bpp,
     m_vbe_offset_x := offset_x, m_vbe_offset_y := offset_y,
     m_vbe_virt_width := virt_width, m_vbe_virt_height := virt_height }, r11)

/-- `BochsVGA::LoadState` (lines 70-94): the result flag, the device and the
reader after the call. -/
def LoadState (c : Consts) (B : BaseOps) (s : Device) (reader : BinaryReader) :
    Bool × Device × BinaryReader :=
  let (ok1, r1, b1) := B.BaseLoadState reader s.base
  let s1 := { s with base := b1 }
  if !ok1 then (false, s1, r1) else
  let (ok2, r2, b2) := B.PCILoadState r1 s1.base
  let s2 := { s1 with base := b2 }
  if !ok2 then (false, s2, r2) else
  let (id, r3) := r2.ReadUInt32
  if id != c.SERIALIZATION_ID then (false, s2, r3) else
  let (regs, r4) := readVBERegs r3 s2.vbe
  let s3 := { s2 with vbe := regs }
  if r4.GetErrorState then (false, s3, r4) else
  let s4 := { s3 with base := B.CRTCTimingChanged s3.vbe s3.base }
  (true, UpdateFramebufferFormat c B (UpdateVGAMemoryMapping c s4), r4)

/-- Lines 101-113 of `SaveState`: the section of `BochsVGA`. -/
def writeVBERegs (c : Consts) (v : VBERegs) (w : BinaryWriter) : BinaryWriter :=
  ((((((((((((w.WriteUInt32 c.SERIALIZATION_ID).WriteUInt16 v.m_vbe_index_register).WriteUInt16
    v.m_vbe_enable).WriteUInt16 v.m_vbe_id).WriteUInt16 v.m_vbe_bank).WriteUInt16
    v.m_vbe_width).WriteUInt16 v.m_vbe_height).WriteUInt16 v.m_vbe_bpp).WriteUInt16
    v.m_vbe_offset_x).WriteUInt16 v.m_vbe_offset_y).WriteUInt16 v.m_vbe_virt_width).WriteUInt16
    v.m_vbe_virt_height)

/-- `BochsVGA::SaveState` (lines 96-116): the result flag and the writer after the
call. -/
def SaveState (c : Consts) (B : BaseOps) (s : Device) (writer : BinaryWriter) :
    Bool × BinaryWriter :=
  let (ok1, w1) := B.BaseSaveState s.base writer
  if !ok1 then (false, w1) else
  let (ok2, w2) := B.PCISaveState s.base w1
  if !ok2 then (false, w2) else
  let w3 := writeVBERegs c s.vbe w2
  (!w3.InErrorState, w3)

/-! ## The VBE data port -/

/-- `BochsVGA::IOReadVBEDataRegister` (lines 261-304); the result is a `u16`, so
the constants returned are reduced modulo `2 ^ 16`. -/
def IOReadVBEDataRegister (c : Consts) (s : Device) : Nat :=
  match decodeIndex c s.vbe.m_vbe_index_register with
  | some .ID => s.vbe.m_vbe_id
  | some .XRES =>
      if s.vbe.read_capabilities c then c.VBE_DISPI_MAX_XRES % 65536 else s.vbe.m_vbe_width
  | some .YRES =>
      if s.vbe.read_capabilities c then c.VBE_DISPI_MAX_YRES % 65536 else s.vbe.m_vbe_height
  | some .BPP =>
      if s.vbe.read_capabilities c then c.VBE_DISPI_MAX_BPP % 65536 else s.vbe.m_vbe_bpp
  | some .ENABLE => s.vbe.m_vbe_enable
  | some .BANK => s.vbe.m_vbe_bank
  | some .VIRT_WIDTH => s.vbe.m_vbe_virt_width
  | some .VIRT_HEIGHT => s.vbe.m_vbe_virt_height
  | some .X_OFFSET => s.vbe.m_vbe_offset_x
  | some .Y_OFFSET => s.vbe.m_vbe_offset_y
  | some .VIDEO_MEMORY_64K => s.m_vram_size / 65536 % 65536
  | some .DDC => 0x000F
  | none => 0xFFFF

/-- `Y_memzero(buf.data(), n)`: the first `n` bytes of the buffer become zero. -/
def memzero (buf : List Nat) (n : Nat) : List Nat :=
  List.replicate (min n buf.length) 0 ++ buf.drop n

/-- Lines 348-398 of `IOWriteVBEDataRegister`: the case `VBE_DISPI_INDEX_ENABLE`. -/
def writeEnable (c : Consts) (B : BaseOps) (s : Device) (value : Nat) : Device :=
  let old_enable := s.vbe.enable c
  let old_dac_8bit := s.vbe.dac_8bit c
  let s1 := { s with vbe := { s.vbe with m_vbe_enable := value } }
  let s2 :=
    if s1.vbe.enable c != old_enable then
      let a := { s1 with base := B.CRTCTimingChanged s1.vbe s1.base }
      let b := UpdateFramebufferFormat c B (UpdateVGAMemoryMapping c a)
      if b.vbe.enable c then
        let d := { b with vbe := { b.vbe with
            m_vbe_virt_width := b.vbe.m_vbe_width, m_vbe_virt_height := b.vbe.m_vbe_height,
            m_vbe_offset_x := 0, m_vbe_offset_y := 0 } }
        if !d.vbe.no_clear_mem c then
          { d with base := { d.base with m_vram := memzero d.base.m_vram d.m_vram_size } }
        else d
      else b
    else s1
  if s2.vbe.dac_8bit c != old_dac_8bit then
    if s2.vbe.dac_8bit c then
      { s2 with base := { s2.base with
          m_dac_palette := s2.base.m_dac_palette.map B.Convert6BitColorTo8Bit,
          m_dac_color_mask := 0xFF } }
    else
      { s2 with base := { s2.base with
          m_dac_palette := s2.base.m_dac_palette.map B.Convert8BitColorTo6Bit,
          m_dac_color_mask := 0x3F } }
  else s2

/-- `BochsVGA::IOWriteVBEDataRegister` (lines 306-440); `value` is the `u16`
argument. -/
def IOWriteVBEDataRegister (c : Consts) (B : BaseOps) (s : Device) (value : Nat) : Device :=
  match decodeIndex c s.vbe.m_vbe_index_register with
  | some .ID =>
      if value < c.VBE_DISPI_ID0 || value > c.VBE_DISPI_ID5 then s
      else { s with vbe := { s.vbe with m_vbe_id := value } }
  | some .XRES => { s with vbe := { s.vbe with m_vbe_width := value } }
  | some .YRES => { s with vbe := { s.vbe with m_vbe_height := value } }
  | some .BPP =>
      if !IsValidBPP value then s
      else
        let s1 := { s with vbe := { s.vbe with m_vbe_bpp := value } }
        if s1.vbe.enable c then UpdateFramebufferFormat c B (UpdateVGAMemoryMapping c s1)
        else s1
  | some .ENABLE => writeEnable c B s value
  | some .BANK =>
      if ((value + 1) * c.VBE_DISPI_BANK_SIZE) % 2 ^ 64 > s.m_vram_size then s
      else { s with vbe := { s.vbe with m_vbe_bank := value } }
  | some .VIRT_WIDTH => { s with vbe := { s.vbe with m_vbe_virt_width := value } }
  | some .VIRT_HEIGHT => { s with vbe := { s.vbe with m_vbe_virt_height := value } }
  | some .X_OFFSET => { s with vbe := { s.vbe with m_vbe_offset_x := value } }
  | some .Y_OFFSET => { s with vbe := { s.vbe with m_vbe_offset_y := value } }
  | some .VIDEO_MEMORY_64K => s
  | some .DDC => s
  | none => s

/-- The write handler of `VBE_DISPI_IOPORT_INDEX` (lines 166-167). -/
def IOWriteVBEIndexRegister (s : Device) (value : Nat) : Device :=
  { s with vbe := { s.vbe with m_vbe_index_register := value } }

/-- A word written by the guest to one of the two VBE ports. -/
inductive PortWrite where
  | index (value : Nat)
  | data (value : Nat)
  deriving DecidableEq, Repr

/-- The value carried by a port write. -/
def PortWrite.value : PortWrite → Nat
  | .index v => v
  | .data v => v

/-- Dispatch of one port write to the handlers connected in `ConnectIOPorts`. -/
def portWrite (c : Consts) (B : BaseOps) (s : Device) : PortWrite → Device
  | .index v => IOWriteVBEIndexRegister s v
  | .data v => IOWriteVBEDataRegister c B s v

/-- A sequence of port writes, applied in order. -/
def runPortWrites (c : Consts) (B : BaseOps) (s : Device) (ws : List PortWrite) : Device :=
  ws.foldl (portWrite c B) s

/-! ## PCI notifications and initialisation -/

/-- `BochsVGA::OnMemoryRegionChanged` (lines 442-463). -/
def OnMemoryRegionChanged (c : Consts) (B : BaseOps) (s : Device) (function : Nat)
    (region : MemoryRegion) (active : Bool) : Device :=
  let s1 := { s with base := B.OnMemoryRegionChanged function region active s.base }
  if function != 0 then s1
  else
    match region with
    | .BAR0 => if IsLFBEnabled c s1 then UpdateVGAMemoryMapping c s1 else s1
    | .ExpansionROM => UpdateBIOSMemoryMapping s1
    | .other _ => s1

/-- `BochsVGA::LoadBIOSROM` (lines 118-133); `file` is the size of the image when
`System::ReadFileToBuffer` could read it. -/
def LoadBIOSROM (c : Consts) (s : Device) (file : Option Nat) : Bool × Device :=
  match file with
  | none => (false, s)
  | some size =>
      if size > c.BIOS_ROM_SIZE then (false, s)
      else (true, { s with biosRomSize := c.BIOS_ROM_SIZE })

/-- `BochsVGA::Initialize` (lines 37-49). -/
def Initialize (c : Consts) (B : BaseOps) (s : Device) (file : Option Nat) : Bool × Device :=
  let (ok, b) := B.Initialize s.base
  let s1 := { s with base := b }
  if !ok then (false, s1) else
  let (loaded, s2) := LoadBIOSROM c s1 file
  if !loaded then (false, s2) else
  (true, UpdateVGAMemoryMapping c (UpdateBIOSMemoryMapping s2))

/-! ## Bank window handlers -/

/-- The index `ZeroExtend32(m_vbe_bank) * VBE_DISPI_BANK_SIZE + offset` used by the
linear handlers (lines 213-234), in `u32` arithmetic. -/
def linearIndex (c : Consts) (s : Device) (offset : Nat) : Nat :=
  ((s.vbe.m_vbe_bank * c.VBE_DISPI_BANK_SIZE) % 2 ^ 32 + offset) % 2 ^ 32

/-- The `width` bytes of a buffer starting at `i`, when they all exist. -/
def readBytes (buf : List Nat) (i width : Nat) : Option (List Nat) :=
  if i + width ≤ buf.length then some ((buf.drop i).take width) else none

/-- Little-endian value of a byte string. -/
def leValue : List Nat → Nat
  | [] => 0
  | b :: bs => b % 256 + 256 * leValue bs

/-- The linear read handlers `read_byte`, `read_word`, `read_dword` (lines
213-225) for `width` 1, 2, 4: `none` when the access leaves `m_vram`. -/
def linearRead (c : Consts) (s : Device) (offset width : Nat) : Option Nat :=
  (readBytes s.base.m_vram (linearIndex c s offset) width).map leValue

/-- `std::memcpy(&buf[i], &value, width)`: the `width` low bytes of `value` are
stored from `i` on, least significant first; `none` when they do not fit. -/
def writeBytes (buf : List Nat) (i width value : Nat) : Option (List Nat) :=
  if i + width ≤ buf.length then
    some (buf.take i ++ (List.range width).map (fun k => value / 256 ^ k % 256)
      ++ buf.drop (i + width))
  else none

/-- The linear write handlers `write_byte`, `write_word`, `write_dword` (lines
226-234) for `width` 1, 2, 4: `none` when the access leaves `m_vram`. -/
def linearWrite (c : Consts) (s : Device) (offset width value : Nat) : Option Device :=
  (writeBytes s.base.m_vram (linearIndex c s offset) width value).map
    fun v => { s with base := { s.base with m_vram := v } }

/-! ## Render latch -/

/-- `BochsVGA::LatchStartAddress` (lines 517-550).  The latch fields are `u32`
(`horizontal_panning` is `u8`); `none` stands for the division by a zero
`m_vbe_bpp` in line 535. -/
def LatchStartAddress (c : Consts) (B : BaseOps) (s : Device) : Option Device :=
  if !s.vbe.enable c then
    some { s with base := B.LatchStartAddress s.base }
  else
    let l0 := { RenderLatch.zero with
      graphics_mode := true
      render_width := s.vbe.m_vbe_width
      render_height := s.vbe.m_vbe_height }
    let l1 : Option RenderLatch :=
      if s.vbe.m_vbe_bpp < 8 then
        if s.vbe.m_vbe_bpp = 0 then none
        else
          let pitch := ((s.vbe.m_vbe_virt_width * s.vbe.m_vbe_bpp) % 2 ^ 32 + 31) % 2 ^ 32 / 32
          some { l0 with
            pitch := pitch
            start_address :=
              ((s.vbe.m_vbe_offset_y * pitch) % 2 ^ 32
                + ((s.vbe.m_vbe_offset_x * s.vbe.m_vbe_bpp) % 2 ^ 32) / 32) % 2 ^ 32
            horizontal_panning := ((s.vbe.m_vbe_offset_x % 32) / s.vbe.m_vbe_bpp / 4) % 256 }
      else
        let bytes_per_pixel := ((s.vbe.m_vbe_bpp + 7) % 2 ^ 32) / 8
        let pitch := (bytes_per_pixel * s.vbe.m_vbe_virt_width) % 2 ^ 32
        some { l0 with
          pitch := pitch
          start_address :=
            ((s.vbe.m_vbe_offset_y * pitch) % 2 ^ 32
              + (s.vbe.m_vbe_offset_x * bytes_per_pixel) % 2 ^ 32) % 2 ^ 32 }
    l1.map fun l =>
      let l2 :=
        if (l.start_address + (l.pitch * l.render_height) % 2 ^ 32) % 2 ^ 32 > s.m_vram_size then
          { l with start_address := s.m_vram_size }
        else l
      { s with base := { s.base with m_render_latch := l2 } }

/-- What a call of `RenderGraphicsMode` ends up invoking. -/
inductive RenderAction where
  /-- `BaseClass::RenderGraphicsMode()`. -/
  | baseClass
  /-- The early return "invalid, so skip the frame". -/
  | skipFrame
  | Render4BPP
  | Render8BPP
  | RenderDirect
  /-- The `default:` label of the switch. -/
  | nothing
  deriving DecidableEq, Repr

/-- `BochsVGA::RenderGraphicsMode` (lines 552-583). -/
def RenderGraphicsMode (c : Consts) (s : Device) : RenderAction :=
  if !s.vbe.enable c then .baseClass
  else if s.base.m_render_latch.start_address = s.m_vram_size then .skipFrame
  else if s.vbe.m_vbe_bpp = 4 then .Render4BPP
  else if s.vbe.m_vbe_bpp = 8 then .Render8BPP
  else if s.vbe.m_vbe_bpp = 15 ∨ s.vbe.m_vbe_bpp = 16 ∨ s.vbe.m_vbe_bpp = 24
      ∨ s.vbe.m_vbe_bpp = 32 then .RenderDirect
  else .nothing

/-- True when the call renders pixels of the VBE mode. -/
def RenderAction.renders : RenderAction → Bool
  | .Render4BPP | .Render8BPP | .RenderDirect => true
  | _ => false

/-! ## Sample instances -/

/-- Base-class operations that leave the base state alone and whose snapshot
sections are empty. -/
def idleBase : BaseOps where
  Initialize := fun b => (true, b)
  Reset := fun b => b
  BaseLoadState := fun r b => (true, r, b)
  PCILoadState := fun r b => (true, r, b)
  BaseSaveState := fun _ w => (true, w)
  PCISaveState := fun _ w => (true, w)
  CRTCTimingChanged := fun _ b => b
  OnMemoryRegionChanged := fun _ _ _ b => b
  LatchStartAddress := fun b => b
  Convert6BitColorTo8Bit := fun x => x
  Convert8BitColorTo6Bit := fun x => x
  BASE_FRAMEBUFFER_FORMAT := .other 0

/-- A base-class state with 16 MiB of zeroed VRAM, a zeroed 256-entry palette, the
PCI memory space active and the legacy window at `0xA0000`. -/
def sampleBase : BaseState where
  m_vram := List.replicate (16 * 1024 * 1024) 0
  m_dac_palette := List.replicate 256 0
  m_dac_color_mask := 0x3F
  m_render_latch := RenderLatch.zero
  pciMemoryActive := true
  pciExpansionROMActive := false
  bar0Base := 0xE0000000
  romBase := 0xC0000
  vgaMappingStart := 0xA0000
  vgaMappingSize := 0x20000

/-- A freshly constructed device with 16 MiB of video memory: no region is mapped
yet.  The constructor (lines 20-29) leaves the registers to their initialisers in
the header; the values here are samples. -/
def freshDevice : Device where
  vbe := { m_vbe_index_register := 0, m_vbe_enable := 0, m_vbe_id := 0xB0C5, m_vbe_bank := 0,
           m_vbe_width := 640, m_vbe_height := 480, m_vbe_bpp := 8, m_vbe_offset_x := 0,
           m_vbe_offset_y := 0, m_vbe_virt_width := 640, m_vbe_virt_height := 480 }
  m_vram_size := 16 * 1024 * 1024
  base := sampleBase
  m_lfb_mmio := none
  m_vga_mmio := none
  m_bios_mmio := none
  biosRomSize := 0
  bus := []
  framebufferFormat := .other 0

/-- The device after a successful `Initialize` followed by `Reset`. -/
def sampleDevice : Device :=
  Reset bochsConsts idleBase (Initialize bochsConsts idleBase freshDevice (some 32768)).2

/-- A device with VBE enabled whose virtual width (800) differs from its width
(640): the sample device after the guest enabled VBE and widened the virtual
screen. -/
def pannedDevice : Device :=
  runPortWrites bochsConsts idleBase sampleDevice
    [.index 4, .data 1, .index 6, .data 800, .index 4]

/-- A snapshot stream that ends after the identifier and the first field. -/
def truncatedStream : BinaryReader := ⟨[0x41, 0x47, 0x56, 0x42, 5, 0], false⟩

/-- All eleven registers hold sixteen-bit values, as their C++ type `u16` demands. -/
def VBERegs.U16 (v : VBERegs) : Prop :=
  v.m_vbe_index_register < 65536 ∧ v.m_vbe_enable < 65536 ∧ v.m_vbe_id < 65536
  ∧ v.m_vbe_bank < 65536 ∧ v.m_vbe_width < 65536 ∧ v.m_vbe_height < 65536
  ∧ v.m_vbe_bpp < 65536 ∧ v.m_vbe_offset_x < 65536 ∧ v.m_vbe_offset_y < 65536
  ∧ v.m_vbe_virt_width < 65536 ∧ v.m_vbe_virt_height < 65536

instance (v : VBERegs) : Decidable v.U16 := by
  unfold VBERegs.U16; exact inferInstance

/-- The bytes of the `BochsVGA` snapshot section. -/
def sectionBytes (c : Consts) (v : VBERegs) : List Nat :=
  (writeVBERegs c v ⟨[], false⟩).data

/-- The bank register selects a window that lies inside VRAM. -/
def BankValid (c : Consts) (s : Device) : Prop :=
  (s.vbe.m_vbe_bank + 1) * c.VBE_DISPI_BANK_SIZE ≤ s.m_vram_size

instance (c : Consts) (s : Device) : Decidable (BankValid c s) := by
  unfold BankValid; exact inferInstance

/-- The end offset of the latch, `start_address + pitch * render_height`, computed
from the registers as `LatchStartAddress` does but in unbounded arithmetic. -/
def exactLatchEnd (s : Device) : Nat :=
  if s.vbe.m_vbe_bpp < 8 then
    let pitch := (s.vbe.m_vbe_virt_width * s.vbe.m_vbe_bpp + 31) / 32
    s.vbe.m_vbe_offset_y * pitch + s.vbe.m_vbe_offset_x * s.vbe.m_vbe_bpp / 32
      + pitch * s.vbe.m_vbe_height
  else
    let bytes_per_pixel := (s.vbe.m_vbe_bpp + 7) / 8
    let pitch := bytes_per_pixel * s.vbe.m_vbe_virt_width
    s.vbe.m_vbe_offset_y * pitch + s.vbe.m_vbe_offset_x * bytes_per_pixel
      + pitch * s.vbe.m_vbe_height

/-- The sample device after the guest selected a one-line 32-bpp mode, enabled VBE
and set a virtual width of 32768 pixels and a vertical offset of 32768 lines. -/
def wrappedLatchDevice : Device :=
  runPortWrites bochsConsts idleBase sampleDevice
    [.index 2, .data 1, .index 4, .data 1, .index 6, .data 32768, .index 9, .data 32768]

/-- The sample device with VBE enabled and the linear framebuffer disabled, the
index register selecting ENABLE. -/
def bankedDevice : Device :=
  runPortWrites bochsConsts idleBase sampleDevice [.index 4, .data 1]

/-- The region pointers of the device and its bus history coincide in two states. -/
def sameMaps (s t : Device) : Prop :=
  s.bus = t.bus ∧ s.m_lfb_mmio = t.m_lfb_mmio ∧ s.m_vga_mmio = t.m_vga_mmio
    ∧ s.m_bios_mmio = t.m_bios_mmio

/-- The bus holds, for each slot, exactly the region the device's pointer refers
to, and no region was ever connected on top of another of its slot. -/
def MappingInv (s : Device) : Prop :=
  Bus.slotRegions s.bus .lfb = s.m_lfb_mmio.toList
  ∧ Bus.slotRegions s.bus .vga = s.m_vga_mmio.toList
  ∧ Bus.slotRegions s.bus .bios = s.m_bios_mmio.toList
  ∧ Bus.orderly s.bus = true

/-- The handler set the current registers call for (lines 197-253). -/
def expectedHandlers (c : Consts) (s : Device) : Handlers :=
  if s.vbe.enable c then
    if s.vbe.m_vbe_bpp ≤ 4 then .vbePlanar else .vbeLinear
  else .legacyVGA

/-- The region held in `m_vga_mmio` agrees with the registers: a complex region
carrying the expected handler set, placed at the bank window when VBE is enabled. -/
def WindowOK (c : Consts) (s : Device) : Prop :=
  ∃ base size, s.m_vga_mmio = some (.complex base size (expectedHandlers c s) false)
    ∧ (s.vbe.enable c = true →
        base = c.VBE_DISPI_BANK_ADDRESS ∧ size = c.VBE_DISPI_BANK_SIZE)

/-- States of a device in operation: a fresh device is initialised, then reset,
written through the two VBE ports, notified of PCI region changes and loaded from
snapshots, where a load that fails is followed by a reset. -/
inductive Reachable (c : Consts) (B : BaseOps) : Device → Prop where
  | init (s : Device) (file : Option Nat) :
      s.m_lfb_mmio = none → s.m_vga_mmio = none → s.m_bios_mmio = none → s.bus = [] →
      (Initialize c B s file).1 = true → Reachable c B (Initialize c B s file).2
  | reset (s : Device) : Reachable c B s → Reachable c B (Reset c B s)
  | load (s : Device) (reader : BinaryReader) :
      Reachable c B s → (LoadState c B s reader).1 = true →
      Reachable c B (LoadState c B s reader).2.1
  | loadFailedThenReset (s : Device) (reader : BinaryReader) :
      Reachable c B s → Reachable c B (Reset c B (LoadState c B s reader).2.1)
  | write (s : Device) (w : PortWrite) : Reachable c B s → Reachable c B (portWrite c B s w)
  | regionChanged (s : Device) (function : Nat) (region : MemoryRegion) (active : Bool) :
      Reachable c B s → Reachable c B (OnMemoryRegionChanged c B s function region active)

/-- The mapping invariant together with a bank-window region that agrees with the
registers. -/
def DeviceInv (c : Consts) (s : Device) : Prop := MappingInv s ∧ WindowOK c s

/-- The sample device in enabled 4-bpp planar mode, the index register selecting
BPP. -/
def planarDevice : Device :=
  runPortWrites bochsConsts idleBase sampleDevice [.index 3, .data 4, .index 4, .data 1, .index 3]

/-- The sample device after the guest enabled VBE and selected bank 3 and ID
`0xB0C4`. -/
def guestDevice : Device :=
  runPortWrites bochsConsts idleBase sampleDevice
    [.index 4, .data 1, .index 5, .data 3, .index 0, .data 0xB0C4]

/-- A snapshot stream with the identifier and eleven fields: index 0, enable 1,
id `0xB0C5`, bank `0xFFFF`, width 640, height 480, bpp 0, offsets 0, virtual size
640 x 480. -/
def invalidSnapshot : BinaryReader :=
  ⟨[0x41, 0x47, 0x56, 0x42, 0, 0, 1, 0, 0xC5, 0xB0, 0xFF, 0xFF, 0x80, 0x02, 0xE0, 0x01,
    0, 0, 0, 0, 0, 0, 0x80, 0x02, 0xE0, 0x01], false⟩

/-- The format `UpdateFramebufferFormat` selects for the current registers. -/
def currentFormat (c : Consts) (B : BaseOps) (s : Device) : FramebufferFormat :=
  (UpdateFramebufferFormat c B s).framebufferFormat

/-- The depth-to-format table of the specification: the base format when VBE is
disabled or the depth is 4, then one format for each of the depths 8, 15, 16, 24
and 32; other depths have no entry. -/
def specFramebufferFormat (B : BaseOps) (enable : Bool) (bpp : Nat) :
    Option FramebufferFormat :=
  if !enable then some B.BASE_FRAMEBUFFER_FORMAT
  else if bpp = 4 then some B.BASE_FRAMEBUFFER_FORMAT
  else if bpp = 8 then some .C8RGBX8
  else if bpp = 15 then some .BGR555
  else if bpp = 16 then some .BGR565
  else if bpp = 24 then some .BGR8
  else if bpp = 32 then some .BGRX8
  else none

/-- The display's format is the table's entry for the enable bit and the depth. -/
def FormatMatches (c : Consts) (B : BaseOps) (s : Device) : Prop :=
  specFramebufferFormat B (s.vbe.enable c) s.vbe.m_vbe_bpp = some s.framebufferFormat

instance (c : Consts) (B : BaseOps) (s : Device) : Decidable (FormatMatches c B s) := by
  unfold FormatMatches; exact inferInstance

/-- The sample device after the guest enabled VBE at depth 32 with `no_clear_mem`
set: the bank window carries the linear handlers and VRAM is still zero. -/
def linearDevice : Device :=
  runPortWrites bochsConsts idleBase sampleDevice [.index 4, .data 0x81]

/-- The conversion `static_cast<s32>` of a `u32` value. -/
def toS32 (x : Nat) : Int :=
  if x % 2 ^ 32 < 2 ^ 31 then ((x % 2 ^ 32 : Nat) : Int) else ((x % 2 ^ 32 : Nat) : Int) - 2 ^ 32

/-- The byte stored in line 614 of `Render4BPP` from the four shifted plane bytes:
`(pl0 >> 7) | ((pl1 >> 7) << 1) | ((pl2 >> 7) << 2) | ((pl3 >> 7) << 3)`. -/
def planePixel (pl0 pl1 pl2 pl3 : Nat) : Nat :=
  ((pl0 >>> 7) ||| ((pl1 >>> 7) <<< 1) ||| ((pl2 >>> 7) <<< 2) ||| ((pl3 >>> 7) <<< 3)) % 256

/-- The inner loop of `Render4BPP` (lines 611-623) with `n = 8 - subindex`
iterations left: the column reached and the bytes stored through `fb_row_ptr` so
far.  The plane bytes are `u8`, so `pl <<= 1` is doubling modulo 256. -/
def render4Pixels (render_width : Int) :
    Nat → Int → Nat → Nat → Nat → Nat → List Nat → Int × List Nat
  | 0, col, _, _, _, _, out => (col, out)
  | n + 1, col, pl0, pl1, pl2, pl3, out =>
      if col < render_width then
        let out1 :=
          if 0 ≤ col ∧ col < render_width then out ++ [planePixel pl0 pl1 pl2 pl3] else out
        render4Pixels render_width n (col + 1) (pl0 * 2 % 256) (pl1 * 2 % 256) (pl2 * 2 % 256)
          (pl3 * 2 % 256) out1
      else (col, out)

/-- The column loop of `Render4BPP` (lines 601-624) for one row; `readPlanes` is
`ReadVRAMPlanes(m_render_latch.start_address, ·, row)`.  The loop has no counter
of its own, so the model counts iterations down from `fuel` and returns `none`
when the count runs out while `col < render_width` still holds. -/
def render4Row (readPlanes : Nat → Nat) (render_width : Int) :
    Nat → Int → Nat → List Nat → Option (List Nat)
  | 0, col, _, out => if col < render_width then none else some out
  | fuel + 1, col, address_counter, out =>
      if col < render_width then
        let all_planes := readPlanes address_counter % 2 ^ 32
        let address_counter1 := (address_counter + 1) % 2 ^ 32
        let pl0 := all_planes % 256
        let pl1 := all_planes / 256 % 256
        let pl2 := all_planes / 65536 % 256
        let pl3 := all_planes / 16777216 % 256
        let (col1, out1) := render4Pixels render_width 8 col pl0 pl1 pl2 pl3 out
        render4Row readPlanes render_width fuel col1 address_counter1 out1
      else some out

/-- The row loop of `Render4BPP` (lines 594-627) with `n = render_height - row`
rows left; `fb_ptr` is the offset of the row from the framebuffer pointer.  Each
row contributes its offset and the bytes stored from there on. -/
def render4Rows (ReadVRAMPlanes : BaseState → Nat → Nat → Nat → Nat) (fb_stride : Nat)
    (s : Device) : Nat → Nat → Nat → List (Nat × List Nat) → Option (List (Nat × List Nat))
  | 0, _, _, acc => some acc
  | n + 1, row, fb_ptr, acc =>
      let render_width := toS32 s.base.m_render_latch.render_width
      let horizontal_panning : Int := ((s.base.m_render_latch.horizontal_panning % 256 : Nat) : Int)
      let address_counter := (row * (s.base.m_render_latch.pitch % 2 ^ 32)) % 2 ^ 32
      match render4Row (fun a => ReadVRAMPlanes s.base s.base.m_render_latch.start_address a row)
          render_width (render_width + horizontal_panning).toNat (-horizontal_panning)
          address_counter [] with
      | none => none
      | some bytes =>
          render4Rows ReadVRAMPlanes fb_stride s n (row + 1) (fb_ptr + fb_stride)
            (acc ++ [(fb_ptr, bytes)])

/-- `BochsVGA::Render4BPP` (lines 585-628): for each row, the offset of the row in
the framebuffer and the bytes stored there, or `none` if a column loop does not
finish.  `ReadVRAMPlanes` is the base-class function, `fb_stride` the result of
`GetFramebufferStride()`; the palette set by `SetOutputPalette16()` is not part
of the result. -/
def Render4BPP (ReadVRAMPlanes : BaseState → Nat → Nat → Nat → Nat) (fb_stride : Nat)
    (s : Device) : Option (List (Nat × List Nat)) :=
  render4Rows ReadVRAMPlanes fb_stride s (s.base.m_render_latch.render_height % 2 ^ 32) 0 0 []

/-- The pixel the specification assigns to position `i` (0 to 7) of a plane word:
the 4-bit value whose bit `j` is bit `7 - i` of byte `j` of the word. -/
def specPixel (word i : Nat) : Nat :=
  (word % 256) / 2 ^ (7 - i) % 2
  + 2 * ((word / 256 % 256) / 2 ^ (7 - i) % 2)
  + 4 * ((word / 65536 % 256) / 2 ^ (7 - i) % 2)
  + 8 * ((word / 16777216 % 256) / 2 ^ (7 - i) % 2)

/-- The row the specification describes: `w` bytes, byte `k` taken at position
`(k + p) mod 8` of the plane word fetched with address counter
`address_counter + (k + p) div 8` (a `u32`). -/
def specRow (readPlanes : Nat → Nat) (address_counter p w : Nat) : List Nat :=
  (List.range w).map fun k =>
    specPixel (readPlanes ((address_counter + (k + p) / 8) % 2 ^ 32) % 2 ^ 32) ((k + p) % 8)

/-- The positions `a .. b - 1` of a row that lie at or after the panning `p`, each
mapped to its pixel. -/
def rowSegment (pix : Nat → Nat) (p a b : Nat) : List Nat :=
  (List.range' a (b - a)).filterMap fun pos => if p ≤ pos then some (pix pos) else none

/-- The rows the specification describes for the current latch: for each row its
offset in the framebuffer and `render_width` bytes. -/
def specRows (ReadVRAMPlanes : BaseState → Nat → Nat → Nat → Nat) (fb_stride : Nat)
    (s : Device) (first count : Nat) : List (Nat × List Nat) :=
  (List.range' first count).map fun row =>
    (row * fb_stride,
      specRow (fun a => ReadVRAMPlanes s.base s.base.m_render_latch.start_address a row)
        ((row * (s.base.m_render_latch.pitch % 2 ^ 32)) % 2 ^ 32)
        (s.base.m_render_latch.horizontal_panning % 256)
        (s.base.m_render_latch.render_width % 2 ^ 32))

/-- A reader of plane words for examples: the word depends on the address counter
and the row only. -/
def samplePlanes : BaseState → Nat → Nat → Nat → Nat :=
  fun _ _ address_counter row => 0x80402010 + address_counter + row * 256

/-- The sample device with a latch of two rows of ten pixels, pitch 80 and a
horizontal panning of three pixels. -/
def latchedDevice : Device :=
  { bankedDevice with
    base := { bankedDevice.base with
      m_vram := []
      m_render_latch :=
        { graphics_mode := true, render_width := 10, render_height := 2, pitch := 80,
          start_address := 0, horizontal_panning := 3 } } }

/-- The sample device in enabled 4-bpp mode with a horizontal offset of three
pixels. -/
def pannedPlanarDevice : Device :=
  runPortWrites bochsConsts idleBase sampleDevice
    [.index 3, .data 4, .index 4, .data 1, .index 8, .data 3]

/-- Sample state: `pannedPlanarDevice` after `LatchStartAddress`. -/
def pannedPlanarLatched : Device :=
  (LatchStartAddress bochsConsts idleBase pannedPlanarDevice).getD pannedPlanarDevice

/-- The 16-bit little-endian value found at byte offset `off` of the bytes a stream
still holds when both of its bytes exist, and `old` when the stream ends before. -/
def streamUInt16 (data : List Nat) (off old : Nat) : Nat :=
  if off + 2 ≤ data.length then data.getD off 0 % 256 + 256 * (data.getD (off + 1) 0 % 256)
  else old

/-! ## Basic facts -/

theorem decodeIndex_labels (c : Consts) (hc : c.WF) :
    decodeIndex c c.VBE_DISPI_INDEX_ID = some .ID
    ∧ decodeIndex c c.VBE_DISPI_INDEX_XRES = some .XRES
    ∧ decodeIndex c c.VBE_DISPI_INDEX_YRES = some .YRES
    ∧ decodeIndex c c.VBE_DISPI_INDEX_BPP = some .BPP
    ∧ decodeIndex c c.VBE_DISPI_INDEX_ENABLE = some .ENABLE
    ∧ decodeIndex c c.VBE_DISPI_INDEX_BANK = some .BANK
    ∧ decodeIndex c c.VBE_DISPI_INDEX_VIRT_WIDTH = some .VIRT_WIDTH
    ∧ decodeIndex c c.VBE_DISPI_INDEX_VIRT_HEIGHT = some .VIRT_HEIGHT
    ∧ decodeIndex c c.VBE_DISPI_INDEX_X_OFFSET = some .X_OFFSET
    ∧ decodeIndex c c.VBE_DISPI_INDEX_Y_OFFSET = some .Y_OFFSET
    ∧ decodeIndex c c.VBE_DISPI_INDEX_VIDEO_MEMORY_64K = some .VIDEO_MEMORY_64K
    ∧ decodeIndex c c.VBE_DISPI_INDEX_DDC = some .DDC := by
  obtain ⟨hnd, -, -⟩ := hc
  simp only [Consts.indexLabels, List.nodup_cons, List.mem_cons, List.mem_singleton, not_or,
    List.not_mem_nil, not_false_eq_true, List.nodup_nil, and_true] at hnd
  obtain ⟨h0, h1, h2, h3, h4, h5, h6, h7, h8, h9, h10⟩ := hnd
  refine ⟨?_, ?_, ?_, ?_, ?_, ?_, ?_, ?_, ?_, ?_, ?_, ?_⟩ <;>
    simp [decodeIndex, *, eq_comm]

theorem bochsConsts_WF : bochsConsts.WF := by decide

@[simp] theorem releaseLFB_vbe (s : Device) : (releaseLFB s).vbe = s.vbe := by
  unfold releaseLFB; cases s.m_lfb_mmio <;> rfl

@[simp] theorem releaseVGA_vbe (s : Device) : (releaseVGA s).vbe = s.vbe := by
  unfold releaseVGA; cases s.m_vga_mmio <;> rfl

@[simp] theorem releaseLFB_base (s : Device) : (releaseLFB s).base = s.base := by
  unfold releaseLFB; cases s.m_lfb_mmio <;> rfl

@[simp] theorem releaseVGA_base (s : Device) : (releaseVGA s).base = s.base := by
  unfold releaseVGA; cases s.m_vga_mmio <;> rfl

@[simp] theorem releaseLFB_vram_size (s : Device) :
    (releaseLFB s).m_vram_size = s.m_vram_size := by
  unfold releaseLFB; cases s.m_lfb_mmio <;> rfl

@[simp] theorem releaseVGA_vram_size (s : Device) :
    (releaseVGA s).m_vram_size = s.m_vram_size := by
  unfold releaseVGA; cases s.m_vga_mmio <;> rfl

@[simp] theorem mapLFB_vbe (c : Consts) (s : Device) : (mapLFB c s).vbe = s.vbe := by
  unfold mapLFB; split <;> rfl

@[simp] theorem mapLFB_base (c : Consts) (s : Device) : (mapLFB c s).base = s.base := by
  unfold mapLFB; split <;> rfl

@[simp] theorem mapLFB_vram_size (c : Consts) (s : Device) :
    (mapLFB c s).m_vram_size = s.m_vram_size := by
  unfold mapLFB; split <;> rfl

@[simp] theorem UpdateVGAMemoryMapping_vbe (c : Consts) (s : Device) :
    (UpdateVGAMemoryMapping c s).vbe = s.vbe := by
  simp [UpdateVGAMemoryMapping, mapVGA]

@[simp] theorem UpdateVGAMemoryMapping_base (c : Consts) (s : Device) :
    (UpdateVGAMemoryMapping c s).base = s.base := by
  simp [UpdateVGAMemoryMapping, mapVGA]

@[simp] theorem UpdateVGAMemoryMapping_vram_size (c : Consts) (s : Device) :
    (UpdateVGAMemoryMapping c s).m_vram_size = s.m_vram_size := by
  simp [UpdateVGAMemoryMapping, mapVGA]

@[simp] theorem UpdateFramebufferFormat_vbe (c : Consts) (B : BaseOps) (s : Device) :
    (UpdateFramebufferFormat c B s).vbe = s.vbe := by
  unfold UpdateFramebufferFormat; split_ifs <;> rfl

@[simp] theorem UpdateFramebufferFormat_base (c : Consts) (B : BaseOps) (s : Device) :
    (UpdateFramebufferFormat c B s).base = s.base := by
  unfold UpdateFramebufferFormat; split_ifs <;> rfl

@[simp] theorem UpdateFramebufferFormat_vram_size (c : Consts) (B : BaseOps) (s : Device) :
    (UpdateFramebufferFormat c B s).m_vram_size = s.m_vram_size := by
  unfold UpdateFramebufferFormat; split_ifs <;> rfl

@[simp] theorem UpdateFramebufferFormat_bus (c : Consts) (B : BaseOps) (s : Device) :
    (UpdateFramebufferFormat c B s).bus = s.bus := by
  unfold UpdateFramebufferFormat; split_ifs <;> rfl

@[simp] theorem UpdateFramebufferFormat_lfb (c : Consts) (B : BaseOps) (s : Device) :
    (UpdateFramebufferFormat c B s).m_lfb_mmio = s.m_lfb_mmio := by
  unfold UpdateFramebufferFormat; split_ifs <;> rfl

@[simp] theorem UpdateFramebufferFormat_vga (c : Consts) (B : BaseOps) (s : Device) :
    (UpdateFramebufferFormat c B s).m_vga_mmio = s.m_vga_mmio := by
  unfold UpdateFramebufferFormat; split_ifs <;> rfl

@[simp] theorem UpdateFramebufferFormat_bios (c : Consts) (B : BaseOps) (s : Device) :
    (UpdateFramebufferFormat c B s).m_bios_mmio = s.m_bios_mmio := by
  unfold UpdateFramebufferFormat; split_ifs <;> rfl

theorem IsValidBPP_iff (v : Nat) :
    IsValidBPP v = true ↔ v = 4 ∨ v = 8 ∨ v = 15 ∨ v = 16 ∨ v = 24 ∨ v = 32 := by
  simp [IsValidBPP, or_assoc]

/-- The registers written by the ENABLE case are the enable word and, on a
transition to enabled, the virtual resolution and the offsets. -/
theorem writeEnable_vbe (c : Consts) (B : BaseOps) (s : Device) (value : Nat) :
    (writeEnable c B s value).vbe =
      if value.testBit c.bit_enable = true ∧ s.vbe.enable c = false then
        { s.vbe with m_vbe_enable := value, m_vbe_virt_width := s.vbe.m_vbe_width,
                     m_vbe_virt_height := s.vbe.m_vbe_height, m_vbe_offset_x := 0,
                     m_vbe_offset_y := 0 }
      else { s.vbe with m_vbe_enable := value } := by
  unfold writeEnable
  cases hv : value.testBit c.bit_enable <;> cases hs : s.vbe.enable c <;>
    simp [VBERegs.enable, VBERegs.dac_8bit, VBERegs.no_clear_mem, hv] <;>
    (repeat' split) <;> simp_all [VBERegs.enable]

@[simp] theorem writeEnable_vram_size (c : Consts) (B : BaseOps) (s : Device) (value : Nat) :
    (writeEnable c B s value).m_vram_size = s.m_vram_size := by
  unfold writeEnable
  simp only []
  repeat' split
  all_goals simp

/-! ## Register writes that are rejected or accepted -/

/-- C4: with a sixteen-bit value `v`, a write to the BPP register stores `v` when
`v` is one of 4, 8, 15, 16, 24, 32, a write to the ID register stores `v` when
`VBE_DISPI_ID0 ≤ v ≤ VBE_DISPI_ID5`, a write to the BANK register stores `v` when
`(v + 1) * VBE_DISPI_BANK_SIZE ≤ m_vram_size` in exact arithmetic; in each
opposite case the whole device state is unchanged. -/
theorem rejected_register_writes_are_noops (c : Consts) (B : BaseOps) (hc : c.WF)
    (s : Device) (v : Nat) (hv : v < 65536) :
    (s.vbe.m_vbe_index_register = c.VBE_DISPI_INDEX_BPP →
      ((v = 4 ∨ v = 8 ∨ v = 15 ∨ v = 16 ∨ v = 24 ∨ v = 32) →
          (IOWriteVBEDataRegister c B s v).vbe.m_vbe_bpp = v)
      ∧ (¬ (v = 4 ∨ v = 8 ∨ v = 15 ∨ v = 16 ∨ v = 24 ∨ v = 32) →
          IOWriteVBEDataRegister c B s v = s))
    ∧ (s.vbe.m_vbe_index_register = c.VBE_DISPI_INDEX_ID →
      ((c.VBE_DISPI_ID0 ≤ v ∧ v ≤ c.VBE_DISPI_ID5) →
          (IOWriteVBEDataRegister c B s v).vbe.m_vbe_id = v)
      ∧ (¬ (c.VBE_DISPI_ID0 ≤ v ∧ v ≤ c.VBE_DISPI_ID5) →
          IOWriteVBEDataRegister c B s v = s))
    ∧ (s.vbe.m_vbe_index_register = c.VBE_DISPI_INDEX_BANK →
      ((v + 1) * c.VBE_DISPI_BANK_SIZE ≤ s.m_vram_size →
          (IOWriteVBEDataRegister c B s v).vbe.m_vbe_bank = v)
      ∧ (¬ ((v + 1) * c.VBE_DISPI_BANK_SIZE ≤ s.m_vram_size) →
          IOWriteVBEDataRegister c B s v = s)) := by
  obtain ⟨-, -, -, hBPP, -, hBANK, -, -, -, -, -, -⟩ := decodeIndex_labels c hc
  have hID := (decodeIndex_labels c hc).1
  refine ⟨fun hi => ⟨fun hval => ?_, fun hval => ?_⟩, fun hi => ⟨fun hval => ?_, fun hval => ?_⟩,
    fun hi => ?_⟩
  · have h1 : IsValidBPP v = true := (IsValidBPP_iff v).2 hval
    unfold IOWriteVBEDataRegister
    rw [hi, hBPP]
    simp only [h1, Bool.not_true, Bool.false_eq_true, if_false]
    split <;> simp
  · have h1 : IsValidBPP v = false := by
      cases h : IsValidBPP v
      · rfl
      · exact absurd ((IsValidBPP_iff v).1 h) hval
    unfold IOWriteVBEDataRegister
    rw [hi, hBPP]
    simp [h1]
  · unfold IOWriteVBEDataRegister
    rw [hi, hID]
    have : ¬ (v < c.VBE_DISPI_ID0 ∨ v > c.VBE_DISPI_ID5) := by omega
    simp [this]
  · unfold IOWriteVBEDataRegister
    rw [hi, hID]
    have : v < c.VBE_DISPI_ID0 ∨ v > c.VBE_DISPI_ID5 := by omega
    simp [this]
  · have hbs : c.VBE_DISPI_BANK_SIZE < 2 ^ 32 := hc.2.1
    have hlt : (v + 1) * c.VBE_DISPI_BANK_SIZE < 2 ^ 64 := by
      calc (v + 1) * c.VBE_DISPI_BANK_SIZE ≤ 65536 * c.VBE_DISPI_BANK_SIZE :=
            Nat.mul_le_mul_right _ (by omega)
        _ < 2 ^ 64 := by omega
    have hmod : (v + 1) * c.VBE_DISPI_BANK_SIZE % 2 ^ 64 = (v + 1) * c.VBE_DISPI_BANK_SIZE :=
      Nat.mod_eq_of_lt hlt
    refine ⟨fun hval => ?_, fun hval => ?_⟩
    · unfold IOWriteVBEDataRegister
      rw [hi, hBANK]
      simp only [hmod]
      have : ¬ ((v + 1) * c.VBE_DISPI_BANK_SIZE > s.m_vram_size) := by omega
      simp [this]
    · unfold IOWriteVBEDataRegister
      rw [hi, hBANK]
      simp only [hmod]
      have : (v + 1) * c.VBE_DISPI_BANK_SIZE > s.m_vram_size := by omega
      simp [this]

/-- Witness for C4 at the sample device: the invalid depth 5 is ignored. -/
theorem rejected_register_writes_are_noops_witness :
    IOWriteVBEDataRegister bochsConsts idleBase (IOWriteVBEIndexRegister sampleDevice 3) 5
      = IOWriteVBEIndexRegister sampleDevice 3 :=
  ((rejected_register_writes_are_noops bochsConsts idleBase bochsConsts_WF
      (IOWriteVBEIndexRegister sampleDevice 3) 5 (by decide)).1 rfl).2 (by decide)

/-! ## The ENABLE register -/

/-- C10, counterexample: writing 0 to ENABLE on an enabled device changes the
enable bit, yet the virtual width stays 800 while the width is 640. -/
theorem enable_transition_reset_counterexample :
    pannedDevice.vbe.m_vbe_index_register = bochsConsts.VBE_DISPI_INDEX_ENABLE
    ∧ pannedDevice.vbe.enable bochsConsts = true
    ∧ (IOWriteVBEDataRegister bochsConsts idleBase pannedDevice 0).vbe.enable bochsConsts = false
    ∧ (IOWriteVBEDataRegister bochsConsts idleBase pannedDevice 0).vbe.m_vbe_virt_width = 800
    ∧ (IOWriteVBEDataRegister bochsConsts idleBase pannedDevice 0).vbe.m_vbe_width = 640 := by
  decide

/-- C10, amended: a write to ENABLE that turns the enable bit from clear to set
leaves `virt_width = width`, `virt_height = height`, `offset_x = 0` and
`offset_y = 0`; every other write to ENABLE, in particular one that clears the
enable bit, leaves `virt_width`, `virt_height`, `offset_x` and `offset_y` as they
were; in both cases width and height are unchanged. -/
theorem enable_rising_edge_resets_derived_fields (c : Consts) (B : BaseOps) (hc : c.WF)
    (s : Device) (v : Nat)
    (hi : s.vbe.m_vbe_index_register = c.VBE_DISPI_INDEX_ENABLE) :
    (IOWriteVBEDataRegister c B s v).vbe.enable c = v.testBit c.bit_enable
    ∧ (IOWriteVBEDataRegister c B s v).vbe.m_vbe_width = s.vbe.m_vbe_width
    ∧ (IOWriteVBEDataRegister c B s v).vbe.m_vbe_height = s.vbe.m_vbe_height
    ∧ (s.vbe.enable c = false → v.testBit c.bit_enable = true →
        (IOWriteVBEDataRegister c B s v).vbe.m_vbe_virt_width
            = (IOWriteVBEDataRegister c B s v).vbe.m_vbe_width
        ∧ (IOWriteVBEDataRegister c B s v).vbe.m_vbe_virt_height
            = (IOWriteVBEDataRegister c B s v).vbe.m_vbe_height
        ∧ (IOWriteVBEDataRegister c B s v).vbe.m_vbe_offset_x = 0
        ∧ (IOWriteVBEDataRegister c B s v).vbe.m_vbe_offset_y = 0)
    ∧ (s.vbe.enable c = true ∨ v.testBit c.bit_enable = false →
        (IOWriteVBEDataRegister c B s v).vbe.m_vbe_virt_width = s.vbe.m_vbe_virt_width
        ∧ (IOWriteVBEDataRegister c B s v).vbe.m_vbe_virt_height = s.vbe.m_vbe_virt_height
        ∧ (IOWriteVBEDataRegister c B s v).vbe.m_vbe_offset_x = s.vbe.m_vbe_offset_x
        ∧ (IOWriteVBEDataRegister c B s v).vbe.m_vbe_offset_y = s.vbe.m_vbe_offset_y) := by
  have hE := (decodeIndex_labels c hc).2.2.2.2.1
  have hw : IOWriteVBEDataRegister c B s v = writeEnable c B s v := by
    unfold IOWriteVBEDataRegister
    rw [hi, hE]
  have hvbe : (writeEnable c B s v).vbe =
      if v.testBit c.bit_enable = true ∧ s.vbe.enable c = false then
        { s.vbe with m_vbe_enable := v, m_vbe_virt_width := s.vbe.m_vbe_width,
                     m_vbe_virt_height := s.vbe.m_vbe_height, m_vbe_offset_x := 0,
                     m_vbe_offset_y := 0 }
      else { s.vbe with m_vbe_enable := v } := by
    unfold writeEnable
    cases hv : v.testBit c.bit_enable <;> cases hs : s.vbe.enable c <;>
      simp [VBERegs.enable, VBERegs.dac_8bit, VBERegs.no_clear_mem, hv] <;>
      (repeat' split) <;> simp_all [VBERegs.enable]
  rw [hw, hvbe]
  refine ⟨?_, ?_, ?_, fun hold hnew => ?_, fun h => ?_⟩
  · split_ifs <;> simp [VBERegs.enable]
  · split_ifs <;> rfl
  · split_ifs <;> rfl
  · rw [if_pos ⟨hnew, hold⟩]
    exact ⟨rfl, rfl, rfl, rfl⟩
  · have hn : ¬ (v.testBit c.bit_enable = true ∧ s.vbe.enable c = false) := by
      rintro ⟨h1, h2⟩
      rcases h with h | h
      · rw [h2] at h; cases h
      · rw [h1] at h; cases h
    rw [if_neg hn]
    exact ⟨rfl, rfl, rfl, rfl⟩

/-- Witness for the amended C10: enabling VBE on the sample device sets the virtual
width to the width, and disabling it on the panned device keeps the virtual width
of 800. -/
theorem enable_rising_edge_resets_derived_fields_witness :
    (IOWriteVBEDataRegister bochsConsts idleBase (IOWriteVBEIndexRegister sampleDevice 4)
        1).vbe.m_vbe_virt_width
      = (IOWriteVBEDataRegister bochsConsts idleBase (IOWriteVBEIndexRegister sampleDevice 4)
          1).vbe.m_vbe_width
    ∧ (IOWriteVBEDataRegister bochsConsts idleBase pannedDevice 0).vbe.m_vbe_virt_width
      = pannedDevice.vbe.m_vbe_virt_width :=
  ⟨((enable_rising_edge_resets_derived_fields bochsConsts idleBase bochsConsts_WF
      (IOWriteVBEIndexRegister sampleDevice 4) 1 rfl).2.2.2.1 (by decide) (by decide)).1,
   ((enable_rising_edge_resets_derived_fields bochsConsts idleBase bochsConsts_WF
      pannedDevice 0 (by decide)).2.2.2.2 (Or.inr (by decide))).1⟩

/-! ## Snapshot section -/

theorem SafeReadUInt16_error (r : BinaryReader) (d : Nat) :
    (r.SafeReadUInt16 d).2.error = true ↔ r.error = true ∨ r.data.length < 2 := by
  unfold BinaryReader.SafeReadUInt16
  rcases hd : r.data with _ | ⟨b0, _ | ⟨b1, rest⟩⟩ <;> simp

theorem SafeReadUInt16_length (r : BinaryReader) (d : Nat) :
    (r.SafeReadUInt16 d).2.data.length = r.data.length - 2 := by
  unfold BinaryReader.SafeReadUInt16
  rcases hd : r.data with _ | ⟨b0, _ | ⟨b1, rest⟩⟩ <;> simp

theorem ReadUInt32_error (r : BinaryReader) :
    (r.ReadUInt32).2.error = true ↔ r.error = true ∨ r.data.length < 4 := by
  unfold BinaryReader.ReadUInt32
  rcases hd : r.data with _ | ⟨b0, _ | ⟨b1, _ | ⟨b2, _ | ⟨b3, rest⟩⟩⟩⟩ <;> simp

theorem ReadUInt32_length (r : BinaryReader) :
    (r.ReadUInt32).2.data.length = r.data.length - 4 := by
  unfold BinaryReader.ReadUInt32
  rcases hd : r.data with _ | ⟨b0, _ | ⟨b1, _ | ⟨b2, _ | ⟨b3, rest⟩⟩⟩⟩ <;> simp

/-- The eleven field reads end in the error state exactly when the stream was
already in error or holds fewer than 22 bytes. -/
theorem readVBERegs_error (r : BinaryReader) (v : VBERegs) :
    (readVBERegs r v).2.error = true ↔ r.error = true ∨ r.data.length < 22 := by
  simp only [readVBERegs, SafeReadUInt16_error, SafeReadUInt16_length]
  by_cases he : r.error = true
  · simp [he]
  · simp only [he, false_or, Bool.false_eq_true, Nat.sub_sub, Nat.reduceAdd]
    omega

/-- C2: provided the stream is not already in the error state after the
base-class and PCI sections, `LoadState` returns true exactly when both sections
load, the next 32-bit value equals `SERIALIZATION_ID` and the 22 bytes of the
eleven fields follow it. -/
theorem LoadState_true_iff (c : Consts) (B : BaseOps) (s : Device) (reader : BinaryReader)
    (ok1 ok2 : Bool) (r1 r2 : BinaryReader) (b1 b2 : BaseState)
    (h1 : B.BaseLoadState reader s.base = (ok1, r1, b1))
    (h2 : B.PCILoadState r1 b1 = (ok2, r2, b2))
    (hclean : ok1 = true → ok2 = true → r2.error = false) :
    (LoadState c B s reader).1 = true ↔
      (ok1 = true ∧ ok2 = true ∧ (r2.ReadUInt32).1 = c.SERIALIZATION_ID
        ∧ 4 + 22 ≤ r2.data.length) := by
  unfold LoadState
  simp only [h1, h2]
  cases ok1
  · simp
  cases ok2
  · simp
  have hcl := hclean rfl rfl
  by_cases hid : (r2.ReadUInt32).1 = c.SERIALIZATION_ID
  · have herr := readVBERegs_error (r2.ReadUInt32).2 s.vbe
    have h4e := ReadUInt32_error r2
    have h4l := ReadUInt32_length r2
    simp only [Bool.not_true, Bool.false_eq_true, if_false, hid, bne_self_eq_false,
      BinaryReader.GetErrorState, true_and]
    by_cases he : (readVBERegs (r2.ReadUInt32).2 s.vbe).2.error = true
    · rw [if_pos he]
      have := herr.1 he
      simp only [Bool.false_eq_true, false_iff, not_le]
      rcases this with h | h
      · rcases h4e.1 h with h' | h'
        · simp [hcl] at h'
        · omega
      · omega
    · rw [if_neg he]
      simp only [true_iff]
      by_contra hlt
      apply he
      apply herr.2
      right
      omega
  · simp [hid]

/-- Witness for C2: a stream that stops after the identifier is refused. -/
theorem LoadState_true_iff_witness :
    (LoadState bochsConsts idleBase sampleDevice ⟨[0x41, 0x47, 0x56, 0x42], false⟩).1 = false := by
  have h := LoadState_true_iff bochsConsts idleBase sampleDevice
    ⟨[0x41, 0x47, 0x56, 0x42], false⟩ true true ⟨[0x41, 0x47, 0x56, 0x42], false⟩
    ⟨[0x41, 0x47, 0x56, 0x42], false⟩ sampleDevice.base sampleDevice.base rfl rfl (fun _ _ => rfl)
  cases hl : (LoadState bochsConsts idleBase sampleDevice ⟨[0x41, 0x47, 0x56, 0x42], false⟩).1
  · rfl
  · exact absurd (h.1 hl).2.2.2 (by decide)

/-- C3, counterexample: after a correct identifier and one complete field the stream
ends; `LoadState` returns false although the index register was overwritten
(0 before, 5 after). -/
theorem LoadState_failure_atomicity_counterexample :
    (LoadState bochsConsts idleBase sampleDevice truncatedStream).1 = false
    ∧ sampleDevice.vbe.m_vbe_index_register = 0
    ∧ (LoadState bochsConsts idleBase sampleDevice truncatedStream).2.1.vbe.m_vbe_index_register
        = 5 := by
  decide

theorem SafeReadUInt16_value (r : BinaryReader) (d : Nat) :
    (r.SafeReadUInt16 d).1 = streamUInt16 r.data 0 d := by
  unfold BinaryReader.SafeReadUInt16 streamUInt16
  rcases hd : r.data with _ | ⟨b0, _ | ⟨b1, rest⟩⟩ <;> simp

theorem SafeReadUInt16_data (r : BinaryReader) (d : Nat) :
    (r.SafeReadUInt16 d).2.data = r.data.drop 2 := by
  unfold BinaryReader.SafeReadUInt16
  rcases hd : r.data with _ | ⟨b0, _ | ⟨b1, rest⟩⟩ <;> simp

theorem streamUInt16_drop (data : List Nat) (n off old : Nat) :
    streamUInt16 (data.drop n) off old = streamUInt16 data (n + off) old := by
  unfold streamUInt16
  simp only [List.length_drop, List.getD_eq_getElem?_getD, List.getElem?_drop]
  have h : (off + 2 ≤ data.length - n) ↔ (n + off + 2 ≤ data.length) := by omega
  simp only [h, Nat.add_assoc]

/-- The registers after the eleven field reads of `LoadState`: the field at byte
offset `2 * k` of the stream goes to the `k`-th register when the stream holds it,
and the register keeps its value otherwise. -/
theorem readVBERegs_fields (r : BinaryReader) (v : VBERegs) :
    (readVBERegs r v).1 =
      { m_vbe_index_register := streamUInt16 r.data 0 v.m_vbe_index_register,
        m_vbe_enable := streamUInt16 r.data 2 v.m_vbe_enable,
        m_vbe_id := streamUInt16 r.data 4 v.m_vbe_id,
        m_vbe_bank := streamUInt16 r.data 6 v.m_vbe_bank,
        m_vbe_width := streamUInt16 r.data 8 v.m_vbe_width,
        m_vbe_height := streamUInt16 r.data 10 v.m_vbe_height,
        m_vbe_bpp := streamUInt16 r.data 12 v.m_vbe_bpp,
        m_vbe_offset_x := streamUInt16 r.data 14 v.m_vbe_offset_x,
        m_vbe_offset_y := streamUInt16 r.data 16 v.m_vbe_offset_y,
        m_vbe_virt_width := streamUInt16 r.data 18 v.m_vbe_virt_width,
        m_vbe_virt_height := streamUInt16 r.data 20 v.m_vbe_virt_height } := by
  simp only [readVBERegs, SafeReadUInt16_value, SafeReadUInt16_data, List.drop_drop,
    streamUInt16_drop, Nat.reduceAdd]

/-- C3, amended: whenever `LoadState` returns false the three region pointers, the
bus and the framebuffer format are as before the call; when the failure is a
failed base-class or PCI section or an identifier mismatch the VBE registers are
unchanged as well; and after both sections and a correct identifier, each register
whose two bytes the stream still holds has the value read from them, while the
registers past the end of the stream keep their values. -/
theorem LoadState_failure_frame (c : Consts) (B : BaseOps) (s : Device) (reader : BinaryReader)
    (ok1 ok2 : Bool) (r1 r2 : BinaryReader) (b1 b2 : BaseState)
    (h1 : B.BaseLoadState reader s.base = (ok1, r1, b1))
    (h2 : B.PCILoadState r1 b1 = (ok2, r2, b2))
    (hfail : (LoadState c B s reader).1 = false) :
    (LoadState c B s reader).2.1.m_lfb_mmio = s.m_lfb_mmio
    ∧ (LoadState c B s reader).2.1.m_vga_mmio = s.m_vga_mmio
    ∧ (LoadState c B s reader).2.1.m_bios_mmio = s.m_bios_mmio
    ∧ (LoadState c B s reader).2.1.bus = s.bus
    ∧ (LoadState c B s reader).2.1.framebufferFormat = s.framebufferFormat
    ∧ ((ok1 = false ∨ ok2 = false ∨ (r2.ReadUInt32).1 ≠ c.SERIALIZATION_ID) →
        (LoadState c B s reader).2.1.vbe = s.vbe)
    ∧ (ok1 = true → ok2 = true → (r2.ReadUInt32).1 = c.SERIALIZATION_ID →
        (r2.error = false → (r2.ReadUInt32).2.data.length < 22)
        ∧ (LoadState c B s reader).2.1.vbe =
          { m_vbe_index_register :=
              streamUInt16 (r2.ReadUInt32).2.data 0 s.vbe.m_vbe_index_register,
            m_vbe_enable := streamUInt16 (r2.ReadUInt32).2.data 2 s.vbe.m_vbe_enable,
            m_vbe_id := streamUInt16 (r2.ReadUInt32).2.data 4 s.vbe.m_vbe_id,
            m_vbe_bank := streamUInt16 (r2.ReadUInt32).2.data 6 s.vbe.m_vbe_bank,
            m_vbe_width := streamUInt16 (r2.ReadUInt32).2.data 8 s.vbe.m_vbe_width,
            m_vbe_height := streamUInt16 (r2.ReadUInt32).2.data 10 s.vbe.m_vbe_height,
            m_vbe_bpp := streamUInt16 (r2.ReadUInt32).2.data 12 s.vbe.m_vbe_bpp,
            m_vbe_offset_x := streamUInt16 (r2.ReadUInt32).2.data 14 s.vbe.m_vbe_offset_x,
            m_vbe_offset_y := streamUInt16 (r2.ReadUInt32).2.data 16 s.vbe.m_vbe_offset_y,
            m_vbe_virt_width := streamUInt16 (r2.ReadUInt32).2.data 18 s.vbe.m_vbe_virt_width,
            m_vbe_virt_height :=
              streamUInt16 (r2.ReadUInt32).2.data 20 s.vbe.m_vbe_virt_height }) := by
  unfold LoadState at hfail ⊢
  simp only [h1, h2] at hfail ⊢
  cases ok1
  · simp
  cases ok2
  · simp
  by_cases hid : (r2.ReadUInt32).1 = c.SERIALIZATION_ID
  · simp only [Bool.not_true, Bool.false_eq_true, if_false, hid, bne_self_eq_false] at hfail ⊢
    by_cases he : (readVBERegs (r2.ReadUInt32).2 s.vbe).2.GetErrorState = true
    · have hlen : r2.error = false → (r2.ReadUInt32).2.data.length < 22 := by
        intro hr2
        have h4l := ReadUInt32_length r2
        rcases (readVBERegs_error _ _).1 he with h | h
        · rcases (ReadUInt32_error r2).1 h with h' | h'
          · rw [hr2] at h'; cases h'
          · omega
        · exact h
      rw [if_pos he]
      refine ⟨rfl, rfl, rfl, rfl, rfl, fun h => ?_, fun _ _ _ => ⟨hlen, readVBERegs_fields _ _⟩⟩
      rcases h with h | h | h
      · cases h
      · cases h
      · exact absurd rfl h
    · simp [he] at hfail
  · simp [hid]

/-- Witness for the amended C3: an identifier mismatch leaves the registers alone,
and a stream that ends after the first field changes the index register only. -/
theorem LoadState_failure_frame_witness :
    (LoadState bochsConsts idleBase sampleDevice ⟨[1, 2, 3, 4, 5, 0], false⟩).2.1.vbe
      = sampleDevice.vbe
    ∧ (LoadState bochsConsts idleBase sampleDevice truncatedStream).2.1.vbe
      = { sampleDevice.vbe with m_vbe_index_register := 5 } :=
  ⟨(LoadState_failure_frame bochsConsts idleBase sampleDevice ⟨[1, 2, 3, 4, 5, 0], false⟩
      true true ⟨[1, 2, 3, 4, 5, 0], false⟩ ⟨[1, 2, 3, 4, 5, 0], false⟩ sampleDevice.base
      sampleDevice.base rfl rfl (by decide)).2.2.2.2.2.1 (Or.inr (Or.inr (by decide))),
   ((LoadState_failure_frame bochsConsts idleBase sampleDevice truncatedStream
      true true truncatedStream truncatedStream sampleDevice.base
      sampleDevice.base rfl rfl (by decide)).2.2.2.2.2.2 rfl rfl (by decide)).2.trans
      (by decide)⟩

theorem writeVBERegs_data (c : Consts) (v : VBERegs) (w : BinaryWriter) :
    writeVBERegs c v w = { w with data := w.data ++ sectionBytes c v } := by
  simp [writeVBERegs, sectionBytes, BinaryWriter.WriteUInt16, BinaryWriter.WriteUInt32]

/-- The effect of a data-port write on the register file. -/
theorem IOWriteVBEDataRegister_vbe (c : Consts) (B : BaseOps) (s : Device) (v : Nat) :
    (IOWriteVBEDataRegister c B s v).vbe =
      match decodeIndex c s.vbe.m_vbe_index_register with
      | some .ID =>
          if v < c.VBE_DISPI_ID0 ∨ v > c.VBE_DISPI_ID5 then s.vbe
          else { s.vbe with m_vbe_id := v }
      | some .XRES => { s.vbe with m_vbe_width := v }
      | some .YRES => { s.vbe with m_vbe_height := v }
      | some .BPP => if IsValidBPP v = true then { s.vbe with m_vbe_bpp := v } else s.vbe
      | some .ENABLE => (writeEnable c B s v).vbe
      | some .BANK =>
          if ((v + 1) * c.VBE_DISPI_BANK_SIZE) % 2 ^ 64 > s.m_vram_size then s.vbe
          else { s.vbe with m_vbe_bank := v }
      | some .VIRT_WIDTH => { s.vbe with m_vbe_virt_width := v }
      | some .VIRT_HEIGHT => { s.vbe with m_vbe_virt_height := v }
      | some .X_OFFSET => { s.vbe with m_vbe_offset_x := v }
      | some .Y_OFFSET => { s.vbe with m_vbe_offset_y := v }
      | some .VIDEO_MEMORY_64K => s.vbe
      | some .DDC => s.vbe
      | none => s.vbe := by
  unfold IOWriteVBEDataRegister
  cases decodeIndex c s.vbe.m_vbe_index_register with
  | none => rfl
  | some i =>
    cases i <;> simp only [] <;> (try split_ifs) <;> simp_all

theorem IOWriteVBEDataRegister_U16 (c : Consts) (B : BaseOps) (s : Device) (v : Nat)
    (hv : v < 65536) (hs : s.vbe.U16) : (IOWriteVBEDataRegister c B s v).vbe.U16 := by
  rw [IOWriteVBEDataRegister_vbe]
  unfold VBERegs.U16 at hs ⊢
  split
  case h_5 =>
    rw [writeEnable_vbe]
    split_ifs <;> simp <;> omega
  all_goals first
    | (split_ifs <;> (try simp) <;> omega)
    | (simp; omega)
    | omega

theorem runPortWrites_U16 (c : Consts) (B : BaseOps) (ws : List PortWrite)
    (hws : ∀ w ∈ ws, w.value < 65536) (s : Device) (hs : s.vbe.U16) :
    (runPortWrites c B s ws).vbe.U16 := by
  induction ws generalizing s with
  | nil => exact hs
  | cons w ws ih =>
    have hw : w.value < 65536 := hws w (List.mem_cons_self _ _)
    have hrest : ∀ w' ∈ ws, w'.value < 65536 := fun w' h => hws w' (List.mem_cons_of_mem _ h)
    simp only [runPortWrites, List.foldl_cons]
    apply ih hrest
    cases w with
    | index v =>
      simp only [PortWrite.value] at hw
      unfold VBERegs.U16 at hs ⊢
      simp [portWrite, IOWriteVBEIndexRegister]
      omega
    | data v => exact IOWriteVBEDataRegister_U16 c B s v hw hs

theorem ReadUInt32_section (c : Consts) (hc : c.WF) (v : VBERegs) (rest : List Nat) (e : Bool) :
    ∃ tail, (BinaryReader.ReadUInt32 ⟨sectionBytes c v ++ rest, e⟩) = (c.SERIALIZATION_ID, ⟨tail ++ rest, e⟩)
      ∧ ∀ old, v.U16 → readVBERegs ⟨tail ++ rest, e⟩ old = (v, ⟨rest, e⟩) := by
  have hid : c.SERIALIZATION_ID < 2 ^ 32 := hc.2.2
  refine ⟨(sectionBytes c v).drop 4, ?_, ?_⟩
  · simp [sectionBytes, writeVBERegs, BinaryWriter.WriteUInt16, BinaryWriter.WriteUInt32,
      BinaryReader.ReadUInt32]
    omega
  · intro old hv
    unfold VBERegs.U16 at hv
    simp [sectionBytes, writeVBERegs, BinaryWriter.WriteUInt16, BinaryWriter.WriteUInt32,
      readVBERegs, BinaryReader.SafeReadUInt16]
    cases v
    simp at hv ⊢
    omega

theorem LoadState_section (c : Consts) (B : BaseOps) (hc : c.WF) (t : Device)
    (reader r1 : BinaryReader) (b1 b2 : BaseState) (v : VBERegs) (rest : List Nat)
    (h1 : B.BaseLoadState reader t.base = (true, r1, b1))
    (h2 : B.PCILoadState r1 b1 = (true, ⟨sectionBytes c v ++ rest, false⟩, b2))
    (hv : v.U16) :
    (LoadState c B t reader).1 = true
    ∧ (LoadState c B t reader).2.1.vbe = v
    ∧ (LoadState c B t reader).2.1.m_vram_size = t.m_vram_size
    ∧ (LoadState c B t reader).2.2 = ⟨rest, false⟩ := by
  obtain ⟨tail, hrd, hregs⟩ := ReadUInt32_section c hc v rest false
  unfold LoadState
  simp only [h1, h2, hrd, hregs _ hv]
  simp [BinaryReader.GetErrorState]

@[simp] theorem IOWriteVBEDataRegister_vram_size (c : Consts) (B : BaseOps) (s : Device)
    (v : Nat) : (IOWriteVBEDataRegister c B s v).m_vram_size = s.m_vram_size := by
  unfold IOWriteVBEDataRegister
  cases decodeIndex c s.vbe.m_vbe_index_register with
  | none => rfl
  | some i =>
    cases i <;> simp only [] <;> (try split_ifs) <;> simp

@[simp] theorem runPortWrites_vram_size (c : Consts) (B : BaseOps) (ws : List PortWrite)
    (s : Device) : (runPortWrites c B s ws).m_vram_size = s.m_vram_size := by
  induction ws generalizing s with
  | nil => rfl
  | cons w ws ih =>
    simp only [runPortWrites, List.foldl_cons] at ih ⊢
    rw [ih]
    cases w <;> simp [portWrite, IOWriteVBEIndexRegister]

/-- What the data port returns depends on the register file and the VRAM size only. -/
theorem IOReadVBEDataRegister_congr (c : Consts) (s t : Device) (hv : s.vbe = t.vbe)
    (hm : s.m_vram_size = t.m_vram_size) :
    IOReadVBEDataRegister c s = IOReadVBEDataRegister c t := by
  unfold IOReadVBEDataRegister
  rw [hv, hm]

/-- C1: for a device reached from sixteen-bit registers by any sequence of index and
data port writes, whose base-class and PCI sections save and round-trip, loading
the bytes written by `SaveState` into a device with the same VRAM size returns
true, restores all eleven VBE registers, and makes `IOReadVBEDataRegister` return
the same value for every index. -/
theorem snapshot_round_trip (c : Consts) (B : BaseOps) (hc : c.WF)
    (hbase : ∀ (b tb : BaseState) (w1 w2 : BinaryWriter) (rest : List Nat),
      B.BaseSaveState b ⟨[], false⟩ = (true, w1) → B.PCISaveState b w1 = (true, w2) →
      ∃ r1 b1 b2, B.BaseLoadState ⟨w2.data ++ rest, false⟩ tb = (true, r1, b1)
        ∧ B.PCILoadState r1 b1 = (true, ⟨rest, false⟩, b2))
    (s0 : Device) (h0 : s0.vbe.U16) (ws : List PortWrite) (hws : ∀ w ∈ ws, w.value < 65536)
    (t : Device) (ht : t.m_vram_size = s0.m_vram_size)
    (hsave : (SaveState c B (runPortWrites c B s0 ws) ⟨[], false⟩).1 = true) :
    (LoadState c B t
        ⟨(SaveState c B (runPortWrites c B s0 ws) ⟨[], false⟩).2.data, false⟩).1 = true
    ∧ (LoadState c B t
        ⟨(SaveState c B (runPortWrites c B s0 ws) ⟨[], false⟩).2.data, false⟩).2.1.vbe
        = (runPortWrites c B s0 ws).vbe
    ∧ ∀ i : Nat,
        IOReadVBEDataRegister c (IOWriteVBEIndexRegister (LoadState c B t
          ⟨(SaveState c B (runPortWrites c B s0 ws) ⟨[], false⟩).2.data, false⟩).2.1 i)
        = IOReadVBEDataRegister c (IOWriteVBEIndexRegister (runPortWrites c B s0 ws) i) := by
  have hU := runPortWrites_U16 c B ws hws s0 h0
  have hsz := runPortWrites_vram_size c B ws s0
  generalize runPortWrites c B s0 ws = s at hU hsz hsave ⊢
  rcases hb1 : B.BaseSaveState s.base ⟨[], false⟩ with ⟨ok1, w1⟩
  rcases hb2 : B.PCISaveState s.base w1 with ⟨ok2, w2⟩
  unfold SaveState at hsave ⊢
  simp only [hb1, hb2] at hsave ⊢
  cases ok1
  · simp at hsave
  cases ok2
  · simp at hsave
  simp only [Bool.not_true, Bool.false_eq_true, if_false, writeVBERegs_data]
  obtain ⟨r1, b1, b2, hl1, hl2⟩ := hbase s.base t.base w1 w2 (sectionBytes c s.vbe ++ []) hb1 hb2
  obtain ⟨hok, hvbe, hvs, -⟩ := LoadState_section c B hc t _ r1 b1 b2 s.vbe [] hl1 hl2 hU
  simp only [List.append_nil] at hok hvbe hvs
  refine ⟨hok, hvbe, fun i => ?_⟩
  apply IOReadVBEDataRegister_congr
  · simp [IOWriteVBEIndexRegister, hvbe]
  · simp only [IOWriteVBEIndexRegister]
    rw [hvs, ht, hsz]

theorem idleBase_round_trip :
    ∀ (b tb : BaseState) (w1 w2 : BinaryWriter) (rest : List Nat),
      idleBase.BaseSaveState b ⟨[], false⟩ = (true, w1) → idleBase.PCISaveState b w1 = (true, w2) →
      ∃ r1 b1 b2, idleBase.BaseLoadState ⟨w2.data ++ rest, false⟩ tb = (true, r1, b1)
        ∧ idleBase.PCILoadState r1 b1 = (true, ⟨rest, false⟩, b2) := by
  intro b tb w1 w2 rest h1 h2
  simp only [idleBase, Prod.mk.injEq, true_and] at h1 h2
  subst h1; subst h2
  exact ⟨⟨rest, false⟩, tb, tb, rfl, rfl⟩

/-- Witness for C1: save after one register write, load into a fresh device. -/
theorem snapshot_round_trip_witness :
    (LoadState bochsConsts idleBase freshDevice
        ⟨(SaveState bochsConsts idleBase
          (runPortWrites bochsConsts idleBase sampleDevice [.index 1, .data 800])
          ⟨[], false⟩).2.data, false⟩).2.1.vbe
      = (runPortWrites bochsConsts idleBase sampleDevice [.index 1, .data 800]).vbe :=
  (snapshot_round_trip bochsConsts idleBase bochsConsts_WF idleBase_round_trip sampleDevice
    (by decide) [.index 1, .data 800] (by decide) freshDevice rfl rfl).2.1


theorem IOWriteVBEDataRegister_BankValid (c : Consts) (B : BaseOps) (hc : c.WF) (s : Device)
    (v : Nat) (hv : v < 65536) (hs : BankValid c s) :
    BankValid c (IOWriteVBEDataRegister c B s v) := by
  unfold BankValid at hs ⊢
  have hbs : c.VBE_DISPI_BANK_SIZE < 2 ^ 32 := hc.2.1
  have hlt : (v + 1) * c.VBE_DISPI_BANK_SIZE < 2 ^ 64 := by
    calc (v + 1) * c.VBE_DISPI_BANK_SIZE ≤ 65536 * c.VBE_DISPI_BANK_SIZE :=
          Nat.mul_le_mul_right _ (by omega)
      _ < 2 ^ 64 := by omega
  rw [IOWriteVBEDataRegister_vbe, IOWriteVBEDataRegister_vram_size]
  split
  case h_5 =>
    rw [writeEnable_vbe]
    split_ifs <;> exact hs
  case h_6 =>
    rw [Nat.mod_eq_of_lt hlt]
    split_ifs with h
    · exact hs
    · simp only
      omega
  all_goals first
    | (split_ifs <;> exact hs)
    | exact hs

theorem runPortWrites_BankValid (c : Consts) (B : BaseOps) (hc : c.WF) (ws : List PortWrite)
    (hws : ∀ w ∈ ws, w.value < 65536) (s : Device) (hs : BankValid c s) :
    BankValid c (runPortWrites c B s ws) := by
  induction ws generalizing s with
  | nil => exact hs
  | cons w ws ih =>
    have hw : w.value < 65536 := hws w (List.mem_cons_self _ _)
    have hrest : ∀ w' ∈ ws, w'.value < 65536 := fun w' h => hws w' (List.mem_cons_of_mem _ h)
    simp only [runPortWrites, List.foldl_cons]
    apply ih hrest
    cases w with
    | index v => exact hs
    | data v => exact IOWriteVBEDataRegister_BankValid c B hc s v hw hs

/-- C5: from a state whose bank register selects a window inside VRAM (and a `u32`
VRAM size), after any sequence of sixteen-bit index and data port writes, an access
of the linear bank-window handlers at `offset` with `offset + width` inside the
bank indexes `m_vram` at `bank * VBE_DISPI_BANK_SIZE + offset` without wrap-around,
the access ends inside `m_vram_size`, and the read and the write succeed when
`m_vram` has `m_vram_size` bytes. -/
theorem bank_window_within_vram (c : Consts) (B : BaseOps) (hc : c.WF) (s0 : Device)
    (hsz : s0.m_vram_size < 2 ^ 32) (hb : BankValid c s0) (ws : List PortWrite)
    (hws : ∀ w ∈ ws, w.value < 65536) (offset width : Nat)
    (ho : offset + width ≤ c.VBE_DISPI_BANK_SIZE) :
    linearIndex c (runPortWrites c B s0 ws) offset
        = (runPortWrites c B s0 ws).vbe.m_vbe_bank * c.VBE_DISPI_BANK_SIZE + offset
    ∧ (runPortWrites c B s0 ws).vbe.m_vbe_bank * c.VBE_DISPI_BANK_SIZE + offset + width
        ≤ (runPortWrites c B s0 ws).m_vram_size
    ∧ ((runPortWrites c B s0 ws).base.m_vram.length = (runPortWrites c B s0 ws).m_vram_size →
        (linearRead c (runPortWrites c B s0 ws) offset width).isSome = true
        ∧ ∀ value, (linearWrite c (runPortWrites c B s0 ws) offset width value).isSome = true) := by
  have hB := runPortWrites_BankValid c B hc ws hws s0 hb
  have hsz' := runPortWrites_vram_size c B ws s0
  generalize runPortWrites c B s0 ws = s at hB hsz' ⊢
  unfold BankValid at hB
  rw [Nat.add_mul, Nat.one_mul] at hB
  have hidx : linearIndex c s offset = s.vbe.m_vbe_bank * c.VBE_DISPI_BANK_SIZE + offset := by
    unfold linearIndex
    rw [Nat.mod_eq_of_lt (by omega), Nat.mod_eq_of_lt (by omega)]
  refine ⟨hidx, by omega, fun hlen => ⟨?_, fun value => ?_⟩⟩
  · unfold linearRead readBytes
    rw [hidx, if_pos (by omega)]
    rfl
  · unfold linearWrite writeBytes
    rw [hidx, if_pos (by omega)]
    rfl

/-- Witness for C5: a dword access at the end of bank 3. -/
theorem bank_window_within_vram_witness :
    linearIndex bochsConsts
        (runPortWrites bochsConsts idleBase sampleDevice [.index 5, .data 3]) 65532
      = (runPortWrites bochsConsts idleBase sampleDevice [.index 5, .data 3]).vbe.m_vbe_bank
          * bochsConsts.VBE_DISPI_BANK_SIZE + 65532 :=
  (bank_window_within_vram bochsConsts idleBase bochsConsts_WF sampleDevice (by decide)
    (by decide) [.index 5, .data 3] (by decide) 65532 4 (by decide)).1

/-- C6, the code at the failing input: VBE is enabled with the valid depth 32, the
exact end offset of the latch (4295098368) exceeds the VRAM size (16777216), yet
the 32-bit products wrap, `LatchStartAddress` keeps start address 0 and
`RenderGraphicsMode` calls `RenderDirect`. -/
theorem latch_wraparound_renders :
    wrappedLatchDevice.vbe.enable bochsConsts = true
    ∧ IsValidBPP wrappedLatchDevice.vbe.m_vbe_bpp = true
    ∧ wrappedLatchDevice.vbe.U16
    ∧ exactLatchEnd wrappedLatchDevice = 4295098368
    ∧ wrappedLatchDevice.m_vram_size = 16777216
    ∧ wrappedLatchDevice.m_vram_size < exactLatchEnd wrappedLatchDevice
    ∧ (LatchStartAddress bochsConsts idleBase wrappedLatchDevice).map
        (fun s => (s.base.m_render_latch.start_address, s.base.m_render_latch.pitch,
          RenderGraphicsMode bochsConsts s)) = some (0, 131072, RenderAction.RenderDirect) := by
  decide

/-- C8, the code at the failing input: on an enabled device without linear
framebuffer, writing 0x41 to ENABLE sets `lfb_enable` and keeps `enable`; with the
PCI memory space active no framebuffer region is connected afterwards. -/
theorem lfb_enable_write_leaves_mapping_stale :
    bankedDevice.vbe.m_vbe_index_register = bochsConsts.VBE_DISPI_INDEX_ENABLE
    ∧ bankedDevice.m_lfb_mmio = none
    ∧ (IOWriteVBEDataRegister bochsConsts idleBase bankedDevice 0x41).vbe.enable bochsConsts = true
    ∧ (IOWriteVBEDataRegister bochsConsts idleBase bankedDevice 0x41).vbe.lfb_enable bochsConsts
        = true
    ∧ (IOWriteVBEDataRegister bochsConsts idleBase bankedDevice 0x41).base.pciMemoryActive = true
    ∧ (IOWriteVBEDataRegister bochsConsts idleBase bankedDevice 0x41).m_lfb_mmio = none
    ∧ Bus.slotRegions (IOWriteVBEDataRegister bochsConsts idleBase bankedDevice 0x41).bus .lfb
        = [] := by
  decide

theorem filter_erase_of_false {α : Type} [DecidableEq α] (p : α → Bool) (l : List α) (a : α)
    (h : p a = false) : (l.erase a).filter p = l.filter p := by
  induction l with
  | nil => rfl
  | cons x xs ih =>
    rw [List.erase_cons]
    by_cases hx : x = a
    · subst hx
      simp [h]
    · have : (x == a) = false := by simpa using hx
      simp only [this, Bool.false_eq_true, if_false, List.filter_cons, ih]

theorem filter_erase_of_true {α : Type} [DecidableEq α] (p : α → Bool) (l : List α) (a : α)
    (h : p a = true) : (l.erase a).filter p = (l.filter p).erase a := by
  induction l with
  | nil => rfl
  | cons x xs ih =>
    rw [List.erase_cons]
    by_cases hx : x = a
    · subst hx
      simp [h]
    · have hxa : (x == a) = false := by simpa using hx
      simp only [hxa, Bool.false_eq_true, if_false, List.filter_cons, ih]
      split
      · rw [List.erase_cons, hxa]; rfl
      · rfl

theorem slotRegions_disconnect (b : Bus) (m : MMIO) (k : Slot) :
    Bus.slotRegions (Bus.DisconnectMMIO b m) k
      = if m.slot = k then (Bus.slotRegions b k).erase m else Bus.slotRegions b k := by
  unfold Bus.slotRegions Bus.DisconnectMMIO
  simp only [Bus.regions]
  split_ifs with h
  · exact filter_erase_of_true _ _ _ (by simpa using h)
  · exact filter_erase_of_false _ _ _ (by simpa using h)

theorem slotRegions_connect (b : Bus) (m : MMIO) (k : Slot) :
    Bus.slotRegions (Bus.ConnectMMIO b m) k
      = if m.slot = k then m :: Bus.slotRegions b k else Bus.slotRegions b k := by
  unfold Bus.slotRegions Bus.ConnectMMIO
  simp only [Bus.regions, List.filter_cons]
  split_ifs <;> simp_all

theorem orderly_connect (b : Bus) (m : MMIO) :
    Bus.orderly (Bus.ConnectMMIO b m)
      = ((Bus.slotRegions b m.slot).isEmpty && Bus.orderly b) := rfl

theorem orderly_disconnect (b : Bus) (m : MMIO) :
    Bus.orderly (Bus.DisconnectMMIO b m) = Bus.orderly b := rfl

theorem MappingInv_of_sameMaps {s t : Device} (h : sameMaps s t) (ht : MappingInv t) :
    MappingInv s := by
  obtain ⟨hb, hl, hv, hbi⟩ := h
  unfold MappingInv
  rw [hb, hl, hv, hbi]
  exact ht

theorem mem_slotRegions_slot {b : Bus} {k : Slot} {m : MMIO}
    (h : m ∈ Bus.slotRegions b k) : m.slot = k := by
  unfold Bus.slotRegions at h
  simpa using (List.mem_filter.1 h).2

theorem releaseLFB_inv (s : Device) (h : MappingInv s) :
    MappingInv (releaseLFB s) ∧ (releaseLFB s).m_lfb_mmio = none
      ∧ (releaseLFB s).m_vga_mmio = s.m_vga_mmio ∧ (releaseLFB s).m_bios_mmio = s.m_bios_mmio := by
  obtain ⟨hl, hv, hb, ho⟩ := h
  unfold releaseLFB
  cases hm : s.m_lfb_mmio with
  | none => exact ⟨⟨by simpa [hm] using hl, hv, hb, ho⟩, hm, rfl, rfl⟩
  | some m =>
    rw [hm] at hl
    have hslot : m.slot = .lfb := mem_slotRegions_slot (by rw [hl]; simp)
    refine ⟨⟨?_, ?_, ?_, ?_⟩, rfl, rfl, rfl⟩
    · simp [slotRegions_disconnect, hslot, hl]
    · simp [slotRegions_disconnect, hslot, hv]
    · simp [slotRegions_disconnect, hslot, hb]
    · simpa [orderly_disconnect] using ho

theorem releaseVGA_inv (s : Device) (h : MappingInv s) :
    MappingInv (releaseVGA s) ∧ (releaseVGA s).m_vga_mmio = none
      ∧ (releaseVGA s).m_lfb_mmio = s.m_lfb_mmio ∧ (releaseVGA s).m_bios_mmio = s.m_bios_mmio := by
  obtain ⟨hl, hv, hb, ho⟩ := h
  unfold releaseVGA
  cases hm : s.m_vga_mmio with
  | none => exact ⟨⟨hl, by simpa [hm] using hv, hb, ho⟩, hm, rfl, rfl⟩
  | some m =>
    rw [hm] at hv
    have hslot : m.slot = .vga := mem_slotRegions_slot (by rw [hv]; simp)
    refine ⟨⟨?_, ?_, ?_, ?_⟩, rfl, rfl, rfl⟩
    · simp [slotRegions_disconnect, hslot, hl]
    · simp [slotRegions_disconnect, hslot, hv]
    · simp [slotRegions_disconnect, hslot, hb]
    · simpa [orderly_disconnect] using ho

theorem releaseBIOS_inv (s : Device) (h : MappingInv s) :
    MappingInv (releaseBIOS s) ∧ (releaseBIOS s).m_bios_mmio = none
      ∧ (releaseBIOS s).m_lfb_mmio = s.m_lfb_mmio ∧ (releaseBIOS s).m_vga_mmio = s.m_vga_mmio := by
  obtain ⟨hl, hv, hb, ho⟩ := h
  unfold releaseBIOS
  cases hm : s.m_bios_mmio with
  | none => exact ⟨⟨hl, hv, by simpa [hm] using hb, ho⟩, hm, rfl, rfl⟩
  | some m =>
    rw [hm] at hb
    have hslot : m.slot = .bios := mem_slotRegions_slot (by rw [hb]; simp)
    refine ⟨⟨?_, ?_, ?_, ?_⟩, rfl, rfl, rfl⟩
    · simp [slotRegions_disconnect, hslot, hl]
    · simp [slotRegions_disconnect, hslot, hv]
    · simp [slotRegions_disconnect, hslot, hb]
    · simpa [orderly_disconnect] using ho

theorem mapLFB_inv (c : Consts) (s : Device) (h : MappingInv s) (hn : s.m_lfb_mmio = none) :
    MappingInv (mapLFB c s) ∧ (mapLFB c s).m_vga_mmio = s.m_vga_mmio
      ∧ (mapLFB c s).m_bios_mmio = s.m_bios_mmio
      ∧ ((mapLFB c s).m_lfb_mmio.isSome = (IsLFBEnabled c s && s.base.pciMemoryActive)) := by
  obtain ⟨hl, hv, hb, ho⟩ := h
  rw [hn] at hl
  unfold mapLFB
  split_ifs with hc
  · refine ⟨⟨?_, ?_, ?_, ?_⟩, rfl, rfl, by simp [hc]⟩
    · simp [slotRegions_connect, MMIO.slot, hl]
    · simp [slotRegions_connect, MMIO.slot, hv]
    · simp [slotRegions_connect, MMIO.slot, hb]
    · simp [orderly_connect, MMIO.slot, hl, ho]
  · refine ⟨⟨by simpa [hn] using hl, hv, hb, ho⟩, rfl, rfl, ?_⟩
    simp only [hn, Option.isSome_none]
    simpa using hc

theorem mapVGA_inv (c : Consts) (s : Device) (h : MappingInv s) (hn : s.m_vga_mmio = none) :
    MappingInv (mapVGA c s) ∧ (mapVGA c s).m_vga_mmio = some (vgaWindow c s)
      ∧ (mapVGA c s).m_bios_mmio = s.m_bios_mmio ∧ (mapVGA c s).m_lfb_mmio = s.m_lfb_mmio := by
  obtain ⟨hl, hv, hb, ho⟩ := h
  rw [hn] at hv
  have hslot : (vgaWindow c s).slot = .vga := by
    unfold vgaWindow; split_ifs <;> rfl
  unfold mapVGA
  refine ⟨⟨?_, ?_, ?_, ?_⟩, rfl, rfl, rfl⟩
  · simp [slotRegions_connect, hslot, hl]
  · simp [slotRegions_connect, hslot, hv]
  · simp [slotRegions_connect, hslot, hb]
  · simp [orderly_connect, hslot, hv, ho]

theorem vgaWindow_congr (c : Consts) (s t : Device) (hv : s.vbe = t.vbe) (hb : s.base = t.base) :
    vgaWindow c s = vgaWindow c t := by
  unfold vgaWindow; rw [hv, hb]

theorem UpdateVGAMemoryMapping_inv (c : Consts) (s : Device) (h : MappingInv s) :
    MappingInv (UpdateVGAMemoryMapping c s)
      ∧ (UpdateVGAMemoryMapping c s).m_vga_mmio = some (vgaWindow c s)
      ∧ (UpdateVGAMemoryMapping c s).m_bios_mmio = s.m_bios_mmio
      ∧ ((UpdateVGAMemoryMapping c s).m_lfb_mmio.isSome
          = (IsLFBEnabled c s && s.base.pciMemoryActive)) := by
  obtain ⟨h1, hn1, hv1, hb1⟩ := releaseLFB_inv s h
  obtain ⟨h2, hn2, hl2, hb2⟩ := releaseVGA_inv _ h1
  obtain ⟨h3, hv3, hb3, hl3⟩ := mapLFB_inv c _ h2 (by rw [hl2, hn1])
  obtain ⟨h4, hv4, hb4, hl4⟩ := mapVGA_inv c _ h3 (by rw [hv3, hn2])
  unfold UpdateVGAMemoryMapping
  refine ⟨h4, ?_, ?_, ?_⟩
  · rw [hv4]
    congr 1
    apply vgaWindow_congr <;> simp
  · rw [hb4, hb3, hb2, hb1]
  · rw [hl4, hl3]
    simp [IsLFBEnabled]

theorem UpdateBIOSMemoryMapping_inv (s : Device) (h : MappingInv s) :
    MappingInv (UpdateBIOSMemoryMapping s) := by
  obtain ⟨⟨hl, hv, hb, ho⟩, hn, hl1, hv1⟩ := releaseBIOS_inv s h
  rw [hn] at hb
  unfold UpdateBIOSMemoryMapping
  simp only []
  split_ifs
  · refine ⟨?_, ?_, ?_, ?_⟩
    · simp [slotRegions_connect, MMIO.slot, hl]
    · simp [slotRegions_connect, MMIO.slot, hv]
    · simp [slotRegions_connect, MMIO.slot, hb]
    · simp [orderly_connect, MMIO.slot, hb, ho]
  · exact ⟨hl, hv, by simpa [hn] using hb, ho⟩

theorem sameMaps_refl (s : Device) : sameMaps s s := ⟨rfl, rfl, rfl, rfl⟩

theorem UpdateFramebufferFormat_sameMaps (c : Consts) (B : BaseOps) (s : Device) :
    sameMaps (UpdateFramebufferFormat c B s) s := by
  simp [sameMaps]

theorem vgaWindow_UpdateFramebufferFormat (c : Consts) (B : BaseOps) (s : Device) :
    vgaWindow c (UpdateFramebufferFormat c B s) = vgaWindow c s :=
  vgaWindow_congr c _ _ (by simp) (by simp)

theorem vgaWindow_UpdateVGAMemoryMapping (c : Consts) (s : Device) :
    vgaWindow c (UpdateVGAMemoryMapping c s) = vgaWindow c s :=
  vgaWindow_congr c _ _ (by simp) (by simp)

/-- A write to ENABLE either leaves the mappings and the expected window alone, or
ends with the mappings produced by `UpdateVGAMemoryMapping` for a window that is
still the expected one. -/
theorem writeEnable_maps (c : Consts) (B : BaseOps) (s : Device) (v : Nat) :
    (sameMaps (writeEnable c B s v) s ∧ vgaWindow c (writeEnable c B s v) = vgaWindow c s
      ∧ (writeEnable c B s v).vbe.enable c = s.vbe.enable c)
    ∨ (∃ s1, sameMaps s1 s ∧ sameMaps (writeEnable c B s v) (UpdateVGAMemoryMapping c s1)
        ∧ vgaWindow c (writeEnable c B s v) = vgaWindow c s1
        ∧ (writeEnable c B s v).vbe.enable c ≠ s.vbe.enable c) := by
  by_cases hchg : v.testBit c.bit_enable = s.vbe.enable c
  · left
    unfold writeEnable
    simp only [VBERegs.enable] at hchg
    simp only [VBERegs.enable, hchg, bne_self_eq_false, Bool.false_eq_true, if_false]
    split_ifs <;> simp [sameMaps, vgaWindow, VBERegs.enable, hchg]
  · right
    refine ⟨{ s with vbe := { s.vbe with m_vbe_enable := v },
                     base := B.CRTCTimingChanged { s.vbe with m_vbe_enable := v } s.base },
      ⟨rfl, rfl, rfl, rfl⟩, ?_⟩
    unfold writeEnable
    have hne : (v.testBit c.bit_enable != s.vbe.enable c) = true := by
      simpa using hchg
    simp only [VBERegs.enable] at hne hchg
    simp only [VBERegs.enable, hne, if_true]
    split_ifs <;>
      simp [sameMaps, vgaWindow, VBERegs.enable, hchg]

@[simp] theorem releaseBIOS_vbe (s : Device) : (releaseBIOS s).vbe = s.vbe := by
  unfold releaseBIOS; cases s.m_bios_mmio <;> rfl

@[simp] theorem UpdateBIOSMemoryMapping_vbe (s : Device) :
    (UpdateBIOSMemoryMapping s).vbe = s.vbe := by
  unfold UpdateBIOSMemoryMapping; simp only []; split_ifs <;> simp

@[simp] theorem releaseBIOS_vga (s : Device) : (releaseBIOS s).m_vga_mmio = s.m_vga_mmio := by
  unfold releaseBIOS; cases s.m_bios_mmio <;> rfl

@[simp] theorem UpdateBIOSMemoryMapping_vga (s : Device) :
    (UpdateBIOSMemoryMapping s).m_vga_mmio = s.m_vga_mmio := by
  unfold UpdateBIOSMemoryMapping; simp only []; split_ifs <;> simp

theorem WindowOK_congr (c : Consts) (s t : Device) (hv : s.m_vga_mmio = t.m_vga_mmio)
    (hr : s.vbe = t.vbe) (ht : WindowOK c t) : WindowOK c s := by
  obtain ⟨base, size, h1, h2⟩ := ht
  refine ⟨base, size, ?_, ?_⟩
  · rw [hv, h1]; unfold expectedHandlers; rw [hr]
  · rw [hr]; exact h2

theorem vgaWindow_eq (c : Consts) (s : Device) :
    ∃ base size, vgaWindow c s = .complex base size (expectedHandlers c s) false
      ∧ (s.vbe.enable c = true →
          base = c.VBE_DISPI_BANK_ADDRESS ∧ size = c.VBE_DISPI_BANK_SIZE) := by
  unfold vgaWindow expectedHandlers
  split_ifs with h1 h2
  · exact ⟨_, _, rfl, fun _ => ⟨rfl, rfl⟩⟩
  · exact ⟨_, _, rfl, fun _ => ⟨rfl, rfl⟩⟩
  · exact ⟨_, _, rfl, fun h => absurd h h1⟩

theorem WindowOK_of_vgaWindow (c : Consts) (s t : Device)
    (h : s.m_vga_mmio = some (vgaWindow c t)) (hw : vgaWindow c s = vgaWindow c t) :
    WindowOK c s := by
  obtain ⟨base, size, he, hen⟩ := vgaWindow_eq c s
  exact ⟨base, size, by rw [h, ← hw, he], hen⟩

theorem expectedHandlers_of_vgaWindow (c : Consts) (s t : Device)
    (hw : vgaWindow c s = vgaWindow c t) :
    expectedHandlers c s = expectedHandlers c t ∧ s.vbe.enable c = t.vbe.enable c := by
  obtain ⟨b1, z1, h1, -⟩ := vgaWindow_eq c s
  obtain ⟨b2, z2, h2, -⟩ := vgaWindow_eq c t
  rw [h1, h2] at hw
  have hE : expectedHandlers c s = expectedHandlers c t := by
    injection hw
  refine ⟨hE, ?_⟩
  unfold expectedHandlers at hE
  cases hs : s.vbe.enable c <;> cases ht : t.vbe.enable c <;> simp [hs, ht] at hE ⊢
  · split_ifs at hE
  · split_ifs at hE

theorem WindowOK_of_same (c : Consts) (s t : Device) (ht : WindowOK c t)
    (hv : s.m_vga_mmio = t.m_vga_mmio) (hw : vgaWindow c s = vgaWindow c t) :
    WindowOK c s := by
  obtain ⟨hE, hen⟩ := expectedHandlers_of_vgaWindow c s t hw
  obtain ⟨base, size, hm, hb⟩ := ht
  exact ⟨base, size, by rw [hv, hm, hE], fun h => hb (by rw [← hen]; exact h)⟩

theorem DeviceInv_update (c : Consts) (B : BaseOps) (s : Device) (h : MappingInv s) :
    DeviceInv c (UpdateFramebufferFormat c B (UpdateVGAMemoryMapping c s)) := by
  obtain ⟨hi, hv, -, -⟩ := UpdateVGAMemoryMapping_inv c s h
  refine ⟨MappingInv_of_sameMaps (UpdateFramebufferFormat_sameMaps c B _) hi, ?_⟩
  apply WindowOK_of_vgaWindow c _ s
  · simpa using hv
  · rw [vgaWindow_UpdateFramebufferFormat, vgaWindow_UpdateVGAMemoryMapping]

theorem DeviceInv_update' (c : Consts) (s : Device) (h : MappingInv s) :
    DeviceInv c (UpdateVGAMemoryMapping c s) := by
  obtain ⟨hi, hv, -, -⟩ := UpdateVGAMemoryMapping_inv c s h
  exact ⟨hi, WindowOK_of_vgaWindow c _ s hv (vgaWindow_UpdateVGAMemoryMapping c s)⟩

/-- A data-port write either leaves the mappings and the expected window alone or
ends with the mappings of `UpdateVGAMemoryMapping` for the expected window. -/
theorem IOWriteVBEDataRegister_maps (c : Consts) (B : BaseOps) (s : Device) (v : Nat) :
    (sameMaps (IOWriteVBEDataRegister c B s v) s
      ∧ vgaWindow c (IOWriteVBEDataRegister c B s v) = vgaWindow c s)
    ∨ (∃ s1, sameMaps s1 s
        ∧ sameMaps (IOWriteVBEDataRegister c B s v) (UpdateVGAMemoryMapping c s1)
        ∧ vgaWindow c (IOWriteVBEDataRegister c B s v) = vgaWindow c s1) := by
  unfold IOWriteVBEDataRegister
  cases decodeIndex c s.vbe.m_vbe_index_register with
  | none => exact Or.inl ⟨sameMaps_refl s, rfl⟩
  | some i =>
    cases i
    case ENABLE =>
      rcases writeEnable_maps c B s v with ⟨h1, h2, -⟩ | ⟨s1, h1, h2, h3, -⟩
      · exact Or.inl ⟨h1, h2⟩
      · exact Or.inr ⟨s1, h1, h2, h3⟩
    case BPP =>
      simp only []
      split_ifs with h1 h2
      · exact Or.inl ⟨sameMaps_refl s, rfl⟩
      · right
        refine ⟨{ s with vbe := { s.vbe with m_vbe_bpp := v } }, ⟨rfl, rfl, rfl, rfl⟩, ?_, ?_⟩
        · exact UpdateFramebufferFormat_sameMaps c B _
        · rw [vgaWindow_UpdateFramebufferFormat, vgaWindow_UpdateVGAMemoryMapping]
      · left
        refine ⟨⟨rfl, rfl, rfl, rfl⟩, ?_⟩
        simp only [VBERegs.enable] at h2
        simp [vgaWindow, VBERegs.enable, h2]
    case ID =>
      simp only []
      split
      · exact Or.inl ⟨sameMaps_refl s, rfl⟩
      · exact Or.inl ⟨⟨rfl, rfl, rfl, rfl⟩, rfl⟩
    case BANK =>
      simp only []
      split
      · exact Or.inl ⟨sameMaps_refl s, rfl⟩
      · exact Or.inl ⟨⟨rfl, rfl, rfl, rfl⟩, rfl⟩
    all_goals exact Or.inl ⟨sameMaps_refl s, rfl⟩

theorem IOWriteVBEDataRegister_DeviceInv (c : Consts) (B : BaseOps) (s : Device) (v : Nat)
    (h : DeviceInv c s) : DeviceInv c (IOWriteVBEDataRegister c B s v) := by
  obtain ⟨hm, hw⟩ := h
  rcases IOWriteVBEDataRegister_maps c B s v with ⟨h1, h2⟩ | ⟨s1, h1, h2, h3⟩
  · exact ⟨MappingInv_of_sameMaps h1 hm, WindowOK_of_same c _ s hw h1.2.2.1 h2⟩
  · have hm1 : MappingInv s1 := MappingInv_of_sameMaps h1 hm
    obtain ⟨hi, hv, -, -⟩ := UpdateVGAMemoryMapping_inv c s1 hm1
    exact ⟨MappingInv_of_sameMaps h2 hi,
      WindowOK_of_vgaWindow c _ s1 (by rw [h2.2.2.1, hv]) h3⟩

theorem Reset_DeviceInv (c : Consts) (B : BaseOps) (s : Device) (h : MappingInv s) :
    DeviceInv c (Reset c B s) := by
  unfold Reset
  exact DeviceInv_update c B _ (MappingInv_of_sameMaps ⟨rfl, rfl, rfl, rfl⟩ h)

theorem LoadState_MappingInv (c : Consts) (B : BaseOps) (s : Device) (reader : BinaryReader)
    (h : MappingInv s) :
    MappingInv (LoadState c B s reader).2.1
    ∧ ((LoadState c B s reader).1 = true → WindowOK c (LoadState c B s reader).2.1) := by
  unfold LoadState
  simp only []
  split_ifs
  · exact ⟨MappingInv_of_sameMaps ⟨rfl, rfl, rfl, rfl⟩ h, fun h => by simp at h⟩
  · exact ⟨MappingInv_of_sameMaps ⟨rfl, rfl, rfl, rfl⟩ h, fun h => by simp at h⟩
  · exact ⟨MappingInv_of_sameMaps ⟨rfl, rfl, rfl, rfl⟩ h, fun h => by simp at h⟩
  · exact ⟨MappingInv_of_sameMaps ⟨rfl, rfl, rfl, rfl⟩ h, fun h => by simp at h⟩
  · have := DeviceInv_update c B _
      (MappingInv_of_sameMaps (s := { s with
          base := B.CRTCTimingChanged
            (readVBERegs (B.PCILoadState (B.BaseLoadState reader s.base).2.1
              (B.BaseLoadState reader s.base).2.2).2.1.ReadUInt32.2 s.vbe).1
            (B.PCILoadState (B.BaseLoadState reader s.base).2.1
              (B.BaseLoadState reader s.base).2.2).2.2,
          vbe := (readVBERegs (B.PCILoadState (B.BaseLoadState reader s.base).2.1
              (B.BaseLoadState reader s.base).2.2).2.1.ReadUInt32.2 s.vbe).1 })
        ⟨rfl, rfl, rfl, rfl⟩ h)
    exact ⟨this.1, fun _ => this.2⟩

theorem OnMemoryRegionChanged_DeviceInv (c : Consts) (B : BaseOps) (s : Device)
    (function : Nat) (region : MemoryRegion) (active : Bool) (h : DeviceInv c s) :
    DeviceInv c (OnMemoryRegionChanged c B s function region active) := by
  obtain ⟨hm, hw⟩ := h
  have hm1 : MappingInv { s with base := B.OnMemoryRegionChanged function region active s.base } :=
    MappingInv_of_sameMaps ⟨rfl, rfl, rfl, rfl⟩ hm
  have hw1 : WindowOK c { s with base := B.OnMemoryRegionChanged function region active s.base } := by
    obtain ⟨base, size, h1, h2⟩ := hw
    exact ⟨base, size, h1, h2⟩
  unfold OnMemoryRegionChanged
  simp only []
  cases region with
  | BAR0 =>
    simp only []
    split_ifs
    · exact ⟨hm1, hw1⟩
    · exact DeviceInv_update' c _ hm1
    · exact ⟨hm1, hw1⟩
  | ExpansionROM =>
    simp only []
    split_ifs
    · exact ⟨hm1, hw1⟩
    · exact ⟨UpdateBIOSMemoryMapping_inv _ hm1,
        WindowOK_congr c _ _ (by simp) (by simp) hw1⟩
  | other n =>
    simp only []
    split_ifs
    · exact ⟨hm1, hw1⟩
    · exact ⟨hm1, hw1⟩

theorem Initialize_DeviceInv (c : Consts) (B : BaseOps) (s : Device) (file : Option Nat)
    (hl : s.m_lfb_mmio = none) (hv : s.m_vga_mmio = none) (hb : s.m_bios_mmio = none)
    (hbus : s.bus = []) (hok : (Initialize c B s file).1 = true) :
    DeviceInv c (Initialize c B s file).2 := by
  have hm : MappingInv s := by
    unfold MappingInv
    rw [hl, hv, hb, hbus]
    exact ⟨rfl, rfl, rfl, rfl⟩
  unfold Initialize at hok ⊢
  rcases hB : B.Initialize s.base with ⟨ok, b⟩
  simp only [hB] at hok ⊢
  cases ok
  · simp at hok
  cases file with
  | none => simp [LoadBIOSROM] at hok
  | some size =>
    by_cases hs : size > c.BIOS_ROM_SIZE
    · simp [LoadBIOSROM, hs] at hok
    · simp only [LoadBIOSROM, hs, if_false, Bool.not_true, Bool.false_eq_true]
      exact DeviceInv_update' c _
        (UpdateBIOSMemoryMapping_inv _ (MappingInv_of_sameMaps ⟨rfl, rfl, rfl, rfl⟩ hm))

theorem portWrite_DeviceInv (c : Consts) (B : BaseOps) (s : Device) (w : PortWrite)
    (h : DeviceInv c s) : DeviceInv c (portWrite c B s w) := by
  cases w with
  | index v =>
    exact ⟨MappingInv_of_sameMaps ⟨rfl, rfl, rfl, rfl⟩ h.1,
      WindowOK_of_same c _ s h.2 rfl rfl⟩
  | data v => exact IOWriteVBEDataRegister_DeviceInv c B s v h

theorem Reachable_DeviceInv (c : Consts) (B : BaseOps) (s : Device) (h : Reachable c B s) :
    DeviceInv c s := by
  induction h with
  | init s file hl hv hb hbus hok => exact Initialize_DeviceInv c B s file hl hv hb hbus hok
  | reset s _ ih => exact Reset_DeviceInv c B s ih.1
  | load s reader _ hok ih =>
    exact ⟨(LoadState_MappingInv c B s reader ih.1).1, (LoadState_MappingInv c B s reader ih.1).2 hok⟩
  | loadFailedThenReset s reader _ ih =>
    exact Reset_DeviceInv c B _ (LoadState_MappingInv c B s reader ih.1).1
  | write s w _ ih => exact portWrite_DeviceInv c B s w ih
  | regionChanged s f r a _ ih => exact OnMemoryRegionChanged_DeviceInv c B s f r a ih

/-- C7: in every state reached from a fresh device by `Initialize` and then any
sequence of `Reset`, `LoadState`, port writes and `OnMemoryRegionChanged`, the bus
holds exactly one VGA/bank-window region, at most one framebuffer region and at
most one BIOS region of the device, and no `ConnectMMIO` was ever issued for a
slot whose previous region was still connected. -/
theorem single_bank_window_region (c : Consts) (B : BaseOps) (s : Device)
    (h : Reachable c B s) :
    (Bus.slotRegions s.bus .vga).length = 1
    ∧ (Bus.slotRegions s.bus .lfb).length ≤ 1
    ∧ (Bus.slotRegions s.bus .bios).length ≤ 1
    ∧ Bus.orderly s.bus = true := by
  obtain ⟨⟨hl, hv, hb, ho⟩, base, size, hw, -⟩ := Reachable_DeviceInv c B s h
  rw [hl, hv, hb, hw]
  refine ⟨rfl, ?_, ?_, ho⟩
  · cases s.m_lfb_mmio <;> simp
  · cases s.m_bios_mmio <;> simp

theorem sampleDevice_Reachable : Reachable bochsConsts idleBase sampleDevice :=
  Reachable.reset _ (Reachable.init freshDevice (some 32768) rfl rfl rfl rfl rfl)

theorem planarDevice_Reachable : Reachable bochsConsts idleBase planarDevice :=
  Reachable.write _ (.index 3) (Reachable.write _ (.data 1) (Reachable.write _ (.index 4)
    (Reachable.write _ (.data 4) (Reachable.write _ (.index 3) sampleDevice_Reachable))))

/-- Witness for C7: switching from enabled 4-bpp planar mode to depth 8 leaves one
bank-window region. -/
theorem single_bank_window_region_witness :
    (Bus.slotRegions (IOWriteVBEDataRegister bochsConsts idleBase planarDevice 8).bus .vga).length
      = 1 :=
  (single_bank_window_region bochsConsts idleBase _
    (Reachable.write planarDevice (.data 8) planarDevice_Reachable)).1

/-- C9: after a data-port write in any reachable state the region held in
`m_vga_mmio` is the one connected bank-window region and it agrees with the
registers: with the enable bit set it is a complex region at
`VBE_DISPI_BANK_ADDRESS` of size `VBE_DISPI_BANK_SIZE` with the byte-only planar
handlers when `bpp ≤ 4` and the byte/word/dword linear handlers when `bpp > 4`;
with the enable bit clear it carries the byte-only legacy VGA handlers. -/
theorem bank_window_tracks_depth (c : Consts) (B : BaseOps) (s : Device)
    (h : Reachable c B s) (v : Nat) :
    ∃ base size handlers,
      (IOWriteVBEDataRegister c B s v).m_vga_mmio = some (.complex base size handlers false)
      ∧ Bus.slotRegions (IOWriteVBEDataRegister c B s v).bus .vga
          = [.complex base size handlers false]
      ∧ ((IOWriteVBEDataRegister c B s v).vbe.enable c = true →
          base = c.VBE_DISPI_BANK_ADDRESS ∧ size = c.VBE_DISPI_BANK_SIZE
          ∧ ((IOWriteVBEDataRegister c B s v).vbe.m_vbe_bpp ≤ 4 →
              handlers = .vbePlanar ∧ handlers.hasByte = true ∧ handlers.hasWord = false
                ∧ handlers.hasDword = false)
          ∧ ((IOWriteVBEDataRegister c B s v).vbe.m_vbe_bpp > 4 →
              handlers = .vbeLinear ∧ handlers.hasByte = true ∧ handlers.hasWord = true
                ∧ handlers.hasDword = true))
      ∧ ((IOWriteVBEDataRegister c B s v).vbe.enable c = false →
          handlers = .legacyVGA ∧ handlers.hasByte = true ∧ handlers.hasWord = false
            ∧ handlers.hasDword = false) := by
  obtain ⟨⟨-, hv, -, -⟩, base, size, hw, hen⟩ :=
    IOWriteVBEDataRegister_DeviceInv c B s v (Reachable_DeviceInv c B s h)
  refine ⟨base, size, _, hw, by rw [hv, hw]; rfl, fun he => ?_, fun he => ?_⟩
  · obtain ⟨h1, h2⟩ := hen he
    refine ⟨h1, h2, fun hb => ?_, fun hb => ?_⟩
    · have : expectedHandlers c (IOWriteVBEDataRegister c B s v) = .vbePlanar := by
        simp [expectedHandlers, he, hb]
      rw [this]; exact ⟨rfl, rfl, rfl, rfl⟩
    · have : expectedHandlers c (IOWriteVBEDataRegister c B s v) = .vbeLinear := by
        unfold expectedHandlers
        rw [he, if_pos rfl, if_neg (by omega)]
      rw [this]; exact ⟨rfl, rfl, rfl, rfl⟩
  · have : expectedHandlers c (IOWriteVBEDataRegister c B s v) = .legacyVGA := by
      simp [expectedHandlers, he]
    rw [this]; exact ⟨rfl, rfl, rfl, rfl⟩

/-- Witness for C9: a BPP write crossing from 4 to 8 while VBE is enabled. -/
theorem bank_window_tracks_depth_witness :
    ∃ base size handlers,
      (IOWriteVBEDataRegister bochsConsts idleBase planarDevice 8).m_vga_mmio
        = some (.complex base size handlers false)
      ∧ handlers = .vbeLinear :=
  let ⟨base, size, handlers, h1, _, h3, _⟩ :=
    bank_window_tracks_depth bochsConsts idleBase planarDevice planarDevice_Reachable 8
  ⟨base, size, handlers, h1, ((h3 (by decide)).2.2.2 (by decide)).1⟩

/-- C11, the code at the failing input: after `Reset` the ENABLE, BANK and ID
registers of the sample device read 0, 0 and `0xB0C5`, those of the device the
guest had programmed read 1, 3 and `0xB0C4`. -/
theorem reset_keeps_enable_bank_id :
    IOReadVBEDataRegister bochsConsts
        (IOWriteVBEIndexRegister (Reset bochsConsts idleBase sampleDevice) 4) = 0
    ∧ IOReadVBEDataRegister bochsConsts
        (IOWriteVBEIndexRegister (Reset bochsConsts idleBase guestDevice) 4) = 1
    ∧ IOReadVBEDataRegister bochsConsts
        (IOWriteVBEIndexRegister (Reset bochsConsts idleBase sampleDevice) 5) = 0
    ∧ IOReadVBEDataRegister bochsConsts
        (IOWriteVBEIndexRegister (Reset bochsConsts idleBase guestDevice) 5) = 3
    ∧ IOReadVBEDataRegister bochsConsts
        (IOWriteVBEIndexRegister (Reset bochsConsts idleBase sampleDevice) 0) = 0xB0C5
    ∧ IOReadVBEDataRegister bochsConsts
        (IOWriteVBEIndexRegister (Reset bochsConsts idleBase guestDevice) 0) = 0xB0C4 := by
  decide

/-- C17, the code at the failing input: `LoadState` returns true on a stream whose
depth field is 0 and whose bank field is `0xFFFF`; the loaded depth is not valid,
the loaded bank lies outside VRAM, and `LatchStartAddress` divides by the zero
depth. -/
theorem LoadState_accepts_invalid_registers :
    (LoadState bochsConsts idleBase sampleDevice invalidSnapshot).1 = true
    ∧ (LoadState bochsConsts idleBase sampleDevice invalidSnapshot).2.1.vbe.m_vbe_bpp = 0
    ∧ IsValidBPP (LoadState bochsConsts idleBase sampleDevice invalidSnapshot).2.1.vbe.m_vbe_bpp
        = false
    ∧ (LoadState bochsConsts idleBase sampleDevice invalidSnapshot).2.1.vbe.m_vbe_bank = 0xFFFF
    ∧ ¬ BankValid bochsConsts (LoadState bochsConsts idleBase sampleDevice invalidSnapshot).2.1
    ∧ (LatchStartAddress bochsConsts idleBase
        (LoadState bochsConsts idleBase sampleDevice invalidSnapshot).2.1).isSome = false := by
  decide

theorem decodeIndex_none (c : Consts) (i : Nat) (h : i ∉ c.indexLabels) :
    decodeIndex c i = none := by
  simp only [Consts.indexLabels, List.mem_cons, List.mem_singleton, not_or,
    List.not_mem_nil, or_false] at h
  obtain ⟨h0, h1, h2, h3, h4, h5, h6, h7, h8, h9, h10, h11⟩ := h
  simp [decodeIndex, *]

/-- C18: `IOReadVBEDataRegister` is a function of the state alone and follows the
table: ID gives the id register; XRES, YRES and BPP give the maxima when the
`read_capabilities` bit is set and the stored register otherwise; ENABLE gives
the enable word; BANK, VIRT_WIDTH, VIRT_HEIGHT, X_OFFSET and Y_OFFSET give the
stored register; VIDEO_MEMORY_64K gives `m_vram_size / 65536`; DDC gives `0x000F`;
any other index gives `0xFFFF`.  The three maxima are sixteen-bit constants and
`m_vram_size` is a `u32`. -/
theorem IOReadVBEDataRegister_table (c : Consts) (hc : c.WF)
    (hmax : c.VBE_DISPI_MAX_XRES < 65536 ∧ c.VBE_DISPI_MAX_YRES < 65536
      ∧ c.VBE_DISPI_MAX_BPP < 65536)
    (s : Device) (hsz : s.m_vram_size < 2 ^ 32) :
    (s.vbe.m_vbe_index_register = c.VBE_DISPI_INDEX_ID →
        IOReadVBEDataRegister c s = s.vbe.m_vbe_id)
    ∧ (s.vbe.m_vbe_index_register = c.VBE_DISPI_INDEX_XRES →
        IOReadVBEDataRegister c s
          = if s.vbe.read_capabilities c then c.VBE_DISPI_MAX_XRES else s.vbe.m_vbe_width)
    ∧ (s.vbe.m_vbe_index_register = c.VBE_DISPI_INDEX_YRES →
        IOReadVBEDataRegister c s
          = if s.vbe.read_capabilities c then c.VBE_DISPI_MAX_YRES else s.vbe.m_vbe_height)
    ∧ (s.vbe.m_vbe_index_register = c.VBE_DISPI_INDEX_BPP →
        IOReadVBEDataRegister c s
          = if s.vbe.read_capabilities c then c.VBE_DISPI_MAX_BPP else s.vbe.m_vbe_bpp)
    ∧ (s.vbe.m_vbe_index_register = c.VBE_DISPI_INDEX_ENABLE →
        IOReadVBEDataRegister c s = s.vbe.m_vbe_enable)
    ∧ (s.vbe.m_vbe_index_register = c.VBE_DISPI_INDEX_BANK →
        IOReadVBEDataRegister c s = s.vbe.m_vbe_bank)
    ∧ (s.vbe.m_vbe_index_register = c.VBE_DISPI_INDEX_VIRT_WIDTH →
        IOReadVBEDataRegister c s = s.vbe.m_vbe_virt_width)
    ∧ (s.vbe.m_vbe_index_register = c.VBE_DISPI_INDEX_VIRT_HEIGHT →
        IOReadVBEDataRegister c s = s.vbe.m_vbe_virt_height)
    ∧ (s.vbe.m_vbe_index_register = c.VBE_DISPI_INDEX_X_OFFSET →
        IOReadVBEDataRegister c s = s.vbe.m_vbe_offset_x)
    ∧ (s.vbe.m_vbe_index_register = c.VBE_DISPI_INDEX_Y_OFFSET →
        IOReadVBEDataRegister c s = s.vbe.m_vbe_offset_y)
    ∧ (s.vbe.m_vbe_index_register = c.VBE_DISPI_INDEX_VIDEO_MEMORY_64K →
        IOReadVBEDataRegister c s = s.m_vram_size / 65536)
    ∧ (s.vbe.m_vbe_index_register = c.VBE_DISPI_INDEX_DDC →
        IOReadVBEDataRegister c s = 0x000F)
    ∧ (s.vbe.m_vbe_index_register ∉ c.indexLabels →
        IOReadVBEDataRegister c s = 0xFFFF) := by
  obtain ⟨h0, h1, h2, h3, h4, h5, h6, h7, h8, h9, h10, h11⟩ := decodeIndex_labels c hc
  refine ⟨?_, ?_, ?_, ?_, ?_, ?_, ?_, ?_, ?_, ?_, ?_, ?_, ?_⟩
  all_goals intro hi
  case refine_11 =>
    unfold IOReadVBEDataRegister
    rw [hi, h10]
    exact Nat.mod_eq_of_lt (by omega)
  case refine_13 =>
    unfold IOReadVBEDataRegister
    rw [decodeIndex_none c _ hi]
  all_goals
    unfold IOReadVBEDataRegister
    rw [hi]
    simp only [h0, h1, h2, h3, h4, h5, h6, h7, h8, h9, h11, Nat.mod_eq_of_lt hmax.1,
      Nat.mod_eq_of_lt hmax.2.1, Nat.mod_eq_of_lt hmax.2.2]

/-- Witness for C18: the sample device reports 256 blocks of 64 KiB. -/
theorem IOReadVBEDataRegister_table_witness :
    IOReadVBEDataRegister bochsConsts (IOWriteVBEIndexRegister sampleDevice 10) = 256 := by
  have h := (IOReadVBEDataRegister_table bochsConsts bochsConsts_WF (by decide)
    (IOWriteVBEIndexRegister sampleDevice 10) (by decide)).2.2.2.2.2.2.2.2.2.2.1 rfl
  rw [h]
  decide

/-- C19: a data-port write with index XRES, YRES, VIRT_WIDTH, VIRT_HEIGHT, X_OFFSET
or Y_OFFSET yields the same device with exactly the selected register set to the
value written; with index VIDEO_MEMORY_64K, DDC or an index that is no case label
it yields the same device. -/
theorem plain_register_writes_frame (c : Consts) (B : BaseOps) (hc : c.WF) (s : Device)
    (v : Nat) :
    (s.vbe.m_vbe_index_register = c.VBE_DISPI_INDEX_XRES →
        IOWriteVBEDataRegister c B s v = { s with vbe := { s.vbe with m_vbe_width := v } })
    ∧ (s.vbe.m_vbe_index_register = c.VBE_DISPI_INDEX_YRES →
        IOWriteVBEDataRegister c B s v = { s with vbe := { s.vbe with m_vbe_height := v } })
    ∧ (s.vbe.m_vbe_index_register = c.VBE_DISPI_INDEX_VIRT_WIDTH →
        IOWriteVBEDataRegister c B s v
          = { s with vbe := { s.vbe with m_vbe_virt_width := v } })
    ∧ (s.vbe.m_vbe_index_register = c.VBE_DISPI_INDEX_VIRT_HEIGHT →
        IOWriteVBEDataRegister c B s v
          = { s with vbe := { s.vbe with m_vbe_virt_height := v } })
    ∧ (s.vbe.m_vbe_index_register = c.VBE_DISPI_INDEX_X_OFFSET →
        IOWriteVBEDataRegister c B s v = { s with vbe := { s.vbe with m_vbe_offset_x := v } })
    ∧ (s.vbe.m_vbe_index_register = c.VBE_DISPI_INDEX_Y_OFFSET →
        IOWriteVBEDataRegister c B s v = { s with vbe := { s.vbe with m_vbe_offset_y := v } })
    ∧ (s.vbe.m_vbe_index_register = c.VBE_DISPI_INDEX_VIDEO_MEMORY_64K →
        IOWriteVBEDataRegister c B s v = s)
    ∧ (s.vbe.m_vbe_index_register = c.VBE_DISPI_INDEX_DDC →
        IOWriteVBEDataRegister c B s v = s)
    ∧ (s.vbe.m_vbe_index_register ∉ c.indexLabels →
        IOWriteVBEDataRegister c B s v = s) := by
  obtain ⟨h0, h1, h2, h3, h4, h5, h6, h7, h8, h9, h10, h11⟩ := decodeIndex_labels c hc
  refine ⟨?_, ?_, ?_, ?_, ?_, ?_, ?_, ?_, ?_⟩
  all_goals intro hi
  case refine_9 =>
    unfold IOWriteVBEDataRegister
    rw [decodeIndex_none c _ hi]
  all_goals
    unfold IOWriteVBEDataRegister
    rw [hi]
    simp only [h0, h1, h2, h3, h4, h5, h6, h7, h8, h9, h10, h11]

/-- Witness for C19: writing 1024 to VIRT_WIDTH on the sample device. -/
theorem plain_register_writes_frame_witness :
    IOWriteVBEDataRegister bochsConsts idleBase (IOWriteVBEIndexRegister sampleDevice 6) 1024
      = { IOWriteVBEIndexRegister sampleDevice 6 with
          vbe := { (IOWriteVBEIndexRegister sampleDevice 6).vbe with m_vbe_virt_width := 1024 } } :=
  (plain_register_writes_frame bochsConsts idleBase bochsConsts_WF
    (IOWriteVBEIndexRegister sampleDevice 6) 1024).2.2.1 rfl

theorem guestDevice_Reachable : Reachable bochsConsts idleBase guestDevice :=
  Reachable.write _ (.data 0xB0C4) (Reachable.write _ (.index 0) (Reachable.write _ (.data 3)
    (Reachable.write _ (.index 5) (Reachable.write _ (.data 1) (Reachable.write _ (.index 4)
      sampleDevice_Reachable)))))

theorem Reset_vbe (c : Consts) (B : BaseOps) (s : Device) :
    (Reset c B s).vbe = { s.vbe with
      m_vbe_index_register := 0, m_vbe_width := 640, m_vbe_height := 480, m_vbe_bpp := 32,
      m_vbe_offset_x := 0, m_vbe_offset_y := 0, m_vbe_virt_width := 0,
      m_vbe_virt_height := 0 } := by
  simp [Reset]

theorem currentFormat_congr (c : Consts) (B : BaseOps) (s t : Device) (h : s.vbe = t.vbe) :
    currentFormat c B s = currentFormat c B t := by
  unfold currentFormat UpdateFramebufferFormat
  rw [h]
  split_ifs <;> rfl

theorem UpdateFramebufferFormat_format (c : Consts) (B : BaseOps) (s : Device) :
    (UpdateFramebufferFormat c B s).framebufferFormat
      = currentFormat c B (UpdateFramebufferFormat c B s) := by
  rw [currentFormat_congr c B (UpdateFramebufferFormat c B s) s
    (UpdateFramebufferFormat_vbe c B s)]
  rfl

/-- C20: after `Reset` the index register is 0, width 640, height 480, depth 32,
both offsets and both virtual sizes 0, and the enable, bank and id registers are
untouched; `m_vga_mmio` holds the window built from the resulting registers (the
linear bank window when VBE is enabled, the legacy VGA window otherwise),
`m_lfb_mmio` holds a framebuffer region exactly when the resulting registers enable
it and PCI memory is active, the display format is `BGRX8` when VBE is enabled and
the base format otherwise, whatever it was before, and from a state that satisfies
the mapping invariant the bus holds exactly these regions. -/
theorem Reset_defaults (c : Consts) (B : BaseOps) (s : Device) :
    (Reset c B s).vbe.m_vbe_index_register = 0
    ∧ (Reset c B s).vbe.m_vbe_width = 640
    ∧ (Reset c B s).vbe.m_vbe_height = 480
    ∧ (Reset c B s).vbe.m_vbe_bpp = 32
    ∧ (Reset c B s).vbe.m_vbe_offset_x = 0
    ∧ (Reset c B s).vbe.m_vbe_offset_y = 0
    ∧ (Reset c B s).vbe.m_vbe_virt_width = 0
    ∧ (Reset c B s).vbe.m_vbe_virt_height = 0
    ∧ (Reset c B s).m_vga_mmio = some (vgaWindow c (Reset c B s))
    ∧ (Reset c B s).m_lfb_mmio
        = (if IsLFBEnabled c (Reset c B s) && (Reset c B s).base.pciMemoryActive then
            some (.direct (Reset c B s).base.bar0Base (Reset c B s).m_vram_size .vram
              true true false)
          else none)
    ∧ (Reset c B s).framebufferFormat
        = (if s.vbe.enable c then FramebufferFormat.BGRX8 else B.BASE_FRAMEBUFFER_FORMAT)
    ∧ (MappingInv s →
        Bus.slotRegions (Reset c B s).bus .vga = [vgaWindow c (Reset c B s)]
        ∧ Bus.slotRegions (Reset c B s).bus .lfb = (Reset c B s).m_lfb_mmio.toList
        ∧ Bus.orderly (Reset c B s).bus = true)
    ∧ (Reset c B s).vbe.m_vbe_enable = s.vbe.m_vbe_enable
    ∧ (Reset c B s).vbe.m_vbe_bank = s.vbe.m_vbe_bank
    ∧ (Reset c B s).vbe.m_vbe_id = s.vbe.m_vbe_id
    ∧ (Reset c B s).framebufferFormat = currentFormat c B (Reset c B s)
    ∧ vgaWindow c (Reset c B s)
        = (if s.vbe.enable c then
            MMIO.complex c.VBE_DISPI_BANK_ADDRESS c.VBE_DISPI_BANK_SIZE .vbeLinear false
          else
            MMIO.complex (Reset c B s).base.vgaMappingStart (Reset c B s).base.vgaMappingSize
              .legacyVGA false) := by
  have hv := Reset_vbe c B s
  refine ⟨by rw [hv], by rw [hv], by rw [hv], by rw [hv], by rw [hv], by rw [hv], by rw [hv],
    by rw [hv], ?_, ?_, ?_, ?_, by rw [hv], by rw [hv], by rw [hv], ?_, ?_⟩
  · unfold Reset
    simp only [UpdateFramebufferFormat_vga]
    rw [vgaWindow_UpdateFramebufferFormat, vgaWindow_UpdateVGAMemoryMapping]
    simp [UpdateVGAMemoryMapping, mapVGA]
    apply vgaWindow_congr <;> simp
  · unfold Reset
    simp only [UpdateFramebufferFormat_lfb, UpdateFramebufferFormat_base,
      UpdateFramebufferFormat_vram_size, UpdateVGAMemoryMapping_base,
      UpdateVGAMemoryMapping_vram_size, IsLFBEnabled, UpdateFramebufferFormat_vbe,
      UpdateVGAMemoryMapping_vbe]
    simp only [UpdateVGAMemoryMapping, mapVGA, mapLFB, IsLFBEnabled, releaseVGA_vbe,
      releaseLFB_vbe, releaseVGA_base, releaseLFB_base, releaseVGA_vram_size,
      releaseLFB_vram_size]
    split_ifs
    · rfl
    · simp only [releaseVGA, releaseLFB]
      cases s.m_lfb_mmio <;> cases s.m_vga_mmio <;> rfl
  · unfold Reset UpdateFramebufferFormat
    simp only [UpdateVGAMemoryMapping_vbe]
    cases h : s.vbe.enable c <;> simp [VBERegs.enable] at h ⊢ <;> simp [h]
  · intro hm
    obtain ⟨⟨hl, hvga, -, ho⟩, -⟩ := Reset_DeviceInv c B s hm
    refine ⟨?_, hl, ho⟩
    rw [hvga]
    have : (Reset c B s).m_vga_mmio = some (vgaWindow c (Reset c B s)) := by
      unfold Reset
      simp only [UpdateFramebufferFormat_vga]
      rw [vgaWindow_UpdateFramebufferFormat, vgaWindow_UpdateVGAMemoryMapping]
      simp [UpdateVGAMemoryMapping, mapVGA]
      apply vgaWindow_congr <;> simp
    rw [this]
    rfl
  · unfold Reset
    exact UpdateFramebufferFormat_format c B _
  · unfold vgaWindow
    rw [hv]
    cases h : s.vbe.enable c <;> simp [VBERegs.enable] at h ⊢ <;> simp [h]

/-- Witness for C20: a reset of the guest's device keeps VBE enabled with depth 32
and the bus holds the one bank window; a reset of a device showing 16-bpp
`BGR565` ends with `BGRX8`. -/
theorem Reset_defaults_witness :
    (Reset bochsConsts idleBase guestDevice).vbe.m_vbe_bpp = 32
    ∧ Bus.slotRegions (Reset bochsConsts idleBase guestDevice).bus .vga
        = [vgaWindow bochsConsts (Reset bochsConsts idleBase guestDevice)]
    ∧ (runPortWrites bochsConsts idleBase sampleDevice
        [.index 3, .data 16, .index 4, .data 1]).framebufferFormat = FramebufferFormat.BGR565
    ∧ (Reset bochsConsts idleBase (runPortWrites bochsConsts idleBase sampleDevice
        [.index 3, .data 16, .index 4, .data 1])).framebufferFormat = FramebufferFormat.BGRX8 :=
  ⟨(Reset_defaults bochsConsts idleBase guestDevice).2.2.2.1,
   ((Reset_defaults bochsConsts idleBase guestDevice).2.2.2.2.2.2.2.2.2.2.2.1
      (Reachable_DeviceInv bochsConsts idleBase guestDevice guestDevice_Reachable).1).1,
   by decide,
   (Reset_defaults bochsConsts idleBase (runPortWrites bochsConsts idleBase sampleDevice
        [.index 3, .data 16, .index 4, .data 1])).2.2.2.2.2.2.2.2.2.2.1.trans (by decide)⟩

theorem IOWriteVBEDataRegister_validBPP (c : Consts) (B : BaseOps) (s : Device) (v : Nat)
    (h : IsValidBPP s.vbe.m_vbe_bpp = true) :
    IsValidBPP (IOWriteVBEDataRegister c B s v).vbe.m_vbe_bpp = true := by
  rw [IOWriteVBEDataRegister_vbe]
  split
  case h_4 => split_ifs with hv <;> simp [hv, h]
  case h_5 => rw [writeEnable_vbe]; split_ifs <;> exact h
  all_goals first
    | (split_ifs <;> exact h)
    | exact h

theorem runPortWrites_validBPP (c : Consts) (B : BaseOps) (ws : List PortWrite) (s : Device)
    (h : IsValidBPP s.vbe.m_vbe_bpp = true) :
    IsValidBPP (runPortWrites c B s ws).vbe.m_vbe_bpp = true := by
  induction ws generalizing s with
  | nil => exact h
  | cons w ws ih =>
    simp only [runPortWrites, List.foldl_cons]
    apply ih
    cases w with
    | index v => exact h
    | data v => exact IOWriteVBEDataRegister_validBPP c B s v h

theorem LatchStartAddress_isSome (c : Consts) (B : BaseOps) (s : Device)
    (h : s.vbe.m_vbe_bpp ≠ 0) : (LatchStartAddress c B s).isSome = true := by
  unfold LatchStartAddress
  split_ifs <;> simp_all

/-- C16: `Reset` sets the depth to 32, which is valid; every data-port write
preserves validity of the depth; hence after `Reset` and any sequence of port
writes the depth is valid, it is below 8 only when it is 4, it is not zero, and
`LatchStartAddress` completes without dividing by zero. -/
theorem depth_validity_invariant (c : Consts) (B : BaseOps) (s : Device)
    (ws : List PortWrite) :
    (Reset c B s).vbe.m_vbe_bpp = 32
    ∧ IsValidBPP (Reset c B s).vbe.m_vbe_bpp = true
    ∧ (∀ (t : Device) (v : Nat), IsValidBPP t.vbe.m_vbe_bpp = true →
        IsValidBPP (IOWriteVBEDataRegister c B t v).vbe.m_vbe_bpp = true)
    ∧ IsValidBPP (runPortWrites c B (Reset c B s) ws).vbe.m_vbe_bpp = true
    ∧ ((runPortWrites c B (Reset c B s) ws).vbe.m_vbe_bpp < 8 →
        (runPortWrites c B (Reset c B s) ws).vbe.m_vbe_bpp = 4)
    ∧ (runPortWrites c B (Reset c B s) ws).vbe.m_vbe_bpp ≠ 0
    ∧ (LatchStartAddress c B (runPortWrites c B (Reset c B s) ws)).isSome = true := by
  have h32 : (Reset c B s).vbe.m_vbe_bpp = 32 := by simp [Reset]
  have hR : IsValidBPP (Reset c B s).vbe.m_vbe_bpp = true := by rw [h32]; rfl
  have hrun := runPortWrites_validBPP c B ws _ hR
  have hcases := (IsValidBPP_iff _).1 hrun
  refine ⟨h32, hR, fun t v ht => IOWriteVBEDataRegister_validBPP c B t v ht, hrun,
    fun hlt => by omega, by omega, LatchStartAddress_isSome c B _ (by omega)⟩

/-- Witness for C16: the guest tries depth 0, then selects depth 4 and enables VBE. -/
theorem depth_validity_invariant_witness :
    (LatchStartAddress bochsConsts idleBase
      (runPortWrites bochsConsts idleBase (Reset bochsConsts idleBase sampleDevice)
        [.index 3, .data 0, .data 4, .index 4, .data 1])).isSome = true :=
  (depth_validity_invariant bochsConsts idleBase sampleDevice
    [.index 3, .data 0, .data 4, .index 4, .data 1]).2.2.2.2.2.2

theorem memzero_all_zero (buf : List Nat) (n : Nat) (h : buf.length ≤ n) :
    (memzero buf n).length = buf.length ∧ ∀ b ∈ memzero buf n, b = 0 := by
  unfold memzero
  rw [List.drop_of_length_le h, List.append_nil, Nat.min_eq_right h]
  exact ⟨List.length_replicate _ _, fun b hb => List.eq_of_mem_replicate hb⟩

theorem writeEnable_vram (c : Consts) (B : BaseOps)
    (hcrtc : ∀ r b, (B.CRTCTimingChanged r b).m_vram = b.m_vram) (s : Device) (value : Nat) :
    (writeEnable c B s value).base.m_vram =
      if value.testBit c.bit_enable = true ∧ s.vbe.enable c = false
          ∧ value.testBit c.bit_no_clear_mem = false then
        memzero s.base.m_vram s.m_vram_size
      else s.base.m_vram := by
  unfold writeEnable
  cases hv : value.testBit c.bit_enable <;> cases hs : s.vbe.enable c <;>
    cases hn : value.testBit c.bit_no_clear_mem <;>
    simp [VBERegs.enable, VBERegs.dac_8bit, VBERegs.no_clear_mem, hv, hn] <;>
    (repeat' split) <;> simp_all [VBERegs.enable]

/-- C15: for a device whose VRAM has `m_vram_size` bytes (and a `CRTCTimingChanged`
that leaves VRAM alone), a write to ENABLE that turns the enable bit from clear to
set makes `virt_width = width`, `virt_height = height`, both offsets 0, and every
VRAM byte zero when the written `no_clear_mem` bit is clear, VRAM unchanged when it
is set; a write that leaves the enable bit as it was leaves the virtual size, the
offsets and VRAM unchanged. -/
theorem enable_write_effect (c : Consts) (B : BaseOps) (hc : c.WF)
    (hcrtc : ∀ r b, (B.CRTCTimingChanged r b).m_vram = b.m_vram)
    (s : Device) (v : Nat)
    (hi : s.vbe.m_vbe_index_register = c.VBE_DISPI_INDEX_ENABLE)
    (hlen : s.base.m_vram.length = s.m_vram_size) :
    (s.vbe.enable c = false → v.testBit c.bit_enable = true →
      (IOWriteVBEDataRegister c B s v).vbe.m_vbe_virt_width = s.vbe.m_vbe_width
      ∧ (IOWriteVBEDataRegister c B s v).vbe.m_vbe_virt_height = s.vbe.m_vbe_height
      ∧ (IOWriteVBEDataRegister c B s v).vbe.m_vbe_width = s.vbe.m_vbe_width
      ∧ (IOWriteVBEDataRegister c B s v).vbe.m_vbe_height = s.vbe.m_vbe_height
      ∧ (IOWriteVBEDataRegister c B s v).vbe.m_vbe_offset_x = 0
      ∧ (IOWriteVBEDataRegister c B s v).vbe.m_vbe_offset_y = 0
      ∧ (v.testBit c.bit_no_clear_mem = false →
          (IOWriteVBEDataRegister c B s v).base.m_vram.length = s.base.m_vram.length
          ∧ ∀ b ∈ (IOWriteVBEDataRegister c B s v).base.m_vram, b = 0)
      ∧ (v.testBit c.bit_no_clear_mem = true →
          (IOWriteVBEDataRegister c B s v).base.m_vram = s.base.m_vram))
    ∧ (v.testBit c.bit_enable = s.vbe.enable c →
      (IOWriteVBEDataRegister c B s v).vbe.m_vbe_virt_width = s.vbe.m_vbe_virt_width
      ∧ (IOWriteVBEDataRegister c B s v).vbe.m_vbe_virt_height = s.vbe.m_vbe_virt_height
      ∧ (IOWriteVBEDataRegister c B s v).vbe.m_vbe_offset_x = s.vbe.m_vbe_offset_x
      ∧ (IOWriteVBEDataRegister c B s v).vbe.m_vbe_offset_y = s.vbe.m_vbe_offset_y
      ∧ (IOWriteVBEDataRegister c B s v).base.m_vram = s.base.m_vram) := by
  have hE := (decodeIndex_labels c hc).2.2.2.2.1
  have hw : IOWriteVBEDataRegister c B s v = writeEnable c B s v := by
    unfold IOWriteVBEDataRegister
    rw [hi, hE]
  rw [hw, writeEnable_vbe, writeEnable_vram c B hcrtc]
  refine ⟨fun hold hnew => ?_, fun hsame => ?_⟩
  · rw [if_pos ⟨hnew, hold⟩]
    refine ⟨rfl, rfl, rfl, rfl, rfl, rfl, fun hn => ?_, fun hn => ?_⟩
    · rw [if_pos ⟨hnew, hold, hn⟩]
      exact memzero_all_zero _ _ (by omega)
    · rw [if_neg (by simp [hn])]
  · have h1 : ¬ (v.testBit c.bit_enable = true ∧ s.vbe.enable c = false) := by
      rw [hsame]; cases s.vbe.enable c <;> simp
    have h2 : ¬ (v.testBit c.bit_enable = true ∧ s.vbe.enable c = false
        ∧ v.testBit c.bit_no_clear_mem = false) := fun h => h1 ⟨h.1, h.2.1⟩
    rw [if_neg h1, if_neg h2]
    exact ⟨rfl, rfl, rfl, rfl, rfl⟩

theorem sampleDevice_vram_length :
    sampleDevice.base.m_vram.length = sampleDevice.m_vram_size := by
  have h : sampleDevice.base = sampleBase := rfl
  have h2 : sampleDevice.m_vram_size = 16 * 1024 * 1024 := rfl
  rw [h, h2]
  exact List.length_replicate _ _

/-- Witness for C15: enabling VBE on the sample device with `no_clear_mem` clear. -/
theorem enable_write_effect_witness :
    (IOWriteVBEDataRegister bochsConsts idleBase (IOWriteVBEIndexRegister sampleDevice 4)
        1).vbe.m_vbe_virt_width = (IOWriteVBEIndexRegister sampleDevice 4).vbe.m_vbe_width
    ∧ ∀ b ∈ (IOWriteVBEDataRegister bochsConsts idleBase
        (IOWriteVBEIndexRegister sampleDevice 4) 1).base.m_vram, b = 0 :=
  have h := (enable_write_effect bochsConsts idleBase bochsConsts_WF (fun _ _ => rfl)
    (IOWriteVBEIndexRegister sampleDevice 4) 1 rfl sampleDevice_vram_length).1
    (by decide) (by decide)
  ⟨h.1, (h.2.2.2.2.2.2.1 (by decide)).2⟩

/-- On the six valid depths, and whenever VBE is disabled, the comparisons of
`UpdateFramebufferFormat` select the table's entry. -/
theorem specFramebufferFormat_currentFormat (c : Consts) (B : BaseOps) (s : Device)
    (h : s.vbe.enable c = false ∨ IsValidBPP s.vbe.m_vbe_bpp = true) :
    specFramebufferFormat B (s.vbe.enable c) s.vbe.m_vbe_bpp = some (currentFormat c B s) := by
  unfold specFramebufferFormat currentFormat UpdateFramebufferFormat
  cases he : s.vbe.enable c
  · simp
  · rcases h with h | h
    · rw [he] at h; cases h
    · rcases (IsValidBPP_iff _).1 h with h | h | h | h | h | h <;> simp [h]

theorem FormatMatches_update (c : Consts) (B : BaseOps) (s : Device)
    (h : s.vbe.enable c = false ∨ IsValidBPP s.vbe.m_vbe_bpp = true) :
    FormatMatches c B (UpdateFramebufferFormat c B s) := by
  unfold FormatMatches
  rw [UpdateFramebufferFormat_format]
  apply specFramebufferFormat_currentFormat
  simpa using h

theorem Reset_FormatMatches (c : Consts) (B : BaseOps) (s : Device) :
    FormatMatches c B (Reset c B s) := by
  unfold Reset
  exact FormatMatches_update c B _ (Or.inr (by simp; rfl))

theorem writeBytes_getElem? (buf : List Nat) (i w v : Nat) (h : i + w ≤ buf.length) :
    ∃ r, writeBytes buf i w v = some r ∧ r.length = buf.length
      ∧ ∀ j, r[j]? = if i ≤ j ∧ j < i + w then some (v / 256 ^ (j - i) % 256) else buf[j]? := by
  unfold writeBytes
  rw [if_pos h]
  refine ⟨_, rfl, ?_, fun j => ?_⟩
  · simp
    omega
  · have hi : (List.take i buf).length = i := by simp; omega
    have hm : ((List.range w).map (fun k => v / 256 ^ k % 256)).length = w := by simp
    by_cases h1 : j < i
    · rw [if_neg (by omega), List.append_assoc, List.getElem?_append_left (by omega)]
      rw [List.getElem?_take_of_lt h1]
    · by_cases h2 : j < i + w
      · rw [if_pos ⟨by omega, h2⟩, List.append_assoc, List.getElem?_append_right (by omega),
          List.getElem?_append_left (by rw [hi, hm]; omega), hi]
        simp [List.getElem?_range, show j - i < w by omega]
      · rw [if_neg (by omega), List.getElem?_append_right (by simp; omega)]
        simp only [List.length_append, hi, hm, List.getElem?_drop]
        congr 1
        omega

theorem readBytes_getElem? (buf : List Nat) (i w : Nat) (h : i + w ≤ buf.length) :
    ∃ l, readBytes buf i w = some l ∧ l.length = w ∧ ∀ k, k < w → l[k]? = buf[i + k]? := by
  unfold readBytes
  rw [if_pos h]
  refine ⟨_, rfl, ?_, fun k hk => ?_⟩
  · simp
    omega
  · rw [List.getElem?_take_of_lt hk, List.getElem?_drop]

/-- Reading one byte of a buffer. -/
theorem readBytes_one (buf : List Nat) (j b : Nat) (h : buf[j]? = some b) :
    (readBytes buf j 1).map leValue = some (b % 256) := by
  have hj : j < buf.length := by
    by_contra hc
    rw [List.getElem?_eq_none (by omega)] at h
    cases h
  obtain ⟨l, hl, hlen, hk⟩ := readBytes_getElem? buf j 1 (by omega)
  have h0 := hk 0 (by omega)
  rw [Nat.add_zero, h] at h0
  rcases l with _ | ⟨a, _ | ⟨a', l⟩⟩
  · simp at hlen
  · simp at h0
    rw [hl, h0]
    simp [leValue]
  · simp at hlen

/-- Reading two bytes of a buffer. -/
theorem readBytes_two (buf : List Nat) (j b0 b1 : Nat) (h0 : buf[j]? = some b0)
    (h1 : buf[j + 1]? = some b1) :
    (readBytes buf j 2).map leValue = some (b0 % 256 + 256 * (b1 % 256)) := by
  have hj : j + 1 < buf.length := by
    by_contra hc
    rw [List.getElem?_eq_none (by omega)] at h1
    cases h1
  obtain ⟨l, hl, hlen, hk⟩ := readBytes_getElem? buf j 2 (by omega)
  have e0 := hk 0 (by omega)
  have e1 := hk 1 (by omega)
  rw [Nat.add_zero, h0] at e0
  rw [h1] at e1
  rcases l with _ | ⟨a, _ | ⟨a', _ | ⟨a'', l⟩⟩⟩
  · simp at hlen
  · simp at hlen
  · simp at e0 e1
    rw [hl, e0, e1]
    simp [leValue]
  · simp at hlen

/-- Reading four bytes of a buffer. -/
theorem readBytes_four (buf : List Nat) (j b0 b1 b2 b3 : Nat) (h0 : buf[j]? = some b0)
    (h1 : buf[j + 1]? = some b1) (h2 : buf[j + 2]? = some b2) (h3 : buf[j + 3]? = some b3) :
    (readBytes buf j 4).map leValue
      = some (b0 % 256 + 256 * (b1 % 256) + 65536 * (b2 % 256) + 16777216 * (b3 % 256)) := by
  have hj : j + 3 < buf.length := by
    by_contra hc
    rw [List.getElem?_eq_none (by omega)] at h3
    cases h3
  obtain ⟨l, hl, hlen, hk⟩ := readBytes_getElem? buf j 4 (by omega)
  have e0 := hk 0 (by omega)
  have e1 := hk 1 (by omega)
  have e2 := hk 2 (by omega)
  have e3 := hk 3 (by omega)
  rw [Nat.add_zero, h0] at e0
  rw [h1] at e1
  rw [h2] at e2
  rw [h3] at e3
  rcases l with _ | ⟨a0, _ | ⟨a1, _ | ⟨a2, _ | ⟨a3, _ | ⟨a4, l⟩⟩⟩⟩⟩
  · simp at hlen
  · simp at hlen
  · simp at hlen
  · simp at hlen
  · simp at e0 e1 e2 e3
    rw [hl, e0, e1, e2, e3]
    simp [leValue]
    omega
  · simp at hlen

theorem linearIndex_eq (c : Consts) (s : Device) (offset w : Nat) (hb : BankValid c s)
    (hsz : s.m_vram_size < 2 ^ 32) (ho : offset + w ≤ c.VBE_DISPI_BANK_SIZE) :
    linearIndex c s offset = s.vbe.m_vbe_bank * c.VBE_DISPI_BANK_SIZE + offset
    ∧ s.vbe.m_vbe_bank * c.VBE_DISPI_BANK_SIZE + offset + w ≤ s.m_vram_size := by
  unfold BankValid at hb
  rw [Nat.add_mul, Nat.one_mul] at hb
  refine ⟨?_, by omega⟩
  unfold linearIndex
  rw [Nat.mod_eq_of_lt (by omega), Nat.mod_eq_of_lt (by omega)]

/-- A linear write inside the bank succeeds and changes nothing but the bytes it
addresses. -/
theorem linearWrite_spec (c : Consts) (s : Device) (offset w v : Nat) (hb : BankValid c s)
    (hsz : s.m_vram_size < 2 ^ 32) (hlen : s.base.m_vram.length = s.m_vram_size)
    (ho : offset + w ≤ c.VBE_DISPI_BANK_SIZE) :
    ∃ r, linearWrite c s offset w v = some { s with base := { s.base with m_vram := r } }
      ∧ r.length = s.base.m_vram.length
      ∧ ∀ j, r[j]? =
          if s.vbe.m_vbe_bank * c.VBE_DISPI_BANK_SIZE + offset ≤ j
              ∧ j < s.vbe.m_vbe_bank * c.VBE_DISPI_BANK_SIZE + offset + w then
            some (v / 256 ^ (j - (s.vbe.m_vbe_bank * c.VBE_DISPI_BANK_SIZE + offset)) % 256)
          else s.base.m_vram[j]? := by
  obtain ⟨hidx, hle⟩ := linearIndex_eq c s offset w hb hsz ho
  obtain ⟨r, hr, hrl, hrj⟩ := writeBytes_getElem? s.base.m_vram
    (s.vbe.m_vbe_bank * c.VBE_DISPI_BANK_SIZE + offset) w v (by omega)
  refine ⟨r, ?_, hrl, hrj⟩
  unfold linearWrite
  rw [hidx, hr]
  rfl

/-- The device after a linear write: same registers and sizes, new VRAM. -/
theorem written_device_valid (c : Consts) (s : Device) (r : List Nat) (hb : BankValid c s)
    (hlen : s.base.m_vram.length = s.m_vram_size) (hr : r.length = s.base.m_vram.length) :
    BankValid c { s with base := { s.base with m_vram := r } }
    ∧ ({ s with base := { s.base with m_vram := r } } : Device).base.m_vram.length
        = ({ s with base := { s.base with m_vram := r } } : Device).m_vram_size :=
  ⟨hb, by simp only []; rw [hr, hlen]⟩

theorem linearRead_byte (c : Consts) (s : Device) (offset b : Nat) (hb : BankValid c s)
    (hsz : s.m_vram_size < 2 ^ 32) (ho : offset + 1 ≤ c.VBE_DISPI_BANK_SIZE)
    (h : s.base.m_vram[s.vbe.m_vbe_bank * c.VBE_DISPI_BANK_SIZE + offset]? = some b) :
    linearRead c s offset 1 = some (b % 256) := by
  unfold linearRead
  rw [(linearIndex_eq c s offset 1 hb hsz ho).1]
  exact readBytes_one _ _ _ h

theorem linearRead_word (c : Consts) (s : Device) (offset b0 b1 : Nat) (hb : BankValid c s)
    (hsz : s.m_vram_size < 2 ^ 32) (ho : offset + 2 ≤ c.VBE_DISPI_BANK_SIZE)
    (h0 : s.base.m_vram[s.vbe.m_vbe_bank * c.VBE_DISPI_BANK_SIZE + offset]? = some b0)
    (h1 : s.base.m_vram[s.vbe.m_vbe_bank * c.VBE_DISPI_BANK_SIZE + offset + 1]? = some b1) :
    linearRead c s offset 2 = some (b0 % 256 + 256 * (b1 % 256)) := by
  unfold linearRead
  rw [(linearIndex_eq c s offset 2 hb hsz ho).1]
  exact readBytes_two _ _ _ _ h0 h1

theorem linearRead_dword (c : Consts) (s : Device) (offset b0 b1 b2 b3 : Nat)
    (hb : BankValid c s) (hsz : s.m_vram_size < 2 ^ 32)
    (ho : offset + 4 ≤ c.VBE_DISPI_BANK_SIZE)
    (h0 : s.base.m_vram[s.vbe.m_vbe_bank * c.VBE_DISPI_BANK_SIZE + offset]? = some b0)
    (h1 : s.base.m_vram[s.vbe.m_vbe_bank * c.VBE_DISPI_BANK_SIZE + offset + 1]? = some b1)
    (h2 : s.base.m_vram[s.vbe.m_vbe_bank * c.VBE_DISPI_BANK_SIZE + offset + 2]? = some b2)
    (h3 : s.base.m_vram[s.vbe.m_vbe_bank * c.VBE_DISPI_BANK_SIZE + offset + 3]? = some b3) :
    linearRead c s offset 4
      = some (b0 % 256 + 256 * (b1 % 256) + 65536 * (b2 % 256) + 16777216 * (b3 % 256)) := by
  unfold linearRead
  rw [(linearIndex_eq c s offset 4 hb hsz ho).1]
  exact readBytes_four _ _ _ _ _ _ h0 h1 h2 h3

theorem written_bytes (c : Consts) (s : Device) (offset w v : Nat) (r : List Nat)
    (hrj : ∀ j, r[j]? =
      if s.vbe.m_vbe_bank * c.VBE_DISPI_BANK_SIZE + offset ≤ j
          ∧ j < s.vbe.m_vbe_bank * c.VBE_DISPI_BANK_SIZE + offset + w then
        some (v / 256 ^ (j - (s.vbe.m_vbe_bank * c.VBE_DISPI_BANK_SIZE + offset)) % 256)
      else s.base.m_vram[j]?) (k : Nat) (hk : k < w) :
    r[s.vbe.m_vbe_bank * c.VBE_DISPI_BANK_SIZE + offset + k]? = some (v / 256 ^ k % 256) := by
  rw [hrj, if_pos ⟨by omega, by omega⟩, Nat.add_sub_cancel_left]

/-- A dword written through the linear window reads back as the same dword and,
byte by byte, as its bytes from least to most significant. -/
theorem dword_write_then_read (c : Consts) (s : Device) (offset v : Nat) (hb : BankValid c s)
    (hsz : s.m_vram_size < 2 ^ 32) (hlen : s.base.m_vram.length = s.m_vram_size)
    (ho : offset + 4 ≤ c.VBE_DISPI_BANK_SIZE) (hv : v < 2 ^ 32) :
    ∃ s', linearWrite c s offset 4 v = some s'
      ∧ linearRead c s' offset 4 = some v
      ∧ ∀ k, k < 4 → linearRead c s' (offset + k) 1 = some (v / 256 ^ k % 256) := by
  obtain ⟨r, hw, hrl, hrj⟩ := linearWrite_spec c s offset 4 v hb hsz hlen ho
  obtain ⟨hb', hlen'⟩ := written_device_valid c s r hb hlen hrl
  have hk := written_bytes c s offset 4 v r hrj
  refine ⟨_, hw, ?_, fun k hk4 => ?_⟩
  · have h := linearRead_dword c _ offset _ _ _ _ hb' hsz ho
      (by simpa using hk 0 (by omega)) (hk 1 (by omega)) (hk 2 (by omega)) (hk 3 (by omega))
    rw [h]
    congr 1
    norm_num
    omega
  · have h := linearRead_byte c _ (offset + k) _ hb' hsz (by omega)
      (by rw [← Nat.add_assoc]; exact hk k hk4)
    rw [h, Nat.mod_mod]

/-- A word written through the linear window reads back as the same word and, byte
by byte, as its two bytes. -/
theorem word_write_then_read (c : Consts) (s : Device) (offset v : Nat) (hb : BankValid c s)
    (hsz : s.m_vram_size < 2 ^ 32) (hlen : s.base.m_vram.length = s.m_vram_size)
    (ho : offset + 2 ≤ c.VBE_DISPI_BANK_SIZE) (hv : v < 2 ^ 16) :
    ∃ s', linearWrite c s offset 2 v = some s'
      ∧ linearRead c s' offset 2 = some v
      ∧ ∀ k, k < 2 → linearRead c s' (offset + k) 1 = some (v / 256 ^ k % 256) := by
  obtain ⟨r, hw, hrl, hrj⟩ := linearWrite_spec c s offset 2 v hb hsz hlen ho
  obtain ⟨hb', hlen'⟩ := written_device_valid c s r hb hlen hrl
  have hk := written_bytes c s offset 2 v r hrj
  refine ⟨_, hw, ?_, fun k hk2 => ?_⟩
  · have h := linearRead_word c _ offset _ _ hb' hsz ho
      (by simpa using hk 0 (by omega)) (hk 1 (by omega))
    rw [h]
    congr 1
    norm_num
    omega
  · have h := linearRead_byte c _ (offset + k) _ hb' hsz (by omega)
      (by rw [← Nat.add_assoc]; exact hk k hk2)
    rw [h, Nat.mod_mod]

/-- A byte written through the linear window followed by a word read at the same
offset: the low byte is the byte written, the high byte is the old neighbour. -/
theorem byte_write_then_word_read (c : Consts) (s : Device) (offset b : Nat)
    (hb : BankValid c s) (hsz : s.m_vram_size < 2 ^ 32)
    (hlen : s.base.m_vram.length = s.m_vram_size)
    (ho : offset + 2 ≤ c.VBE_DISPI_BANK_SIZE) (hzero : ∀ x ∈ s.base.m_vram, x = 0) :
    ∃ s', linearWrite c s offset 1 b = some s' ∧ linearRead c s' offset 2 = some (b % 256) := by
  obtain ⟨r, hw, hrl, hrj⟩ := linearWrite_spec c s offset 1 b hb hsz hlen (by omega)
  obtain ⟨hb', hlen'⟩ := written_device_valid c s r hb hlen hrl
  have hk := written_bytes c s offset 1 b r hrj
  obtain ⟨-, hle⟩ := linearIndex_eq c s offset 2 hb hsz ho
  have hnext : r[s.vbe.m_vbe_bank * c.VBE_DISPI_BANK_SIZE + offset + 1]? = some 0 := by
    rw [hrj, if_neg (by omega)]
    have hlt : s.vbe.m_vbe_bank * c.VBE_DISPI_BANK_SIZE + offset + 1 < s.base.m_vram.length := by
      omega
    rw [List.getElem?_eq_getElem hlt]
    congr 1
    exact hzero _ (List.getElem_mem _)
  refine ⟨_, hw, ?_⟩
  have h := linearRead_word c _ offset _ _ hb' hsz ho (by simpa using hk 0 (by omega)) hnext
  rw [h]
  congr 1
  norm_num

/-- A dword write through the linear window leaves the device as four byte writes
at ascending offsets with the bytes of the value, least significant first. -/
theorem dword_write_eq_byte_writes (c : Consts) (s : Device) (offset v : Nat)
    (hb : BankValid c s) (hsz : s.m_vram_size < 2 ^ 32)
    (hlen : s.base.m_vram.length = s.m_vram_size)
    (ho : offset + 4 ≤ c.VBE_DISPI_BANK_SIZE) :
    linearWrite c s offset 4 v =
      (linearWrite c s offset 1 (v % 256)).bind fun s1 =>
      (linearWrite c s1 (offset + 1) 1 (v / 256 % 256)).bind fun s2 =>
      (linearWrite c s2 (offset + 2) 1 (v / 65536 % 256)).bind fun s3 =>
      linearWrite c s3 (offset + 3) 1 (v / 16777216 % 256) := by
  obtain ⟨R, hW, hRl, hR⟩ := linearWrite_spec c s offset 4 v hb hsz hlen ho
  obtain ⟨r1, hw1, hl1, h1⟩ := linearWrite_spec c s offset 1 (v % 256) hb hsz hlen (by omega)
  obtain ⟨hb1, hlen1⟩ := written_device_valid c s r1 hb hlen hl1
  obtain ⟨r2, hw2, hl2, h2⟩ := linearWrite_spec c _ (offset + 1) 1 (v / 256 % 256) hb1 hsz
    hlen1 (by omega)
  obtain ⟨hb2, hlen2⟩ := written_device_valid c _ r2 hb1 hlen1 hl2
  obtain ⟨r3, hw3, hl3, h3⟩ := linearWrite_spec c _ (offset + 2) 1 (v / 65536 % 256) hb2 hsz
    hlen2 (by omega)
  obtain ⟨hb3, hlen3⟩ := written_device_valid c _ r3 hb2 hlen2 hl3
  obtain ⟨r4, hw4, hl4, h4⟩ := linearWrite_spec c _ (offset + 3) 1 (v / 16777216 % 256) hb3 hsz
    hlen3 (by omega)
  rw [hW, hw1, Option.some_bind, hw2, Option.some_bind, hw3, Option.some_bind, hw4]
  have hEq : R = r4 := by
    apply List.ext_getElem?
    intro j
    rw [hR j, h4 j, h3 j, h2 j, h1 j]
    simp only []
    generalize s.vbe.m_vbe_bank * c.VBE_DISPI_BANK_SIZE = base
    rcases (show j < base + offset ∨ j = base + offset ∨ j = base + offset + 1
        ∨ j = base + offset + 2 ∨ j = base + offset + 3 ∨ base + offset + 4 ≤ j by omega)
      with h | h | h | h | h | h
    · rw [if_neg (by omega), if_neg (by omega), if_neg (by omega), if_neg (by omega),
        if_neg (by omega)]
    · subst h
      rw [if_pos (by omega), if_neg (by omega), if_neg (by omega), if_neg (by omega),
        if_pos (by omega)]
      simp
    · subst h
      rw [if_pos (by omega), if_neg (by omega), if_neg (by omega), if_pos (by omega)]
      rw [show base + offset + 1 - (base + offset) = 1 by omega,
        show base + offset + 1 - (base + (offset + 1)) = 0 by omega]
      simp
    · subst h
      rw [if_pos (by omega), if_neg (by omega), if_pos (by omega)]
      rw [show base + offset + 2 - (base + offset) = 2 by omega,
        show base + offset + 2 - (base + (offset + 2)) = 0 by omega]
      simp
    · subst h
      rw [if_pos (by omega), if_pos (by omega)]
      rw [show base + offset + 3 - (base + offset) = 3 by omega,
        show base + offset + 3 - (base + (offset + 3)) = 0 by omega]
      simp
    · rw [if_neg (by omega), if_neg (by omega), if_neg (by omega), if_neg (by omega),
        if_neg (by omega)]
  rw [hEq]

/-- A word write through the linear window leaves the device as two byte writes. -/
theorem word_write_eq_byte_writes (c : Consts) (s : Device) (offset v : Nat)
    (hb : BankValid c s) (hsz : s.m_vram_size < 2 ^ 32)
    (hlen : s.base.m_vram.length = s.m_vram_size)
    (ho : offset + 2 ≤ c.VBE_DISPI_BANK_SIZE) :
    linearWrite c s offset 2 v =
      (linearWrite c s offset 1 (v % 256)).bind fun s1 =>
      linearWrite c s1 (offset + 1) 1 (v / 256 % 256) := by
  obtain ⟨R, hW, hRl, hR⟩ := linearWrite_spec c s offset 2 v hb hsz hlen ho
  obtain ⟨r1, hw1, hl1, h1⟩ := linearWrite_spec c s offset 1 (v % 256) hb hsz hlen (by omega)
  obtain ⟨hb1, hlen1⟩ := written_device_valid c s r1 hb hlen hl1
  obtain ⟨r2, hw2, hl2, h2⟩ := linearWrite_spec c _ (offset + 1) 1 (v / 256 % 256) hb1 hsz
    hlen1 (by omega)
  rw [hW, hw1, Option.some_bind, hw2]
  have hEq : R = r2 := by
    apply List.ext_getElem?
    intro j
    rw [hR j, h2 j, h1 j]
    simp only []
    generalize s.vbe.m_vbe_bank * c.VBE_DISPI_BANK_SIZE = base
    rcases (show j < base + offset ∨ j = base + offset ∨ j = base + offset + 1
        ∨ base + offset + 2 ≤ j by omega) with h | h | h | h
    · rw [if_neg (by omega), if_neg (by omega), if_neg (by omega)]
    · subst h
      rw [if_pos (by omega), if_neg (by omega), if_pos (by omega)]
      simp
    · subst h
      rw [if_pos (by omega), if_pos (by omega)]
      rw [show base + offset + 1 - (base + offset) = 1 by omega,
        show base + offset + 1 - (base + (offset + 1)) = 0 by omega]
      simp
    · rw [if_neg (by omega), if_neg (by omega), if_neg (by omega)]
  rw [hEq]

theorem linearDevice_vram : linearDevice.base.m_vram = List.replicate (16 * 1024 * 1024) 0 := by
  have h : linearDevice.base = sampleBase := rfl
  rw [h]
  rfl

/-- C12: with VBE enabled at a depth above 4 the bank window carries the linear
handlers; for a valid bank, VRAM of `m_vram_size` bytes, an offset with
`offset + 4` inside the bank and a 32-bit value `v`, `write_dword(offset, v)` leaves
the device as four `write_byte` calls at `offset .. offset + 3` with the bytes of `v`
from least to most significant, a following `read_dword(offset)` returns `v` and
`read_byte(offset + k)` returns byte `k` of `v`; the same holds for word accesses
with two bytes; and on zeroed VRAM a byte written at an offset reads back, as a
word at that offset, as the byte itself. -/
theorem linear_window_width_consistency (c : Consts) (s : Device)
    (he : s.vbe.enable c = true) (hbpp : 4 < s.vbe.m_vbe_bpp) (hb : BankValid c s)
    (hsz : s.m_vram_size < 2 ^ 32) (hlen : s.base.m_vram.length = s.m_vram_size)
    (offset v : Nat) (ho : offset + 4 ≤ c.VBE_DISPI_BANK_SIZE) (hv : v < 2 ^ 32) :
    vgaWindow c s = .complex c.VBE_DISPI_BANK_ADDRESS c.VBE_DISPI_BANK_SIZE .vbeLinear false
    ∧ linearWrite c s offset 4 v =
        ((linearWrite c s offset 1 (v % 256)).bind fun s1 =>
         (linearWrite c s1 (offset + 1) 1 (v / 256 % 256)).bind fun s2 =>
         (linearWrite c s2 (offset + 2) 1 (v / 65536 % 256)).bind fun s3 =>
         linearWrite c s3 (offset + 3) 1 (v / 16777216 % 256))
    ∧ (∃ s', linearWrite c s offset 4 v = some s'
        ∧ linearRead c s' offset 4 = some v
        ∧ ∀ k, k < 4 → linearRead c s' (offset + k) 1 = some (v / 256 ^ k % 256))
    ∧ (∀ o w : Nat, o + 2 ≤ c.VBE_DISPI_BANK_SIZE → w < 2 ^ 16 →
        linearWrite c s o 2 w =
          ((linearWrite c s o 1 (w % 256)).bind fun s1 =>
           linearWrite c s1 (o + 1) 1 (w / 256 % 256))
        ∧ ∃ s', linearWrite c s o 2 w = some s'
          ∧ linearRead c s' o 2 = some w
          ∧ ∀ k, k < 2 → linearRead c s' (o + k) 1 = some (w / 256 ^ k % 256))
    ∧ (∀ o b : Nat, o + 2 ≤ c.VBE_DISPI_BANK_SIZE → b < 256 →
        (∀ x ∈ s.base.m_vram, x = 0) →
        ∃ s', linearWrite c s o 1 b = some s' ∧ linearRead c s' o 2 = some b) := by
  refine ⟨?_, dword_write_eq_byte_writes c s offset v hb hsz hlen ho,
    dword_write_then_read c s offset v hb hsz hlen ho hv,
    fun o w hoo hw => ⟨word_write_eq_byte_writes c s o w hb hsz hlen hoo,
      word_write_then_read c s o w hb hsz hlen hoo hw⟩,
    fun o b hoo hbl hz => ?_⟩
  · unfold vgaWindow
    rw [he, if_pos rfl, if_neg (by omega)]
  · obtain ⟨s', h1, h2⟩ := byte_write_then_word_read c s o b hb hsz hlen hoo hz
    exact ⟨s', h1, by rw [h2, Nat.mod_eq_of_lt hbl]⟩

/-- Witness for C12: the dword `0xDEADBEEF` at offset 0 of bank 0 reads back, and
the byte `0xAA` written at offset 0 of zeroed VRAM reads back as the word `0x00AA`. -/
theorem linear_window_width_consistency_witness :
    (∃ s', linearWrite bochsConsts linearDevice 0 4 0xDEADBEEF = some s'
      ∧ linearRead bochsConsts s' 0 4 = some 0xDEADBEEF)
    ∧ (∃ s', linearWrite bochsConsts linearDevice 0 1 0xAA = some s'
      ∧ linearRead bochsConsts s' 0 2 = some 0x00AA) :=
  have h := linear_window_width_consistency bochsConsts linearDevice (by decide) (by decide)
    (by decide) (by decide)
    (by rw [linearDevice_vram]; exact List.length_replicate _ _)
    0 0xDEADBEEF (by decide) (by decide)
  ⟨let ⟨s', h1, h2, _⟩ := h.2.2.1; ⟨s', h1, h2⟩,
   h.2.2.2.2 0 0xAA (by decide) (by decide)
     (by rw [linearDevice_vram]; exact fun x hx => List.eq_of_mem_replicate hx)⟩

theorem rowSegment_self (pix : Nat → Nat) (p a : Nat) : rowSegment pix p a a = [] := by
  simp [rowSegment]

theorem rowSegment_cons (pix : Nat → Nat) (p a b : Nat) (h : a < b) :
    rowSegment pix p a b = (if p ≤ a then [pix a] else []) ++ rowSegment pix p (a + 1) b := by
  unfold rowSegment
  have : b - a = (b - (a + 1)) + 1 := by omega
  rw [this, List.range'_succ, List.filterMap_cons]
  split_ifs <;> simp

theorem rowSegment_append (pix : Nat → Nat) (p a b d : Nat) (h1 : a ≤ b) (h2 : b ≤ d) :
    rowSegment pix p a b ++ rowSegment pix p b d = rowSegment pix p a d := by
  unfold rowSegment
  rw [← List.filterMap_append]
  congr 1
  have h := List.range'_append a (b - a) (d - b) 1
  simp only [Nat.one_mul] at h
  rw [show a + (b - a) = b by omega] at h
  rw [h]
  congr 1
  omega

theorem rowSegment_full (pix : Nat → Nat) (p w : Nat) :
    rowSegment pix p 0 (w + p) = (List.range w).map fun k => pix (k + p) := by
  rw [← rowSegment_append pix p 0 p (w + p) (by omega) (by omega)]
  have h1 : rowSegment pix p 0 p = [] := by
    unfold rowSegment
    rw [List.filterMap_eq_nil_iff]
    intro x hx
    rw [List.mem_range'_1] at hx
    rw [if_neg (by omega)]
  have h2 : rowSegment pix p p (w + p) = (List.range w).map fun k => pix (k + p) := by
    unfold rowSegment
    rw [show w + p - p = w by omega, List.range'_eq_map_range, List.filterMap_map]
    rw [← List.filterMap_eq_map]
    congr 1
    funext k
    simp [Nat.add_comm]
  rw [h1, h2, List.nil_append]

theorem shifted_top_bit (b i : Nat) (hb : b < 256) (hi : i < 8) :
    (b * 2 ^ i % 256) >>> 7 = b / 2 ^ (7 - i) % 2 := by
  rw [Nat.shiftRight_eq_div_pow]
  interval_cases i <;> norm_num <;> omega

theorem or_of_bits (x0 x1 x2 x3 : Nat) (h0 : x0 < 2) (h1 : x1 < 2) (h2 : x2 < 2)
    (h3 : x3 < 2) :
    (x0 ||| (x1 <<< 1) ||| (x2 <<< 2) ||| (x3 <<< 3)) % 256 = x0 + 2 * x1 + 4 * x2 + 8 * x3 := by
  interval_cases x0 <;> interval_cases x1 <;> interval_cases x2 <;> interval_cases x3 <;> rfl

/-- The byte stored after `i` shifts of the plane bytes of `word` is the pixel the
specification assigns to position `i`. -/
theorem planePixel_shifted (word i : Nat) (hi : i < 8) :
    planePixel (word % 256 * 2 ^ i % 256) (word / 256 % 256 * 2 ^ i % 256)
        (word / 65536 % 256 * 2 ^ i % 256) (word / 16777216 % 256 * 2 ^ i % 256)
      = specPixel word i := by
  unfold planePixel specPixel
  rw [shifted_top_bit _ i (Nat.mod_lt _ (by norm_num)) hi,
    shifted_top_bit _ i (Nat.mod_lt _ (by norm_num)) hi,
    shifted_top_bit _ i (Nat.mod_lt _ (by norm_num)) hi,
    shifted_top_bit _ i (Nat.mod_lt _ (by norm_num)) hi]
  exact or_of_bits _ _ _ _ (Nat.mod_lt _ (by norm_num)) (Nat.mod_lt _ (by norm_num))
    (Nat.mod_lt _ (by norm_num)) (Nat.mod_lt _ (by norm_num))

theorem shift_step (b i : Nat) : b * 2 ^ i % 256 * 2 % 256 = b * 2 ^ (i + 1) % 256 := by
  rw [pow_succ, ← Nat.mul_assoc]
  omega

/-- The inner loop, entered after `i` of its eight iterations at position
`t0 + i` of the row, stores the pixels of the remaining positions of the plane
word and stops at the end of the word or of the row. -/
theorem render4Pixels_spec (w p word t0 : Nat) (pix : Nat → Nat)
    (hpix : ∀ j, j < 8 → pix (t0 + j) = specPixel word j) :
    ∀ (n i : Nat) (out : List Nat), n + i = 8 → t0 + i ≤ min (t0 + 8) (w + p) →
      render4Pixels (w : Int) n (((t0 + i : Nat) : Int) - (p : Int))
          (word % 256 * 2 ^ i % 256) (word / 256 % 256 * 2 ^ i % 256)
          (word / 65536 % 256 * 2 ^ i % 256) (word / 16777216 % 256 * 2 ^ i % 256) out
        = (((min (t0 + 8) (w + p) : Nat) : Int) - (p : Int),
            out ++ rowSegment pix p (t0 + i) (min (t0 + 8) (w + p))) := by
  intro n
  induction n with
  | zero =>
    intro i out hi hle
    have h8 : i = 8 := by omega
    subst h8
    have hE : min (t0 + 8) (w + p) = t0 + 8 := by omega
    rw [hE, rowSegment_self, List.append_nil]
    rfl
  | succ n ih =>
    intro i out hi hle
    have hi8 : i < 8 := by omega
    unfold render4Pixels
    by_cases hlt : t0 + i < w + p
    · have hcol : (((t0 + i : Nat) : Int) - (p : Int)) < (w : Int) := by omega
      have hE : t0 + i < min (t0 + 8) (w + p) := by omega
      rw [if_pos hcol]
      simp only [shift_step]
      have hnext : (((t0 + i : Nat) : Int) - (p : Int)) + 1
          = (((t0 + (i + 1) : Nat) : Int) - (p : Int)) := by push_cast; ring
      rw [hnext, ih (i + 1) _ (by omega) (by omega), rowSegment_cons pix p _ _ hE,
        planePixel_shifted word i hi8, hpix i hi8]
      congr 1
      by_cases hp : p ≤ t0 + i
      · have h0 : (0 : Int) ≤ ((t0 + i : Nat) : Int) - (p : Int) := by omega
        rw [if_pos ⟨h0, hcol⟩, if_pos hp, List.append_assoc]
        rfl
      · have h0 : ¬ ((0 : Int) ≤ ((t0 + i : Nat) : Int) - (p : Int)) := by omega
        rw [if_neg (fun h => h0 h.1), if_neg hp, List.nil_append]
        rfl
    · have hcol : ¬ ((((t0 + i : Nat) : Int) - (p : Int)) < (w : Int)) := by omega
      have hE : min (t0 + 8) (w + p) = t0 + i := by omega
      rw [if_neg hcol, hE, rowSegment_self, List.append_nil]

/-- The column loop, entered at position `t` of the row (the end of the row, or
the start of a plane word with the matching address counter), finishes within the
iterations counted and stores the pixels of the remaining positions. -/
theorem render4Row_spec (readPlanes : Nat → Nat) (w p ac0 : Nat) (pix : Nat → Nat)
    (hpix : ∀ pos, pix pos
      = specPixel (readPlanes ((ac0 + pos / 8) % 2 ^ 32) % 2 ^ 32) (pos % 8)) :
    ∀ (fuel t ac : Nat) (out : List Nat), w + p - t ≤ fuel →
      (t = w + p ∨ (t % 8 = 0 ∧ t < w + p ∧ ac = (ac0 + t / 8) % 2 ^ 32)) →
      render4Row readPlanes (w : Int) fuel (((t : Nat) : Int) - (p : Int)) ac out
        = some (out ++ rowSegment pix p t (w + p)) := by
  intro fuel
  induction fuel with
  | zero =>
    intro t ac out hf ht
    have htw : t = w + p := by omega
    subst htw
    unfold render4Row
    rw [if_neg (by omega), rowSegment_self, List.append_nil]
  | succ fuel ih =>
    intro t ac out hf ht
    unfold render4Row
    rcases ht with htw | ⟨h8, hlt, hac⟩
    · subst htw
      rw [if_neg (by omega), rowSegment_self, List.append_nil]
    · rw [if_pos (by omega)]
      have hin := render4Pixels_spec w p (readPlanes ac % 2 ^ 32) t pix
        (fun j hj => by
          rw [hpix (t + j), hac]
          have h1 : (t + j) / 8 = t / 8 := by omega
          have h2 : (t + j) % 8 = j := by omega
          rw [h1, h2]) 8 0 out rfl (by omega)
      simp only [pow_zero, Nat.mul_one, Nat.mod_mod, Nat.add_zero] at hin
      simp only [hin]
      rw [ih (min (t + 8) (w + p)) _ _ (by omega) (by
        by_cases hE : t + 8 < w + p
        · right
          refine ⟨by omega, by omega, ?_⟩
          rw [hac]
          have : min (t + 8) (w + p) = t + 8 := by omega
          rw [this]
          omega
        · left
          omega)]
      rw [List.append_assoc, rowSegment_append pix p t _ _ (by omega) (by omega)]

theorem toS32_nonneg (x : Nat) (h : x % 2 ^ 32 < 2 ^ 31) : toS32 x = ((x % 2 ^ 32 : Nat) : Int) := by
  unfold toS32
  rw [if_pos h]

/-- One row of `Render4BPP`: the column loop started at `-horizontal_panning`
stores the row the specification describes. -/
theorem render4Row_full (readPlanes : Nat → Nat) (w p ac0 : Nat) :
    render4Row readPlanes (w : Int) (((w : Int) + (p : Int)).toNat) (-(p : Int))
        (ac0 % 2 ^ 32) []
      = some (specRow readPlanes (ac0 % 2 ^ 32) p w) := by
  have h := render4Row_spec readPlanes w p (ac0 % 2 ^ 32)
    (fun pos => specPixel (readPlanes ((ac0 % 2 ^ 32 + pos / 8) % 2 ^ 32) % 2 ^ 32) (pos % 8))
    (fun pos => rfl) (w + p) 0 (ac0 % 2 ^ 32) [] (by omega)
    (by
      by_cases h0 : 0 = w + p
      · left; exact h0
      · right
        refine ⟨rfl, by omega, ?_⟩
        omega)
  have hfuel : ((w : Int) + (p : Int)).toNat = w + p := by omega
  have hcol : (((0 : Nat) : Int) - (p : Int)) = -(p : Int) := by simp
  rw [hfuel, ← hcol, h, List.nil_append, rowSegment_full]
  rfl

theorem render4Rows_spec (ReadVRAMPlanes : BaseState → Nat → Nat → Nat → Nat)
    (fb_stride : Nat) (s : Device)
    (hw : s.base.m_render_latch.render_width % 2 ^ 32 < 2 ^ 31) :
    ∀ (n row : Nat) (acc : List (Nat × List Nat)),
      render4Rows ReadVRAMPlanes fb_stride s n row (row * fb_stride) acc
        = some (acc ++ specRows ReadVRAMPlanes fb_stride s row n) := by
  intro n
  induction n with
  | zero =>
    intro row acc
    simp [render4Rows, specRows]
  | succ n ih =>
    intro row acc
    unfold render4Rows
    simp only [toS32_nonneg _ hw]
    have hrow := render4Row_full
      (fun a => ReadVRAMPlanes s.base s.base.m_render_latch.start_address a row)
      (s.base.m_render_latch.render_width % 2 ^ 32)
      (s.base.m_render_latch.horizontal_panning % 256)
      (row * (s.base.m_render_latch.pitch % 2 ^ 32))
    rw [hrow]
    simp only []
    have hfb : row * fb_stride + fb_stride = (row + 1) * fb_stride := by ring
    rw [hfb, ih (row + 1)]
    unfold specRows
    rw [List.range'_succ, List.map_cons, List.append_assoc]
    rfl

theorem specPixel_bit (word i j : Nat) (hj : j < 4) :
    specPixel word i / 2 ^ j % 2 = (word / 256 ^ j % 256) / 2 ^ (7 - i) % 2 := by
  unfold specPixel
  interval_cases j <;> norm_num <;>
    generalize word % 256 / 2 ^ (7 - i) = x0 <;>
    generalize word / 256 % 256 / 2 ^ (7 - i) = x1 <;>
    generalize word / 65536 % 256 / 2 ^ (7 - i) = x2 <;>
    generalize word / 16777216 % 256 / 2 ^ (7 - i) = x3 <;>
    omega

/-- The row loop of `Render4BPP` produces the rows described by `specRows`. -/
theorem Render4BPP_eq_specRows (ReadVRAMPlanes : BaseState → Nat → Nat → Nat → Nat)
    (fb_stride : Nat) (s : Device)
    (hw : s.base.m_render_latch.render_width % 2 ^ 32 < 2 ^ 31) :
    Render4BPP ReadVRAMPlanes fb_stride s
      = some (specRows ReadVRAMPlanes fb_stride s 0
          (s.base.m_render_latch.render_height % 2 ^ 32)) := by
  unfold Render4BPP
  have h := render4Rows_spec ReadVRAMPlanes fb_stride s hw
    (s.base.m_render_latch.render_height % 2 ^ 32) 0 []
  rw [Nat.zero_mul, List.nil_append] at h
  exact h

/-- C22: for a latch whose `render_width`, read as `s32`, is not negative,
`Render4BPP` finishes and stores, for each of the `render_height` rows, exactly
`render_width` bytes at the row's offset (none when the width is zero); byte `k`
of a row is the 4-bit value whose bit `j` is bit `7 - ((k + p) mod 8)` of byte `j`
of the plane word that `ReadVRAMPlanes` returns for the address counter
`row * pitch + (k + p) div 8` (in `u32` arithmetic), `p` being the horizontal
panning. -/
theorem Render4BPP_row_composition (ReadVRAMPlanes : BaseState → Nat → Nat → Nat → Nat)
    (fb_stride : Nat) (s : Device)
    (hw : s.base.m_render_latch.render_width % 2 ^ 32 < 2 ^ 31) :
    Render4BPP ReadVRAMPlanes fb_stride s
      = some ((List.range (s.base.m_render_latch.render_height % 2 ^ 32)).map fun row =>
          (row * fb_stride,
            (List.range (s.base.m_render_latch.render_width % 2 ^ 32)).map fun k =>
              specPixel
                (ReadVRAMPlanes s.base s.base.m_render_latch.start_address
                  (((row * (s.base.m_render_latch.pitch % 2 ^ 32)) % 2 ^ 32
                    + (k + s.base.m_render_latch.horizontal_panning % 256) / 8) % 2 ^ 32)
                  row % 2 ^ 32)
                ((k + s.base.m_render_latch.horizontal_panning % 256) % 8)))
    ∧ (∀ row bytes, (row, bytes) ∈ ((Render4BPP ReadVRAMPlanes fb_stride s).getD []) →
        bytes.length = s.base.m_render_latch.render_width % 2 ^ 32)
    ∧ (∀ word i j : Nat, j < 4 →
        specPixel word i / 2 ^ j % 2 = (word / 256 ^ j % 256) / 2 ^ (7 - i) % 2)
    ∧ (∀ word i : Nat, specPixel word i < 16) := by
  have hmain := Render4BPP_eq_specRows ReadVRAMPlanes fb_stride s hw
  refine ⟨?_, ?_, fun word i j hj => specPixel_bit word i j hj, fun word i => ?_⟩
  · rw [hmain, specRows, ← List.range_eq_range']
    rfl
  · intro row bytes hmem
    rw [hmain] at hmem
    simp only [Option.getD_some, specRows, List.mem_map] at hmem
    obtain ⟨r, -, hr⟩ := hmem
    have hb : bytes = _ := (Prod.mk.inj hr).2.symm
    rw [hb]
    simp [specRow]
  · unfold specPixel
    omega

/-- Witness for C22: two rows of ten pixels with a panning of three pixels. -/
theorem Render4BPP_row_composition_witness :
    Render4BPP samplePlanes 1024 latchedDevice
      = some [(0, [1, 0, 0, 0, 0, 8, 4, 2, 1, 0]), (1024, [0, 0, 0, 0, 2, 8, 5, 3, 0, 0])] := by
  rw [(Render4BPP_row_composition samplePlanes 1024 latchedDevice (by decide)).1]
  decide

/-- C21, the code at the failing input: in enabled 4-bpp mode with `offset_x = 3`,
`offset_y = 0` and `virt_width = 640` the latch is in range and has pitch 80, but
its start address is 0 and its horizontal panning is 0, so that
`(start_address - offset_y * pitch) * 8 + horizontal_panning` is 0 and not 3; with
this latch the first byte `Render4BPP` stores is the pixel at position 0 of the
plane word at address counter 0, whatever `ReadVRAMPlanes` returns. -/
theorem latch_panning_ignores_offset_x :
    pannedPlanarDevice.vbe.enable bochsConsts = true
    ∧ pannedPlanarDevice.vbe.m_vbe_bpp = 4
    ∧ pannedPlanarDevice.vbe.m_vbe_offset_x = 3
    ∧ pannedPlanarDevice.vbe.m_vbe_offset_y = 0
    ∧ pannedPlanarDevice.vbe.m_vbe_virt_width = 640
    ∧ (LatchStartAddress bochsConsts idleBase pannedPlanarDevice).map
        (fun s => (s.base.m_render_latch.pitch, s.base.m_render_latch.start_address,
          s.base.m_render_latch.horizontal_panning, RenderGraphicsMode bochsConsts s))
        = some (80, 0, 0, RenderAction.Render4BPP)
    ∧ (pannedPlanarLatched.base.m_render_latch.start_address
          - pannedPlanarDevice.vbe.m_vbe_offset_y * pannedPlanarLatched.base.m_render_latch.pitch) * 8
        + pannedPlanarLatched.base.m_render_latch.horizontal_panning = 0
    ∧ pannedPlanarDevice.vbe.m_vbe_offset_x % 8 ≠ 0
    ∧ ∀ (ReadVRAMPlanes : BaseState → Nat → Nat → Nat → Nat) (fb_stride : Nat),
        ∃ rest tail, Render4BPP ReadVRAMPlanes fb_stride pannedPlanarLatched
          = some ((0, specPixel (ReadVRAMPlanes pannedPlanarLatched.base 0 0 0 % 2 ^ 32) 0 :: rest)
              :: tail) := by
  refine ⟨by decide, by decide, by decide, by decide, by decide, by decide, by decide,
    by decide, fun ReadVRAMPlanes fb_stride => ?_⟩
  have hw : pannedPlanarLatched.base.m_render_latch.render_width % 2 ^ 32 = 639 + 1 := by decide
  have hh : pannedPlanarLatched.base.m_render_latch.render_height % 2 ^ 32 = 479 + 1 := by decide
  have hp : pannedPlanarLatched.base.m_render_latch.horizontal_panning % 256 = 0 := by decide
  have hs : pannedPlanarLatched.base.m_render_latch.start_address = 0 := by decide
  rw [Render4BPP_eq_specRows ReadVRAMPlanes fb_stride pannedPlanarLatched (by decide)]
  rw [hh, specRows, List.range'_succ, List.map_cons, hw, hp, hs, specRow,
    List.range_succ_eq_map, List.map_cons]
  simp only [Nat.zero_mul, Nat.zero_mod, Nat.zero_add, Nat.zero_div, Nat.add_zero]
  exact ⟨_, _, rfl⟩

end HW
